import Mathlib

/-!
# Verification development for the Nimiq RPC client (`nimiqrpc`)

Shallow embedding of the currency converter (`FormatNIM`, `FormatLuna` in
`type.go`), of the call dispatcher of `client.go` and of the method catalog of
`api.go`.

Conventions of the embedding:

* a Go `string` is a `List Char`; every string the converter inspects or
  builds is compared, sliced and searched at ASCII characters only, so the
  index arithmetic on characters is the index arithmetic on bytes;
* `int` and `int64` (`Luna`) are `Int`, with the 64-bit bounds written out
  where they matter;
* a slice expression that would fail at run time yields `none`;
* a Go result pair `(value, error)` is a pair whose second component is an
  `Option`: `none` is the `nil` error;
* the transport and the JSON decoders belong to libraries outside the
  package: the transport is a field of the client and threads the state of the
  world outside it through every call, the decoders are parameters of the
  methods, and the kind check of the JSON decoder is modelled where a claim
  speaks of the shape of a payload.
-/

namespace Nimiqrpc

/-! ## The standard library functions the converter calls (`strconv`, `strings`) -/

/-- The two failure kinds carried by a `*strconv.NumError`. -/
inductive NumError where
  | ErrSyntax
  | ErrRange
  deriving DecidableEq, Repr

/-- The largest `uint64`. -/
def maxUint64 : Nat := 2 ^ 64 - 1

/-- The largest `int64` (and `int`, which is 64 bits wide). -/
def maxInt64 : Int := 2 ^ 63 - 1

/-- The smallest `int64`. -/
def minInt64 : Int := -(2 ^ 63)

/-- Go `strconv.Itoa`: the decimal numeral of `i`, with a leading `-` for a
negative value. -/
def Itoa (i : Int) : List Char :=
  if i < 0 then '-' :: Nat.toDigits 10 i.natAbs else Nat.toDigits 10 i.natAbs

/-- The digit loop of `strconv.ParseUint(s, 10, 64)`, started with the value
`n` read so far. A character that is not a decimal digit stops the loop with a
syntax error; a value that leaves the `uint64` range stops it with a range
error and the value `maxUint64`. -/
def parseUintLoop : List Char → Nat → Nat × Option NumError
  | [], n => (n, none)
  | c :: cs, n =>
    if c.isDigit then
      if n ≥ maxUint64 / 10 + 1 then (maxUint64, some NumError.ErrRange)
      else if n * 10 + (c.toNat - 48) > maxUint64 then (maxUint64, some NumError.ErrRange)
      else parseUintLoop cs (n * 10 + (c.toNat - 48))
    else (0, some NumError.ErrSyntax)

/-- Go `strconv.ParseUint(s, 10, 64)`. -/
def ParseUint (s : List Char) : Nat × Option NumError :=
  match s with
  | [] => (0, some NumError.ErrSyntax)
  | _ :: _ => parseUintLoop s 0

/-- Go `strconv.ParseInt(s, 10, 0)`: an optional sign, then `ParseUint`, then the
check against the `int64` range. -/
def ParseInt (s : List Char) : Int × Option NumError :=
  match s with
  | [] => (0, some NumError.ErrSyntax)
  | c :: cs =>
    let neg : Bool := c == '-'
    let s1 : List Char := if c == '+' || c == '-' then cs else c :: cs
    match ParseUint s1 with
    | (_, some NumError.ErrSyntax) => (0, some NumError.ErrSyntax)
    | (un, _) =>
      if !neg && decide (un ≥ 2 ^ 63) then (2 ^ 63 - 1, some NumError.ErrRange)
      else if neg && decide (un > 2 ^ 63) then (-(2 ^ 63), some NumError.ErrRange)
      else (if neg then -(un : Int) else (un : Int), none)

/-- Go `strconv.Atoi`: `ParseInt(s, 10, 0)` converted to `int`. The shortcut the
library takes for inputs of fewer than 19 bytes computes the same result and is
not modelled separately. -/
def Atoi (s : List Char) : Int × Option NumError := ParseInt s

/-- Go `strings.Index(s, ".")` for a one-character pattern `c`: the position of
the first occurrence, or `-1`. -/
def Index (s : List Char) (c : Char) : Int :=
  if c ∈ s then (s.indexOf c : Int) else -1

/-- The slice expression `s[lo:hi]`; `none` when the bounds are out of range. -/
def slice (s : List Char) (lo hi : Int) : Option (List Char) :=
  if 0 ≤ lo ∧ lo ≤ hi ∧ hi ≤ (s.length : Int) then
    some ((s.take hi.toNat).drop lo.toNat)
  else none

/-! ## `type.go`: the currency converter -/

/-- The padding loop of `FormatNIM`,
`for i := len(nimString); i < 5; i++ { nimString = "0" + nimString }`,
indexed by the number `5 - i` of iterations still to run. -/
def padLoop : Nat → List Char → List Char
  | 0, s => s
  | k + 1, s => padLoop k ('0' :: s)

/-- One test of the condition of the padding loop of `FormatNIM` on the state
`(i, nimString)`: the state after the body and `i++` when `i < 5`, `none` when
the loop is left. -/
def padStep (st : Nat × List Char) : Option (Nat × List Char) :=
  if st.1 < 5 then some (st.1 + 1, '0' :: st.2) else none

/-- The padding loop run for at most `fuel` iterations. -/
def padIter : Nat → Nat × List Char → Nat × List Char
  | 0, st => st
  | fuel + 1, st =>
    match padStep st with
    | none => st
    | some st1 => padIter fuel st1

/-- Function `FormatNIM`: formats Luna to NIM. -/
def FormatNIM (l : Int) : Option (List Char) :=
  let s0 := Itoa l
  let s1 := padLoop (5 - s0.length) s0
  let s2 : Option (List Char) :=
    if s1.length = 5 then some ('0' :: '.' :: s1)
    else if s1.length > 5 then
      (slice s1 0 ((s1.length : Int) - 5)).bind fun a =>
        (slice s1 ((s1.length : Int) - 5) s1.length).bind fun b =>
          some (a ++ '.' :: b)
    else some s1
  s2.bind fun nimString =>
    (slice nimString ((nimString.length : Int) - 5) nimString.length).bind fun t =>
      if t = ['0', '0', '0', '0', '0'] then
        slice nimString 0 ((nimString.length : Int) - 6)
      else some nimString

/-- The `switch` of `FormatNIM` that inserts the separator into the padded
string. -/
def insertSeparator (s1 : List Char) : Option (List Char) :=
  if s1.length = 5 then some ('0' :: '.' :: s1)
  else if s1.length > 5 then
    (slice s1 0 ((s1.length : Int) - 5)).bind fun a =>
      (slice s1 ((s1.length : Int) - 5) s1.length).bind fun b =>
        some (a ++ '.' :: b)
  else some s1

/-- The last statement of `FormatNIM`: the string without its last 6
characters when the last 5 are `00000`, the string itself otherwise. -/
def dropZeroFraction (nimString : List Char) : Option (List Char) :=
  (slice nimString ((nimString.length : Int) - 5) nimString.length).bind fun t =>
    if t = ['0', '0', '0', '0', '0'] then
      slice nimString 0 ((nimString.length : Int) - 6)
    else some nimString

/-- Function `FormatLuna`: formats NIM to Luna. -/
def FormatLuna (n : List Char) : Option (Int × Option NumError) :=
  let dotIndex := Index n '.'
  let s : Option (List Char) :=
    if dotIndex = -1 then some (n ++ ['0', '0', '0', '0', '0'])
    else
      (slice n 0 dotIndex).bind fun a =>
        (slice n (dotIndex + 1) n.length).bind fun b => some (a ++ b)
  s.bind fun nimString =>
    match Atoi nimString with
    | (_, some err) => some (0, some err)
    | (luna, none) => some (luna, none)

/-! ## `type.go`: the records

Every field has the zero value of its Go type as default, so `{}` is the zero
value of a record. -/

/-- A Go `float64`, carried as its 64-bit pattern; no arithmetic is done on
it. -/
structure Float64 where
  bits : Nat := 0
  deriving DecidableEq, Repr

/-- The zero value of `float64`. -/
def Float64.zero : Float64 := { bits := 0 }

/-- Record `Account`. The field `Type` of the source is `Type_` here. -/
structure Account where
  ID : String := ""
  Address : String := ""
  Balance : Int := 0
  Type_ : Int := 0
  Owner : String := ""
  OwnerAddress : String := ""
  VestingStart : Int := 0
  VestingStepBlocks : Int := 0
  VestingStepAmount : Int := 0
  VestingTotalAmount : Int := 0
  Sender : String := ""
  SenderAddress : String := ""
  Recipient : String := ""
  RecipientAddress : String := ""
  HashRoot : String := ""
  HashCount : Int := 0
  Timeout : Int := 0
  TotalAmount : Int := 0
  deriving DecidableEq, Repr

/-- Record `Transaction`. -/
structure Transaction where
  Hash : String := ""
  BlockHash : String := ""
  BlockNumber : Int := 0
  Timestamp : Int := 0
  Confirmations : Int := 0
  TransactionIndex : Int := 0
  From : String := ""
  FromAddress : String := ""
  To : String := ""
  ToAddress : String := ""
  Value : Int := 0
  Fee : Int := 0
  Data : String := ""
  Flags : Int := 0
  deriving DecidableEq, Repr

/-- Record `TransactionReceipt`. -/
structure TransactionReceipt where
  TransactionHash : String := ""
  TransactionIndex : Int := 0
  BlockHash : String := ""
  BlockNumber : Int := 0
  Confirmations : Int := 0
  Timestamp : Int := 0
  deriving DecidableEq, Repr

/-- Record `Work`. -/
structure Work where
  Data : String := ""
  Suffix : String := ""
  Target : Int := 0
  Algorithm : String := ""
  deriving DecidableEq, Repr

/-- Record `Block`. `Raw` is the type of the undecoded payload kept in `Transactions`
(`json.RawMessage`); `Difficulty` (`json.Number`) is its text. -/
structure Block (Raw : Type) where
  Number : Int := 0
  Hash : String := ""
  POW : String := ""
  ParentHash : String := ""
  Nonce : Int := 0
  BodyHash : String := ""
  AccountHash : String := ""
  Miner : String := ""
  MinerAddress : String := ""
  Difficulty : String := ""
  ExtraData : String := ""
  Size : Int := 0
  Timestamp : Int := 0
  Transactions : Raw
  TransactionHashes : List String := []
  TransactionObjects : List Transaction := []

/-- Record `BlockTemplateHeader`. -/
structure BlockTemplateHeader where
  Version : Int := 0
  PrevHash : String := ""
  InterlinkHash : String := ""
  AccountHash : String := ""
  NBits : Int := 0
  Height : Int := 0
  deriving DecidableEq, Repr

/-- Record `BlockTemplateBody`. -/
structure BlockTemplateBody where
  Hash : String := ""
  MinerAddr : String := ""
  ExtraData : String := ""
  Transactions : List String := []
  PrunedAccounts : List String := []
  MerkleHashes : List String := []
  deriving DecidableEq, Repr

/-- Record `BlockTemplate`. -/
structure BlockTemplate where
  Header : BlockTemplateHeader := {}
  Interlink : String := ""
  Body : BlockTemplateBody := {}
  Target : Int := 0
  deriving DecidableEq, Repr

/-- Record `Mempool`. -/
structure Mempool where
  Total : Int := 0
  Buckets : List Int := []
  Bucket0 : Int := 0
  Bucket1 : Int := 0
  Bucket2 : Int := 0
  Bucket5 : Int := 0
  Bucket10 : Int := 0
  Bucket20 : Int := 0
  Bucket50 : Int := 0
  Bucket100 : Int := 0
  Bucket200 : Int := 0
  Bucket500 : Int := 0
  Bucket1000 : Int := 0
  Bucket2000 : Int := 0
  Bucket5000 : Int := 0
  deriving DecidableEq, Repr

/-- Record `Peer`. -/
structure Peer where
  ID : String := ""
  Address : String := ""
  AddressState : Int := 0
  ConnectionState : Int := 0
  Version : Int := 0
  TimeOffset : Int := 0
  HeadHash : String := ""
  Latency : Int := 0
  RX : Int := 0
  TX : Int := 0
  deriving DecidableEq, Repr

/-- Record `OutgoingTransaction`. -/
structure OutgoingTransaction where
  From : String := ""
  FromType : Int := 0
  To : String := ""
  ToType : Int := 0
  Value : Int := 0
  Fee : Int := 0
  Data : String := ""
  deriving DecidableEq, Repr

/-- Record `SyncStatus`. -/
structure SyncStatus where
  StartingBlock : Int := 0
  CurrentBlock : Int := 0
  HighestBlock : Int := 0
  deriving DecidableEq, Repr

/-- Record `Wallet`. -/
structure Wallet where
  ID : String := ""
  Address : String := ""
  PublicKey : String := ""
  PrivateKey : String := ""
  deriving DecidableEq, Repr

/-! ## `client.go`: errors and parameters -/

/-- The Go `error` values that pass through the client: the four package
variables of `client.go`, a value built by `fmt.Errorf`, and an error that
comes from a collaborator outside the package (the transport, the JSON
decoder). Two errors are equal when they are the same value; a value built
by `fmt.Errorf` is never one of the package variables. -/
inductive Error where
  | ErrRespBodyEmpty
  | ErrResultUnexpected
  | ErrUnauthorized
  | ErrNotAuthenticated
  | Errorf (msg : String)
  | foreign (msg : String)
  deriving DecidableEq, Repr

/-- The message of an error (what its `Error()` method returns). -/
def Error.message : Error → String
  | Error.ErrRespBodyEmpty => "the HTTP response body was empty"
  | Error.ErrResultUnexpected => "unexpected result"
  | Error.ErrUnauthorized => "unauthorized"
  | Error.ErrNotAuthenticated => "not authenticated"
  | Error.Errorf msg => msg
  | Error.foreign msg => msg

/-- The value of `fmt.Errorf("%v: %v", a, b)`. -/
def Errorf_v_v (a b : Error) : Error :=
  Error.Errorf (a.message ++ ": " ++ b.message)

/-- A value passed as `params` of a call (`interface{}`): `nil`, a string, an
integer, a boolean, an `OutgoingTransaction`, or a list (`[]interface{}`). -/
inductive Param where
  | null
  | str (s : String)
  | int (i : Int)
  | bool (b : Bool)
  | outgoing (trn : OutgoingTransaction)
  | list (ps : List Param)

/-! ## The shapes of `encoding/json`

The part of the decoder of the standard library the claims depend on: which
kind of JSON value decodes into which kind of Go destination. The decoding of
the members of an object into the fields of a record is a parameter. -/

/-- A JSON value. -/
inductive JSON where
  | null
  | bool (b : Bool)
  | number (literal : String)
  | string (s : String)
  | array (elems : List JSON)
  | object (members : List (String × JSON))

/-- The name the decoder gives to the kind of a JSON value. -/
def JSON.kind : JSON → String
  | JSON.null => "null"
  | JSON.bool _ => "bool"
  | JSON.number _ => "number"
  | JSON.string _ => "string"
  | JSON.array _ => "array"
  | JSON.object _ => "object"

/-- The error of the decoder for a JSON value of the wrong kind
(`*json.UnmarshalTypeError`). -/
def UnmarshalTypeError (j : JSON) (goType : String) : Error :=
  Error.foreign ("json: cannot unmarshal " ++ j.kind ++ " into Go value of type " ++ goType)

/-- Decoding into a Go `bool`: a JSON boolean is stored, `null` leaves the
destination as it is, every other kind is an error. -/
def unmarshalBool (j : JSON) (dst : Bool) : Except Error Bool :=
  match j with
  | JSON.bool b => Except.ok b
  | JSON.null => Except.ok dst
  | _ => Except.error (UnmarshalTypeError j "bool")

/-- Decoding into a Go `string`: a JSON string is stored, `null` leaves the
destination as it is, every other kind is an error. -/
def unmarshalString (j : JSON) (dst : String) : Except Error String :=
  match j with
  | JSON.string x => Except.ok x
  | JSON.null => Except.ok dst
  | _ => Except.error (UnmarshalTypeError j "string")

/-- Decoding into a Go integer of 64 bits (`int`, `int64`, `Luna`): the literal
of a JSON number is read by `strconv.ParseInt` and stored when it is an integer
in range, `null` leaves the destination as it is, everything else is an
error. -/
def unmarshalInt (goType : String) (j : JSON) (dst : Int) : Except Error Int :=
  match j with
  | JSON.number literal =>
    match ParseInt literal.toList with
    | (n, none) => Except.ok n
    | (_, some _) => Except.error (UnmarshalTypeError j goType)
  | JSON.null => Except.ok dst
  | _ => Except.error (UnmarshalTypeError j goType)

/-- Decoding into a Go struct: the members of a JSON object are decoded into
the fields by `members`, `null` leaves the destination as it is, every other
kind is an error. -/
def unmarshalStruct {T : Type} (goType : String)
    (members : List (String × JSON) → T → Except Error T) (j : JSON) (dst : T) :
    Except Error T :=
  match j with
  | JSON.object ms => members ms dst
  | JSON.null => Except.ok dst
  | _ => Except.error (UnmarshalTypeError j goType)

/-- Decoding the elements of a JSON array one by one; the first error is the
error of the whole. -/
def unmarshalElems {T : Type} (elem : JSON → Except Error T) :
    List JSON → Except Error (List T)
  | [] => Except.ok []
  | x :: xs =>
    match elem x with
    | Except.error err => Except.error err
    | Except.ok y =>
      match unmarshalElems elem xs with
      | Except.error err => Except.error err
      | Except.ok ys => Except.ok (y :: ys)

/-- Decoding into a Go slice: the elements of a JSON array replace the
destination, `null` sets the destination to the nil slice (the empty list),
every other kind is an error. -/
def unmarshalSlice {T : Type} (goType : String) (elem : JSON → Except Error T) (j : JSON)
    (_dst : List T) : Except Error (List T) :=
  match j with
  | JSON.array xs => unmarshalElems elem xs
  | JSON.null => Except.ok []
  | _ => Except.error (UnmarshalTypeError j goType)

/-- Decoding into `[]string`, as `json.Unmarshal(raw, &dst)` does. -/
def unmarshalStrings (j : JSON) (dst : List String) : Except Error (List String) :=
  unmarshalSlice "[]string" (fun x => unmarshalString x "") j dst

/-- Decoding into `[]Transaction`; `members` decodes the members of an object
into the fields of a `Transaction`. -/
def unmarshalTransactions (members : List (String × JSON) → Transaction → Except Error Transaction)
    (j : JSON) (dst : List Transaction) : Except Error (List Transaction) :=
  unmarshalSlice "[]nimiqrpc.Transaction"
    (fun x => unmarshalStruct "nimiqrpc.Transaction" members x {}) j dst

/-! ## `client.go`: the call dispatcher -/

/-- A request of a batch (`jsonrpc.RPCRequest`). -/
structure RPCRequest where
  Method : String
  Params : Param
  ID : Int := 0
  JSONRPC : String := ""

/-- The error a response can carry (`jsonrpc.RPCError`). -/
structure RPCError where
  Code : Int := 0
  Message : String := ""
  Data : JSON := JSON.null

/-- A response of a batch (`jsonrpc.RPCResponse`). -/
structure RPCResponse where
  JSONRPC : String := ""
  Result : JSON := JSON.null
  Error : Option RPCError := none
  ID : Int := 0

/-- The client. Its field `rpcClient` is the transport of the JSON-RPC library:
`rpcClient.Call(method, params)` returns a response or an error. `Resp` is the
type of responses (`*jsonrpc.RPCResponse`). The transport is a remote node, so
a call is an exchange that changes the state `σ` of the world outside the
client: every use of the transport takes the state before the exchange and
yields the state after it. The field `batchExchange` is the exchange under
`rpcClient.CallBatch`: it sends a list of requests as one unit and delivers
the responses of the node, in the order the node chooses, or fails. -/
structure Client (Resp : Type) (σ : Type) where
  rpcClient : String → Param → σ → Except Error Resp × σ
  batchExchange : List RPCRequest → σ → Except Error (List RPCResponse) × σ :=
    fun _ s => (Except.ok [], s)

/-- Method `Client.Call`: hands method and parameters to the transport. -/
def Client.Call {Resp σ : Type} (nc : Client Resp σ) (method : String) (params : Param)
    (s : σ) : Except Error Resp × σ :=
  nc.rpcClient method params s

/-- Modelled from the spec: the identifiers the batch call of the JSON-RPC
library (not part of the repository) gives to the requests, "each with method
name and parameters and an implicit correlation identifier". The identifier of
a request is its position in the batch, counted from `i`. -/
def assignIDsFrom : Nat → List RPCRequest → List RPCRequest
  | _, [] => []
  | i, r :: rs => { r with ID := (i : Int), JSONRPC := "2.0" } :: assignIDsFrom (i + 1) rs

/-- Modelled from the spec: the batch call `rpcClient.CallBatch` of the
JSON-RPC library (not part of the repository): it "accepts an ordered list of
independently constructed requests", "sends them as one logical unit, and
returns a collection of raw responses"; "the aggregate call reports success
even if a subset of the individual responses carries an error". The call
fails when the exchange fails. -/
def rpcClientCallBatch {Resp σ : Type} (nc : Client Resp σ) (requests : List RPCRequest)
    (s : σ) : (List RPCResponse × Option Error) × σ :=
  match nc.batchExchange (assignIDsFrom 0 requests) s with
  | (Except.error err, s1) => (([], some err), s1)
  | (Except.ok responses, s1) => ((responses, none), s1)

/-- Method `Client.CallBatch`: hands the requests to the batch call of the
library. -/
def Client.CallBatch {Resp σ : Type} (nc : Client Resp σ) (reqs : List RPCRequest) (s : σ) :
    (List RPCResponse × Option Error) × σ :=
  rpcClientCallBatch nc reqs s

/-- Function `NewRequest` of `client.go`: a request for `CallBatch`, built by
`jsonrpc.NewRequest` from the method and the list of parameters. -/
def NewRequest (method : String) (params : List Param) : RPCRequest :=
  { Method := method, Params := Param.list params, JSONRPC := "2.0" }

/-- Modelled from the spec: the helper `HasError` of the collection of
responses (not part of the repository), "a helper predicate (`hasError`) scans
the collection and flags this case": true when a response carries an error. -/
def HasError (responses : List RPCResponse) : Bool :=
  responses.any fun r => r.Error.isSome

/-- Modelled from the spec: the lookup of a response by identifier (not part
of the repository), "each response must be correlated back to its originating
request via its identifier": the first response that carries the identifier. -/
def GetByID (responses : List RPCResponse) (id : Int) : Option RPCResponse :=
  responses.find? fun r => decide (r.ID = id)

/-! ## `api.go`: the typed method catalog

The JSON decoding of the libraries is a parameter of each method:
`GetObject` stands for `rpcResp.GetObject(&result)` at the destination type of
the method, started from the zero value, and `UnmarshalObjects`,
`UnmarshalHashes` stand for `json.Unmarshal(result.Transactions, &dst)`, which
also see the current value of `dst`. Every method takes the state of the world
before it runs and returns the state after it. -/

section api

variable {Resp Raw σ : Type}

/-- Method `Accounts` of `api.go`. -/
def Client.Accounts (nc : Client Resp σ) (GetObject : Resp → Except Error (List Account))
    (s : σ) : ((List Account) × Option Error) × σ :=
  match nc.Call "accounts" Param.null s with
  | (Except.error err, s1) => (([], some err), s1)
  | (Except.ok rpcResp, s1) =>
    match GetObject rpcResp with
    | Except.error err => (([], some (Errorf_v_v Error.ErrResultUnexpected err)), s1)
    | Except.ok result => ((result, none), s1)

/-- Method `BlockNumber` of `api.go`. -/
def Client.BlockNumber (nc : Client Resp σ) (GetObject : Resp → Except Error Int)
    (s : σ) : (Int × Option Error) × σ :=
  match nc.Call "blockNumber" Param.null s with
  | (Except.error err, s1) => ((0, some err), s1)
  | (Except.ok rpcResp, s1) =>
    match GetObject rpcResp with
    | Except.error err => ((0, some (Errorf_v_v Error.ErrResultUnexpected err)), s1)
    | Except.ok result => ((result, none), s1)

/-- Method `Consensus` of `api.go`. -/
def Client.Consensus (nc : Client Resp σ) (GetObject : Resp → Except Error String)
    (s : σ) : (String × Option Error) × σ :=
  match nc.Call "consensus" Param.null s with
  | (Except.error err, s1) => (("", some err), s1)
  | (Except.ok rpcResp, s1) =>
    match GetObject rpcResp with
    | Except.error err => (("", some (Errorf_v_v Error.ErrResultUnexpected err)), s1)
    | Except.ok result => ((result, none), s1)

/-- Method `CreateAccount` of `api.go`. -/
def Client.CreateAccount (nc : Client Resp σ) (GetObject : Resp → Except Error Wallet)
    (s : σ) : (Option Wallet × Option Error) × σ :=
  match nc.Call "createAccount" Param.null s with
  | (Except.error err, s1) => ((none, some err), s1)
  | (Except.ok rpcResp, s1) =>
    match GetObject rpcResp with
    | Except.error err => ((none, some (Errorf_v_v Error.ErrResultUnexpected err)), s1)
    | Except.ok result => ((some result, none), s1)

/-- Method `CreateRawTransaction` of `api.go`. When the decoding fails, the
source returns the error of the decoder itself (`return "", err`). -/
def Client.CreateRawTransaction (nc : Client Resp σ) (GetObject : Resp → Except Error String)
    (trn : OutgoingTransaction) (s : σ) : (String × Option Error) × σ :=
  match nc.Call "createRawTransaction" (Param.outgoing trn) s with
  | (Except.error err, s1) => (("", some err), s1)
  | (Except.ok rpcResp, s1) =>
    match GetObject rpcResp with
    | Except.error err => (("", some err), s1)
    | Except.ok result => ((result, none), s1)

/-- Method `GetAccount` of `api.go`. -/
def Client.GetAccount (nc : Client Resp σ) (GetObject : Resp → Except Error Account) (address : String)
    (s : σ) : (Option Account × Option Error) × σ :=
  match nc.Call "getAccount" (Param.str address) s with
  | (Except.error err, s1) => ((none, some err), s1)
  | (Except.ok rpcResp, s1) =>
    match GetObject rpcResp with
    | Except.error err => ((none, some (Errorf_v_v Error.ErrResultUnexpected err)), s1)
    | Except.ok result => ((some result, none), s1)

/-- Method `GetBalance` of `api.go`. -/
def Client.GetBalance (nc : Client Resp σ) (GetObject : Resp → Except Error Int) (address : String)
    (s : σ) : (Int × Option Error) × σ :=
  match nc.Call "getBalance" (Param.str address) s with
  | (Except.error err, s1) => ((0, some err), s1)
  | (Except.ok rpcResp, s1) =>
    match GetObject rpcResp with
    | Except.error err => ((0, some (Errorf_v_v Error.ErrResultUnexpected err)), s1)
    | Except.ok result => ((result, none), s1)

/-- Method `GetBlockByHash` of `api.go`. -/
def Client.GetBlockByHash (nc : Client Resp σ) (GetObject : Resp → Except Error (Block Raw))
    (UnmarshalObjects : Raw → List Transaction → Except Error (List Transaction))
    (UnmarshalHashes : Raw → List String → Except Error (List String))
    (blockHash : String) (fullTransactions : Bool) (s : σ) :
    (Option (Block Raw) × Option Error) × σ :=
  match nc.Call "getBlockByHash" (Param.list [Param.str blockHash, Param.bool fullTransactions]) s with
  | (Except.error err, s1) => ((none, some err), s1)
  | (Except.ok rpcResp, s1) =>
    match GetObject rpcResp with
    | Except.error err => ((none, some (Errorf_v_v Error.ErrResultUnexpected err)), s1)
    | Except.ok result =>
      if result.Hash = "" then ((none, some Error.ErrResultUnexpected), s1)
      else if fullTransactions then
        match UnmarshalObjects result.Transactions result.TransactionObjects with
        | Except.error err => ((none, some (Errorf_v_v Error.ErrResultUnexpected err)), s1)
        | Except.ok objects => ((some { result with TransactionObjects := objects }, none), s1)
      else
        match UnmarshalHashes result.Transactions result.TransactionHashes with
        | Except.error err => ((none, some (Errorf_v_v Error.ErrResultUnexpected err)), s1)
        | Except.ok hashes => ((some { result with TransactionHashes := hashes }, none), s1)

/-- Method `GetBlockByNumber` of `api.go`. -/
def Client.GetBlockByNumber (nc : Client Resp σ) (GetObject : Resp → Except Error (Block Raw))
    (UnmarshalObjects : Raw → List Transaction → Except Error (List Transaction))
    (UnmarshalHashes : Raw → List String → Except Error (List String))
    (blockNumber : Int) (fullTransactions : Bool) (s : σ) :
    (Option (Block Raw) × Option Error) × σ :=
  match nc.Call "getBlockByNumber" (Param.list [Param.int blockNumber, Param.bool fullTransactions]) s with
  | (Except.error err, s1) => ((none, some err), s1)
  | (Except.ok rpcResp, s1) =>
    match GetObject rpcResp with
    | Except.error err => ((none, some (Errorf_v_v Error.ErrResultUnexpected err)), s1)
    | Except.ok result =>
      if result.Hash = "" then ((none, some Error.ErrResultUnexpected), s1)
      else if fullTransactions then
        match UnmarshalObjects result.Transactions result.TransactionObjects with
        | Except.error err => ((none, some (Errorf_v_v Error.ErrResultUnexpected err)), s1)
        | Except.ok objects => ((some { result with TransactionObjects := objects }, none), s1)
      else
        match UnmarshalHashes result.Transactions result.TransactionHashes with
        | Except.error err => ((none, some (Errorf_v_v Error.ErrResultUnexpected err)), s1)
        | Except.ok hashes => ((some { result with TransactionHashes := hashes }, none), s1)

/-- Method `GetBlockTemplate` of `api.go`. -/
def Client.GetBlockTemplate (nc : Client Resp σ) (GetObject : Resp → Except Error BlockTemplate) (params : List Param)
    (s : σ) : (Option BlockTemplate × Option Error) × σ :=
  match nc.Call "getBlockTemplate" (Param.list params) s with
  | (Except.error err, s1) => ((none, some err), s1)
  | (Except.ok rpcResp, s1) =>
    match GetObject rpcResp with
    | Except.error err => ((none, some (Errorf_v_v Error.ErrResultUnexpected err)), s1)
    | Except.ok result => ((some result, none), s1)

/-- Method `GetBlockTransactionCountByHash` of `api.go`. -/
def Client.GetBlockTransactionCountByHash (nc : Client Resp σ) (GetObject : Resp → Except Error Int) (blockHash : String)
    (s : σ) : (Int × Option Error) × σ :=
  match nc.Call "getBlockTransactionCountByHash" (Param.str blockHash) s with
  | (Except.error err, s1) => ((0, some err), s1)
  | (Except.ok rpcResp, s1) =>
    match GetObject rpcResp with
    | Except.error err => ((0, some (Errorf_v_v Error.ErrResultUnexpected err)), s1)
    | Except.ok result => ((result, none), s1)

/-- Method `GetBlockTransactionCountByNumber` of `api.go`. -/
def Client.GetBlockTransactionCountByNumber (nc : Client Resp σ) (GetObject : Resp → Except Error Int) (blockNumber : Int)
    (s : σ) : (Int × Option Error) × σ :=
  match nc.Call "getBlockTransactionCountByNumber" (Param.int blockNumber) s with
  | (Except.error err, s1) => ((0, some err), s1)
  | (Except.ok rpcResp, s1) =>
    match GetObject rpcResp with
    | Except.error err => ((0, some (Errorf_v_v Error.ErrResultUnexpected err)), s1)
    | Except.ok result => ((result, none), s1)

/-- Method `GetTransactionByBlockHashAndIndex` of `api.go`. -/
def Client.GetTransactionByBlockHashAndIndex (nc : Client Resp σ) (GetObject : Resp → Except Error Transaction) (blockHash : String) (index : Int)
    (s : σ) : (Option Transaction × Option Error) × σ :=
  match nc.Call "getTransactionByBlockHashAndIndex" (Param.list [Param.str blockHash, Param.int index]) s with
  | (Except.error err, s1) => ((none, some err), s1)
  | (Except.ok rpcResp, s1) =>
    match GetObject rpcResp with
    | Except.error err => ((none, some (Errorf_v_v Error.ErrResultUnexpected err)), s1)
    | Except.ok result => if result.Hash = "" then ((none, none), s1) else ((some result, none), s1)

/-- Method `GetTransactionByBlockNumberAndIndex` of `api.go`. -/
def Client.GetTransactionByBlockNumberAndIndex (nc : Client Resp σ) (GetObject : Resp → Except Error Transaction) (blockNumber : Int) (index : Int)
    (s : σ) : (Option Transaction × Option Error) × σ :=
  match nc.Call "getTransactionByBlockNumberAndIndex" (Param.list [Param.int blockNumber, Param.int index]) s with
  | (Except.error err, s1) => ((none, some err), s1)
  | (Except.ok rpcResp, s1) =>
    match GetObject rpcResp with
    | Except.error err => ((none, some (Errorf_v_v Error.ErrResultUnexpected err)), s1)
    | Except.ok result => if result.Hash = "" then ((none, none), s1) else ((some result, none), s1)

/-- Method `GetTransactionByHash` of `api.go`. -/
def Client.GetTransactionByHash (nc : Client Resp σ) (GetObject : Resp → Except Error Transaction) (transactionHash : String)
    (s : σ) : (Option Transaction × Option Error) × σ :=
  match nc.Call "getTransactionByHash" (Param.str transactionHash) s with
  | (Except.error err, s1) => ((none, some err), s1)
  | (Except.ok rpcResp, s1) =>
    match GetObject rpcResp with
    | Except.error err => ((none, some (Errorf_v_v Error.ErrResultUnexpected err)), s1)
    | Except.ok result => if result.Hash = "" then ((none, none), s1) else ((some result, none), s1)

/-- Method `GetTransactionReceipt` of `api.go`. -/
def Client.GetTransactionReceipt (nc : Client Resp σ) (GetObject : Resp → Except Error TransactionReceipt) (transactionHash : String)
    (s : σ) : (Option TransactionReceipt × Option Error) × σ :=
  match nc.Call "getTransactionReceipt" (Param.str transactionHash) s with
  | (Except.error err, s1) => ((none, some err), s1)
  | (Except.ok rpcResp, s1) =>
    match GetObject rpcResp with
    | Except.error err => ((none, some (Errorf_v_v Error.ErrResultUnexpected err)), s1)
    | Except.ok result => if result.TransactionHash = "" then ((none, none), s1) else ((some result, none), s1)

/-- Method `GetTransactionsByAddress` of `api.go`. -/
def Client.GetTransactionsByAddress (nc : Client Resp σ) (GetObject : Resp → Except Error (List Transaction)) (address : String) (maxEntries : Int)
    (s : σ) : ((List Transaction) × Option Error) × σ :=
  match nc.Call "getTransactionsByAddress" (Param.list [Param.str address, Param.int maxEntries]) s with
  | (Except.error err, s1) => (([], some err), s1)
  | (Except.ok rpcResp, s1) =>
    match GetObject rpcResp with
    | Except.error err => (([], some (Errorf_v_v Error.ErrResultUnexpected err)), s1)
    | Except.ok result => ((result, none), s1)

/-- Method `GetWork` of `api.go`. -/
def Client.GetWork (nc : Client Resp σ) (GetObject : Resp → Except Error Work) (params : List Param)
    (s : σ) : (Option Work × Option Error) × σ :=
  match nc.Call "getWork" (Param.list params) s with
  | (Except.error err, s1) => ((none, some err), s1)
  | (Except.ok rpcResp, s1) =>
    match GetObject rpcResp with
    | Except.error err => ((none, some (Errorf_v_v Error.ErrResultUnexpected err)), s1)
    | Except.ok result => if result.Data = "" then ((none, none), s1) else ((some result, none), s1)

/-- Method `Hashrate` of `api.go`. -/
def Client.Hashrate (nc : Client Resp σ) (GetObject : Resp → Except Error Float64)
    (s : σ) : (Float64 × Option Error) × σ :=
  match nc.Call "hashrate" Param.null s with
  | (Except.error err, s1) => ((Float64.zero, some err), s1)
  | (Except.ok rpcResp, s1) =>
    match GetObject rpcResp with
    | Except.error err => ((Float64.zero, some (Errorf_v_v Error.ErrResultUnexpected err)), s1)
    | Except.ok result => ((result, none), s1)

/-- Method `Log` of `api.go`. A `LogLevel` is a string. -/
def Client.Log (nc : Client Resp σ) (GetObject : Resp → Except Error Bool) (tag : String) (level : String)
    (s : σ) : (Bool × Option Error) × σ :=
  match nc.Call "log" (Param.list [Param.str tag, Param.str level]) s with
  | (Except.error err, s1) => ((false, some err), s1)
  | (Except.ok rpcResp, s1) =>
    match GetObject rpcResp with
    | Except.error err => ((false, some (Errorf_v_v Error.ErrResultUnexpected err)), s1)
    | Except.ok result => ((result, none), s1)

/-- Method `Mempool` of `api.go`. -/
def Client.Mempool (nc : Client Resp σ) (GetObject : Resp → Except Error Mempool)
    (s : σ) : (Option Mempool × Option Error) × σ :=
  match nc.Call "mempool" Param.null s with
  | (Except.error err, s1) => ((none, some err), s1)
  | (Except.ok rpcResp, s1) =>
    match GetObject rpcResp with
    | Except.error err => ((none, some (Errorf_v_v Error.ErrResultUnexpected err)), s1)
    | Except.ok result => if result.Total = 0 ∧ result.Buckets.length = 0 then ((none, none), s1) else ((some result, none), s1)

/-- Method `MempoolContent` of `api.go`. The result (`interface{}`) is absent,
a list of transaction records, or a list of identifiers. -/
def Client.MempoolContent (nc : Client Resp σ)
    (GetObjects : Resp → Except Error (List Transaction))
    (GetHashes : Resp → Except Error (List String)) (fullTransactions : Bool) (s : σ) :
    (Option (List Transaction ⊕ List String) × Option Error) × σ :=
  match nc.Call "mempoolContent" (Param.bool fullTransactions) s with
  | (Except.error err, s1) => ((none, some err), s1)
  | (Except.ok rpcResp, s1) =>
    if fullTransactions then
      match GetObjects rpcResp with
      | Except.error err => ((none, some (Errorf_v_v Error.ErrResultUnexpected err)), s1)
      | Except.ok result => ((some (Sum.inl result), none), s1)
    else
      match GetHashes rpcResp with
      | Except.error err => ((none, some (Errorf_v_v Error.ErrResultUnexpected err)), s1)
      | Except.ok result => ((some (Sum.inr result), none), s1)

/-- Method `MinFeePerByte` of `api.go`. The variadic argument `newFee` is the list of
the values supplied. -/
def Client.MinFeePerByte (nc : Client Resp σ) (GetObject : Resp → Except Error Int)
    (newFee : List Int) (s : σ) : (Int × Option Error) × σ :=
  let params : List Param :=
    match newFee with
    | [] => []
    | first :: _ => [Param.int first]
  match nc.Call "minFeePerByte" (Param.list params) s with
  | (Except.error err, s1) => ((0, some err), s1)
  | (Except.ok rpcResp, s1) =>
    match GetObject rpcResp with
    | Except.error err => ((0, some (Errorf_v_v Error.ErrResultUnexpected err)), s1)
    | Except.ok result => ((result, none), s1)

/-- Method `Mining` of `api.go`. The variadic argument `state` is the list of
the values supplied. -/
def Client.Mining (nc : Client Resp σ) (GetObject : Resp → Except Error Bool)
    (state : List Bool) (s : σ) : (Bool × Option Error) × σ :=
  let params : List Param :=
    match state with
    | [] => []
    | first :: _ => [Param.bool first]
  match nc.Call "mining" (Param.list params) s with
  | (Except.error err, s1) => ((false, some err), s1)
  | (Except.ok rpcResp, s1) =>
    match GetObject rpcResp with
    | Except.error err => ((false, some (Errorf_v_v Error.ErrResultUnexpected err)), s1)
    | Except.ok result => ((result, none), s1)

/-- Method `MinerAddress` of `api.go`. -/
def Client.MinerAddress (nc : Client Resp σ) (GetObject : Resp → Except Error String)
    (s : σ) : (String × Option Error) × σ :=
  match nc.Call "minerAddress" Param.null s with
  | (Except.error err, s1) => (("", some err), s1)
  | (Except.ok rpcResp, s1) =>
    match GetObject rpcResp with
    | Except.error err => (("", some (Errorf_v_v Error.ErrResultUnexpected err)), s1)
    | Except.ok result => ((result, none), s1)

/-- Method `MinerThreads` of `api.go`. The variadic argument `number` is the list of
the values supplied. -/
def Client.MinerThreads (nc : Client Resp σ) (GetObject : Resp → Except Error Int)
    (number : List Int) (s : σ) : (Int × Option Error) × σ :=
  let params : List Param :=
    match number with
    | [] => []
    | first :: _ => [Param.int first]
  match nc.Call "minerThreads" (Param.list params) s with
  | (Except.error err, s1) => ((0, some err), s1)
  | (Except.ok rpcResp, s1) =>
    match GetObject rpcResp with
    | Except.error err => ((0, some (Errorf_v_v Error.ErrResultUnexpected err)), s1)
    | Except.ok result => ((result, none), s1)

/-- Method `PeerCount` of `api.go`. -/
def Client.PeerCount (nc : Client Resp σ) (GetObject : Resp → Except Error Int)
    (s : σ) : (Int × Option Error) × σ :=
  match nc.Call "peerCount" Param.null s with
  | (Except.error err, s1) => ((0, some err), s1)
  | (Except.ok rpcResp, s1) =>
    match GetObject rpcResp with
    | Except.error err => ((0, some (Errorf_v_v Error.ErrResultUnexpected err)), s1)
    | Except.ok result => ((result, none), s1)

/-- Method `PeerList` of `api.go`. On failure the source returns the empty list `[]Peer{}`. -/
def Client.PeerList (nc : Client Resp σ) (GetObject : Resp → Except Error (List Peer))
    (s : σ) : ((List Peer) × Option Error) × σ :=
  match nc.Call "peerList" Param.null s with
  | (Except.error err, s1) => (([], some err), s1)
  | (Except.ok rpcResp, s1) =>
    match GetObject rpcResp with
    | Except.error err => (([], some (Errorf_v_v Error.ErrResultUnexpected err)), s1)
    | Except.ok result => ((result, none), s1)

/-- Method `PeerState` of `api.go`. The variadic argument `update` is the list
of the values supplied. -/
def Client.PeerState (nc : Client Resp σ) (GetObject : Resp → Except Error Peer)
    (peerAddress : String) (update : List String) (s : σ) :
    (Option Peer × Option Error) × σ :=
  let params : List Param :=
    match update with
    | [] => [Param.str peerAddress]
    | first :: _ =>
      if first = "ban" ∨ first = "unban" ∨ first = "connect" ∨ first = "disconnect" then
        [Param.str peerAddress, Param.str first]
      else [Param.str peerAddress]
  match nc.Call "peerState" (Param.list params) s with
  | (Except.error err, s1) => ((none, some err), s1)
  | (Except.ok rpcResp, s1) =>
    match GetObject rpcResp with
    | Except.error err => ((none, some (Errorf_v_v Error.ErrResultUnexpected err)), s1)
    | Except.ok result => ((some result, none), s1)

/-- Method `Pool` of `api.go`. The variadic argument `newAddress` is the list of
the values supplied. -/
def Client.Pool (nc : Client Resp σ) (GetObject : Resp → Except Error String)
    (newAddress : List String) (s : σ) : (String × Option Error) × σ :=
  let params : List Param :=
    match newAddress with
    | [] => []
    | first :: _ => [Param.str first]
  match nc.Call "pool" (Param.list params) s with
  | (Except.error err, s1) => (("", some err), s1)
  | (Except.ok rpcResp, s1) =>
    match GetObject rpcResp with
    | Except.error err => (("", some (Errorf_v_v Error.ErrResultUnexpected err)), s1)
    | Except.ok result => ((result, none), s1)

/-- Method `PoolConnectionState` of `api.go`. -/
def Client.PoolConnectionState (nc : Client Resp σ) (GetObject : Resp → Except Error Int)
    (s : σ) : (Int × Option Error) × σ :=
  match nc.Call "poolConnectionState" Param.null s with
  | (Except.error err, s1) => ((0, some err), s1)
  | (Except.ok rpcResp, s1) =>
    match GetObject rpcResp with
    | Except.error err => ((0, some (Errorf_v_v Error.ErrResultUnexpected err)), s1)
    | Except.ok result => ((result, none), s1)

/-- Method `PoolConfirmedBalance` of `api.go`. -/
def Client.PoolConfirmedBalance (nc : Client Resp σ) (GetObject : Resp → Except Error Int)
    (s : σ) : (Int × Option Error) × σ :=
  match nc.Call "poolConfirmedBalance" Param.null s with
  | (Except.error err, s1) => ((0, some err), s1)
  | (Except.ok rpcResp, s1) =>
    match GetObject rpcResp with
    | Except.error err => ((0, some (Errorf_v_v Error.ErrResultUnexpected err)), s1)
    | Except.ok result => ((result, none), s1)

/-- Method `SendRawTransaction` of `api.go`. -/
def Client.SendRawTransaction (nc : Client Resp σ) (GetObject : Resp → Except Error String) (signedTransaction : String)
    (s : σ) : (String × Option Error) × σ :=
  match nc.Call "sendRawTransaction" (Param.str signedTransaction) s with
  | (Except.error err, s1) => (("", some err), s1)
  | (Except.ok rpcResp, s1) =>
    match GetObject rpcResp with
    | Except.error err => (("", some (Errorf_v_v Error.ErrResultUnexpected err)), s1)
    | Except.ok result => ((result, none), s1)

/-- Method `SendTransaction` of `api.go`. -/
def Client.SendTransaction (nc : Client Resp σ) (GetObject : Resp → Except Error String) (trn : OutgoingTransaction)
    (s : σ) : (String × Option Error) × σ :=
  match nc.Call "sendTransaction" (Param.outgoing trn) s with
  | (Except.error err, s1) => (("", some err), s1)
  | (Except.ok rpcResp, s1) =>
    match GetObject rpcResp with
    | Except.error err => (("", some (Errorf_v_v Error.ErrResultUnexpected err)), s1)
    | Except.ok result => ((result, none), s1)

/-- Method `SubmitBlock` of `api.go`: the error of the call is the result. -/
def Client.SubmitBlock (nc : Client Resp σ) (fullBlock : String) (s : σ) : Option Error × σ :=
  match nc.Call "submitBlock" (Param.str fullBlock) s with
  | (Except.error err, s1) => (some err, s1)
  | (Except.ok _, s1) => (none, s1)

/-- Method `Syncing` of `api.go`. `GetStatus` decodes the response as a
`SyncStatus`, `GetBool` as a `bool`. -/
def Client.Syncing (nc : Client Resp σ) (GetStatus : Resp → Except Error SyncStatus)
    (GetBool : Resp → Except Error Bool) (s : σ) :
    (Bool × Option SyncStatus × Option Error) × σ :=
  match nc.Call "syncing" Param.null s with
  | (Except.error err, s1) => ((false, none, some err), s1)
  | (Except.ok rpcResp, s1) =>
    match GetStatus rpcResp with
    | Except.error _ =>
      match GetBool rpcResp with
      | Except.error err =>
        ((false, none, some (Errorf_v_v Error.ErrResultUnexpected err)), s1)
      | Except.ok _ => ((false, none, none), s1)
    | Except.ok result => ((true, some result, none), s1)

end api

/-- A transport that answers every call with the same response; its state
counts the calls made. -/
def constantClient {Resp : Type} (resp : Resp) : Client Resp Nat :=
  { rpcClient := fun _ _ n => (Except.ok resp, n + 1) }

/-- A transport on which every call fails with the same error; its state
counts the calls made. -/
def failingClient (Resp : Type) (err : Error) : Client Resp Nat :=
  { rpcClient := fun _ _ n => (Except.error err, n + 1) }

/-- A transport that answers every call with the same response; its state is
the list of the requests made, oldest first. -/
def recordingClient {Resp : Type} (resp : Resp) : Client Resp (List (String × Param)) :=
  { rpcClient := fun method params log => (Except.ok resp, log ++ [(method, params)]) }

/-- A transport that delivers the same responses to every batch; its state
counts the exchanges made. -/
def batchClient (delivered : List RPCResponse) : Client Unit Nat :=
  { rpcClient := fun _ _ n => (Except.ok (), n + 1)
    batchExchange := fun _ n => (Except.ok delivered, n + 1) }

/-- The batch of the test `TestBatch`. -/
def sampleRequests : List RPCRequest :=
  [NewRequest "accounts" [], NewRequest "hashrate" [], NewRequest "blockNumber" []]

/-- Answers to the three requests of `sampleRequests`, in the order of the
requests; the second one carries an error. -/
def sampleAnswers : List RPCResponse :=
  [{ ID := 0, Result := JSON.array [] },
   { ID := 1, Error := some { Code := -32601, Message := "Method not found" } },
   { ID := 2, Result := JSON.number "7" }]

/-- The answers of `sampleAnswers` in another order: third, first, second. -/
def sampleDelivered : List RPCResponse :=
  [{ ID := 2, Result := JSON.number "7" },
   { ID := 0, Result := JSON.array [] },
   { ID := 1, Error := some { Code := -32601, Message := "Method not found" } }]

/-! ## The catalog as a whole

A uniform view of the 36 methods of `api.go`, used to state what holds of
every one of them. -/

/-- The decoders of the libraries, one per destination type. -/
structure Decoders (Resp Raw : Type) where
  accounts : Resp → Except Error (List Account)
  int : Resp → Except Error Int
  int64 : Resp → Except Error Int
  luna : Resp → Except Error Int
  float64 : Resp → Except Error Float64
  bool : Resp → Except Error Bool
  string : Resp → Except Error String
  strings : Resp → Except Error (List String)
  wallet : Resp → Except Error Wallet
  account : Resp → Except Error Account
  block : Resp → Except Error (Block Raw)
  blockTemplate : Resp → Except Error BlockTemplate
  transaction : Resp → Except Error Transaction
  transactions : Resp → Except Error (List Transaction)
  receipt : Resp → Except Error TransactionReceipt
  work : Resp → Except Error Work
  mempool : Resp → Except Error Mempool
  peers : Resp → Except Error (List Peer)
  peer : Resp → Except Error Peer
  syncStatus : Resp → Except Error SyncStatus
  unmarshalObjects : Raw → List Transaction → Except Error (List Transaction)
  unmarshalHashes : Raw → List String → Except Error (List String)

/-- A call of a method of the catalog, with its arguments. -/
inductive Invocation where
  | Accounts
  | BlockNumber
  | Consensus
  | CreateAccount
  | CreateRawTransaction (trn : OutgoingTransaction)
  | GetAccount (address : String)
  | GetBalance (address : String)
  | GetBlockByHash (blockHash : String) (fullTransactions : Bool)
  | GetBlockByNumber (blockNumber : Int) (fullTransactions : Bool)
  | GetBlockTemplate (params : List Param)
  | GetBlockTransactionCountByHash (blockHash : String)
  | GetBlockTransactionCountByNumber (blockNumber : Int)
  | GetTransactionByBlockHashAndIndex (blockHash : String) (index : Int)
  | GetTransactionByBlockNumberAndIndex (blockNumber : Int) (index : Int)
  | GetTransactionByHash (transactionHash : String)
  | GetTransactionReceipt (transactionHash : String)
  | GetTransactionsByAddress (address : String) (maxEntries : Int)
  | GetWork (params : List Param)
  | Hashrate
  | Log (tag : String) (level : String)
  | Mempool
  | MempoolContent (fullTransactions : Bool)
  | MinFeePerByte (newFee : List Int)
  | Mining (state : List Bool)
  | MinerAddress
  | MinerThreads (number : List Int)
  | PeerCount
  | PeerList
  | PeerState (peerAddress : String) (update : List String)
  | Pool (newAddress : List String)
  | PoolConnectionState
  | PoolConfirmedBalance
  | SendRawTransaction (signedTransaction : String)
  | SendTransaction (trn : OutgoingTransaction)
  | SubmitBlock (fullBlock : String)
  | Syncing

/-- What a caller can observe of a call of a method: whether every returned
value other than the error is the empty value of its type (nil pointer, nil
interface, 0, the empty string, false, nil or empty list), the error, and the
state after the call. -/
structure Outcome (σ : Type) where
  valueIsEmpty : Bool
  err : Option Error
  state : σ

section catalog

variable {Resp Raw σ : Type}

/-- Runs a call of the catalog through the method of `api.go` it names. -/
def Invocation.run (nc : Client Resp σ) (d : Decoders Resp Raw) (s : σ) :
    Invocation → Outcome σ
  | Invocation.Accounts =>
    let r := nc.Accounts d.accounts s
    ⟨r.1.1.isEmpty, r.1.2, r.2⟩
  | Invocation.BlockNumber =>
    let r := nc.BlockNumber d.int s
    ⟨decide (r.1.1 = 0), r.1.2, r.2⟩
  | Invocation.Consensus =>
    let r := nc.Consensus d.string s
    ⟨decide (r.1.1 = ""), r.1.2, r.2⟩
  | Invocation.CreateAccount =>
    let r := nc.CreateAccount d.wallet s
    ⟨r.1.1.isNone, r.1.2, r.2⟩
  | Invocation.CreateRawTransaction trn =>
    let r := nc.CreateRawTransaction d.string trn s
    ⟨decide (r.1.1 = ""), r.1.2, r.2⟩
  | Invocation.GetAccount address =>
    let r := nc.GetAccount d.account address s
    ⟨r.1.1.isNone, r.1.2, r.2⟩
  | Invocation.GetBalance address =>
    let r := nc.GetBalance d.luna address s
    ⟨decide (r.1.1 = 0), r.1.2, r.2⟩
  | Invocation.GetBlockByHash blockHash fullTransactions =>
    let r := nc.GetBlockByHash d.block d.unmarshalObjects d.unmarshalHashes blockHash
      fullTransactions s
    ⟨r.1.1.isNone, r.1.2, r.2⟩
  | Invocation.GetBlockByNumber blockNumber fullTransactions =>
    let r := nc.GetBlockByNumber d.block d.unmarshalObjects d.unmarshalHashes blockNumber
      fullTransactions s
    ⟨r.1.1.isNone, r.1.2, r.2⟩
  | Invocation.GetBlockTemplate params =>
    let r := nc.GetBlockTemplate d.blockTemplate params s
    ⟨r.1.1.isNone, r.1.2, r.2⟩
  | Invocation.GetBlockTransactionCountByHash blockHash =>
    let r := nc.GetBlockTransactionCountByHash d.int blockHash s
    ⟨decide (r.1.1 = 0), r.1.2, r.2⟩
  | Invocation.GetBlockTransactionCountByNumber blockNumber =>
    let r := nc.GetBlockTransactionCountByNumber d.int blockNumber s
    ⟨decide (r.1.1 = 0), r.1.2, r.2⟩
  | Invocation.GetTransactionByBlockHashAndIndex blockHash index =>
    let r := nc.GetTransactionByBlockHashAndIndex d.transaction blockHash index s
    ⟨r.1.1.isNone, r.1.2, r.2⟩
  | Invocation.GetTransactionByBlockNumberAndIndex blockNumber index =>
    let r := nc.GetTransactionByBlockNumberAndIndex d.transaction blockNumber index s
    ⟨r.1.1.isNone, r.1.2, r.2⟩
  | Invocation.GetTransactionByHash transactionHash =>
    let r := nc.GetTransactionByHash d.transaction transactionHash s
    ⟨r.1.1.isNone, r.1.2, r.2⟩
  | Invocation.GetTransactionReceipt transactionHash =>
    let r := nc.GetTransactionReceipt d.receipt transactionHash s
    ⟨r.1.1.isNone, r.1.2, r.2⟩
  | Invocation.GetTransactionsByAddress address maxEntries =>
    let r := nc.GetTransactionsByAddress d.transactions address maxEntries s
    ⟨r.1.1.isEmpty, r.1.2, r.2⟩
  | Invocation.GetWork params =>
    let r := nc.GetWork d.work params s
    ⟨r.1.1.isNone, r.1.2, r.2⟩
  | Invocation.Hashrate =>
    let r := nc.Hashrate d.float64 s
    ⟨decide (r.1.1 = Float64.zero), r.1.2, r.2⟩
  | Invocation.Log tag level =>
    let r := nc.Log d.bool tag level s
    ⟨!r.1.1, r.1.2, r.2⟩
  | Invocation.Mempool =>
    let r := nc.Mempool d.mempool s
    ⟨r.1.1.isNone, r.1.2, r.2⟩
  | Invocation.MempoolContent fullTransactions =>
    let r := nc.MempoolContent d.transactions d.strings fullTransactions s
    ⟨r.1.1.isNone, r.1.2, r.2⟩
  | Invocation.MinFeePerByte newFee =>
    let r := nc.MinFeePerByte d.int64 newFee s
    ⟨decide (r.1.1 = 0), r.1.2, r.2⟩
  | Invocation.Mining state =>
    let r := nc.Mining d.bool state s
    ⟨!r.1.1, r.1.2, r.2⟩
  | Invocation.MinerAddress =>
    let r := nc.MinerAddress d.string s
    ⟨decide (r.1.1 = ""), r.1.2, r.2⟩
  | Invocation.MinerThreads number =>
    let r := nc.MinerThreads d.int number s
    ⟨decide (r.1.1 = 0), r.1.2, r.2⟩
  | Invocation.PeerCount =>
    let r := nc.PeerCount d.int s
    ⟨decide (r.1.1 = 0), r.1.2, r.2⟩
  | Invocation.PeerList =>
    let r := nc.PeerList d.peers s
    ⟨r.1.1.isEmpty, r.1.2, r.2⟩
  | Invocation.PeerState peerAddress update =>
    let r := nc.PeerState d.peer peerAddress update s
    ⟨r.1.1.isNone, r.1.2, r.2⟩
  | Invocation.Pool newAddress =>
    let r := nc.Pool d.string newAddress s
    ⟨decide (r.1.1 = ""), r.1.2, r.2⟩
  | Invocation.PoolConnectionState =>
    let r := nc.PoolConnectionState d.int s
    ⟨decide (r.1.1 = 0), r.1.2, r.2⟩
  | Invocation.PoolConfirmedBalance =>
    let r := nc.PoolConfirmedBalance d.luna s
    ⟨decide (r.1.1 = 0), r.1.2, r.2⟩
  | Invocation.SendRawTransaction signedTransaction =>
    let r := nc.SendRawTransaction d.string signedTransaction s
    ⟨decide (r.1.1 = ""), r.1.2, r.2⟩
  | Invocation.SendTransaction trn =>
    let r := nc.SendTransaction d.string trn s
    ⟨decide (r.1.1 = ""), r.1.2, r.2⟩
  | Invocation.SubmitBlock fullBlock =>
    let r := nc.SubmitBlock fullBlock s
    ⟨true, r.1, r.2⟩
  | Invocation.Syncing =>
    let r := nc.Syncing d.syncStatus d.bool s
    ⟨!r.1.1 && r.1.2.1.isNone, r.1.2.2, r.2⟩

end catalog

/-- The list of parameters a method with an optional trailing argument builds:
nothing when no value is supplied, the first value otherwise. -/
def optionalParam {T : Type} (ctor : T → Param) : List T → List Param
  | [] => []
  | first :: _ => [ctor first]

/-- The request a call of the catalog hands to `Client.Call`: the name of the
remote method and the parameters, as the source builds them. -/
def Invocation.request : Invocation → String × Param
  | Invocation.Accounts => ("accounts", Param.null)
  | Invocation.BlockNumber => ("blockNumber", Param.null)
  | Invocation.Consensus => ("consensus", Param.null)
  | Invocation.CreateAccount => ("createAccount", Param.null)
  | Invocation.CreateRawTransaction trn => ("createRawTransaction", Param.outgoing trn)
  | Invocation.GetAccount address => ("getAccount", Param.str address)
  | Invocation.GetBalance address => ("getBalance", Param.str address)
  | Invocation.GetBlockByHash blockHash fullTransactions =>
    ("getBlockByHash", Param.list [Param.str blockHash, Param.bool fullTransactions])
  | Invocation.GetBlockByNumber blockNumber fullTransactions =>
    ("getBlockByNumber", Param.list [Param.int blockNumber, Param.bool fullTransactions])
  | Invocation.GetBlockTemplate params => ("getBlockTemplate", Param.list params)
  | Invocation.GetBlockTransactionCountByHash blockHash =>
    ("getBlockTransactionCountByHash", Param.str blockHash)
  | Invocation.GetBlockTransactionCountByNumber blockNumber =>
    ("getBlockTransactionCountByNumber", Param.int blockNumber)
  | Invocation.GetTransactionByBlockHashAndIndex blockHash index =>
    ("getTransactionByBlockHashAndIndex", Param.list [Param.str blockHash, Param.int index])
  | Invocation.GetTransactionByBlockNumberAndIndex blockNumber index =>
    ("getTransactionByBlockNumberAndIndex",
      Param.list [Param.int blockNumber, Param.int index])
  | Invocation.GetTransactionByHash transactionHash =>
    ("getTransactionByHash", Param.str transactionHash)
  | Invocation.GetTransactionReceipt transactionHash =>
    ("getTransactionReceipt", Param.str transactionHash)
  | Invocation.GetTransactionsByAddress address maxEntries =>
    ("getTransactionsByAddress", Param.list [Param.str address, Param.int maxEntries])
  | Invocation.GetWork params => ("getWork", Param.list params)
  | Invocation.Hashrate => ("hashrate", Param.null)
  | Invocation.Log tag level => ("log", Param.list [Param.str tag, Param.str level])
  | Invocation.Mempool => ("mempool", Param.null)
  | Invocation.MempoolContent fullTransactions =>
    ("mempoolContent", Param.bool fullTransactions)
  | Invocation.MinFeePerByte newFee =>
    ("minFeePerByte", Param.list (optionalParam Param.int newFee))
  | Invocation.Mining state => ("mining", Param.list (optionalParam Param.bool state))
  | Invocation.MinerAddress => ("minerAddress", Param.null)
  | Invocation.MinerThreads number =>
    ("minerThreads", Param.list (optionalParam Param.int number))
  | Invocation.PeerCount => ("peerCount", Param.null)
  | Invocation.PeerList => ("peerList", Param.null)
  | Invocation.PeerState peerAddress update =>
    ("peerState",
      Param.list (match update with
        | [] => [Param.str peerAddress]
        | first :: _ =>
          if first = "ban" ∨ first = "unban" ∨ first = "connect" ∨ first = "disconnect" then
            [Param.str peerAddress, Param.str first]
          else [Param.str peerAddress]))
  | Invocation.Pool newAddress => ("pool", Param.list (optionalParam Param.str newAddress))
  | Invocation.PoolConnectionState => ("poolConnectionState", Param.null)
  | Invocation.PoolConfirmedBalance => ("poolConfirmedBalance", Param.null)
  | Invocation.SendRawTransaction signedTransaction =>
    ("sendRawTransaction", Param.str signedTransaction)
  | Invocation.SendTransaction trn => ("sendTransaction", Param.outgoing trn)
  | Invocation.SubmitBlock fullBlock => ("submitBlock", Param.str fullBlock)
  | Invocation.Syncing => ("syncing", Param.null)

/-- The error of a decoding step, `none` when the step succeeds. -/
def errorOf {T : Type} : Except Error T → Option Error
  | Except.error err => some err
  | Except.ok _ => none

/-- The error with which the decoding of the response `rpcResp` fails in a call
of the catalog, `none` when nothing fails to decode: the decoding of the
destination of the method; for the block lookups the decoding of the block
and, for a block with a `Hash`, of the projection the flag selects; for
`Syncing` the decoding as a boolean once the decoding as a record has failed.
`SubmitBlock` decodes nothing. -/
def Invocation.decodeError {Resp Raw : Type} (d : Decoders Resp Raw) (rpcResp : Resp) :
    Invocation → Option Error
  | Invocation.Accounts => errorOf (d.accounts rpcResp)
  | Invocation.BlockNumber => errorOf (d.int rpcResp)
  | Invocation.Consensus => errorOf (d.string rpcResp)
  | Invocation.CreateAccount => errorOf (d.wallet rpcResp)
  | Invocation.CreateRawTransaction _ => errorOf (d.string rpcResp)
  | Invocation.GetAccount _ => errorOf (d.account rpcResp)
  | Invocation.GetBalance _ => errorOf (d.luna rpcResp)
  | Invocation.GetBlockByHash _ fullTransactions =>
    match d.block rpcResp with
    | Except.error err => some err
    | Except.ok b =>
      if b.Hash = "" then none
      else if fullTransactions then
        errorOf (d.unmarshalObjects b.Transactions b.TransactionObjects)
      else errorOf (d.unmarshalHashes b.Transactions b.TransactionHashes)
  | Invocation.GetBlockByNumber _ fullTransactions =>
    match d.block rpcResp with
    | Except.error err => some err
    | Except.ok b =>
      if b.Hash = "" then none
      else if fullTransactions then
        errorOf (d.unmarshalObjects b.Transactions b.TransactionObjects)
      else errorOf (d.unmarshalHashes b.Transactions b.TransactionHashes)
  | Invocation.GetBlockTemplate _ => errorOf (d.blockTemplate rpcResp)
  | Invocation.GetBlockTransactionCountByHash _ => errorOf (d.int rpcResp)
  | Invocation.GetBlockTransactionCountByNumber _ => errorOf (d.int rpcResp)
  | Invocation.GetTransactionByBlockHashAndIndex _ _ => errorOf (d.transaction rpcResp)
  | Invocation.GetTransactionByBlockNumberAndIndex _ _ => errorOf (d.transaction rpcResp)
  | Invocation.GetTransactionByHash _ => errorOf (d.transaction rpcResp)
  | Invocation.GetTransactionReceipt _ => errorOf (d.receipt rpcResp)
  | Invocation.GetTransactionsByAddress _ _ => errorOf (d.transactions rpcResp)
  | Invocation.GetWork _ => errorOf (d.work rpcResp)
  | Invocation.Hashrate => errorOf (d.float64 rpcResp)
  | Invocation.Log _ _ => errorOf (d.bool rpcResp)
  | Invocation.Mempool => errorOf (d.mempool rpcResp)
  | Invocation.MempoolContent fullTransactions =>
    if fullTransactions then errorOf (d.transactions rpcResp)
    else errorOf (d.strings rpcResp)
  | Invocation.MinFeePerByte _ => errorOf (d.int64 rpcResp)
  | Invocation.Mining _ => errorOf (d.bool rpcResp)
  | Invocation.MinerAddress => errorOf (d.string rpcResp)
  | Invocation.MinerThreads _ => errorOf (d.int rpcResp)
  | Invocation.PeerCount => errorOf (d.int rpcResp)
  | Invocation.PeerList => errorOf (d.peers rpcResp)
  | Invocation.PeerState _ _ => errorOf (d.peer rpcResp)
  | Invocation.Pool _ => errorOf (d.string rpcResp)
  | Invocation.PoolConnectionState => errorOf (d.int rpcResp)
  | Invocation.PoolConfirmedBalance => errorOf (d.luna rpcResp)
  | Invocation.SendRawTransaction _ => errorOf (d.string rpcResp)
  | Invocation.SendTransaction _ => errorOf (d.string rpcResp)
  | Invocation.SubmitBlock _ => none
  | Invocation.Syncing =>
    match d.syncStatus rpcResp with
    | Except.ok _ => none
    | Except.error _ => errorOf (d.bool rpcResp)

/-- Whether a call of the catalog is a call of `CreateRawTransaction`. -/
def Invocation.isCreateRawTransaction : Invocation → Bool
  | Invocation.CreateRawTransaction _ => true
  | _ => false

/-- Decoders that succeed on every response, with the zero value. -/
def zeroDecoders (Resp Raw : Type) (raw : Raw) : Decoders Resp Raw where
  accounts := fun _ => Except.ok []
  int := fun _ => Except.ok 0
  int64 := fun _ => Except.ok 0
  luna := fun _ => Except.ok 0
  float64 := fun _ => Except.ok Float64.zero
  bool := fun _ => Except.ok false
  string := fun _ => Except.ok ""
  strings := fun _ => Except.ok []
  wallet := fun _ => Except.ok {}
  account := fun _ => Except.ok {}
  block := fun _ => Except.ok { Transactions := raw }
  blockTemplate := fun _ => Except.ok {}
  transaction := fun _ => Except.ok {}
  transactions := fun _ => Except.ok []
  receipt := fun _ => Except.ok {}
  work := fun _ => Except.ok {}
  mempool := fun _ => Except.ok {}
  peers := fun _ => Except.ok []
  peer := fun _ => Except.ok {}
  syncStatus := fun _ => Except.ok {}
  unmarshalObjects := fun _ dst => Except.ok dst
  unmarshalHashes := fun _ dst => Except.ok dst

/-- A sample of decoders on JSON responses. The kind of the JSON value is
checked as the decoder of the library checks it; the members of an object are
not looked at, so that every object decodes to the zero record, and a number
decodes to the zero `float64`. -/
def jsonDecoders : Decoders JSON JSON where
  accounts := fun j =>
    unmarshalSlice "[]nimiqrpc.Account"
      (fun x => unmarshalStruct "nimiqrpc.Account" (fun _ t => Except.ok t) x {}) j []
  int := fun j => unmarshalInt "int" j 0
  int64 := fun j => unmarshalInt "int64" j 0
  luna := fun j => unmarshalInt "nimiqrpc.Luna" j 0
  float64 := fun j =>
    match j with
    | JSON.number _ => Except.ok Float64.zero
    | JSON.null => Except.ok Float64.zero
    | _ => Except.error (UnmarshalTypeError j "float64")
  bool := fun j => unmarshalBool j false
  string := fun j => unmarshalString j ""
  strings := fun j => unmarshalStrings j []
  wallet := fun j => unmarshalStruct "nimiqrpc.Wallet" (fun _ t => Except.ok t) j {}
  account := fun j => unmarshalStruct "nimiqrpc.Account" (fun _ t => Except.ok t) j {}
  block := fun j =>
    unmarshalStruct "nimiqrpc.Block" (fun _ t => Except.ok t) j { Transactions := JSON.null }
  blockTemplate := fun j =>
    unmarshalStruct "nimiqrpc.BlockTemplate" (fun _ t => Except.ok t) j {}
  transaction := fun j =>
    unmarshalStruct "nimiqrpc.Transaction" (fun _ t => Except.ok t) j {}
  transactions := fun j => unmarshalTransactions (fun _ t => Except.ok t) j []
  receipt := fun j =>
    unmarshalStruct "nimiqrpc.TransactionReceipt" (fun _ t => Except.ok t) j {}
  work := fun j => unmarshalStruct "nimiqrpc.Work" (fun _ t => Except.ok t) j {}
  mempool := fun j => unmarshalStruct "nimiqrpc.Mempool" (fun _ t => Except.ok t) j {}
  peers := fun j =>
    unmarshalSlice "[]nimiqrpc.Peer"
      (fun x => unmarshalStruct "nimiqrpc.Peer" (fun _ t => Except.ok t) x {}) j []
  peer := fun j => unmarshalStruct "nimiqrpc.Peer" (fun _ t => Except.ok t) j {}
  syncStatus := fun j =>
    unmarshalStruct "nimiqrpc.SyncStatus" (fun _ t => Except.ok t) j {}
  unmarshalObjects := unmarshalTransactions (fun _ t => Except.ok t)
  unmarshalHashes := unmarshalStrings

/-- An error whose message begins with `unexpected result`. -/
def BeginsWithUnexpectedResult (err : Error) : Prop :=
  "unexpected result".toList <+: err.message.toList

/-- A JSON value that is a non-empty list of identifier strings. -/
def IsIdentifierList (j : JSON) : Prop :=
  ∃ xs, j = JSON.array xs ∧ xs ≠ [] ∧ ∀ x ∈ xs, ∃ str, x = JSON.string str

/-- A JSON value that is a non-empty list of records (JSON objects). -/
def IsRecordList (j : JSON) : Prop :=
  ∃ xs, j = JSON.array xs ∧ xs ≠ [] ∧ ∀ x ∈ xs, ∃ ms, x = JSON.object ms

/-- A transaction listing of the shape the flag does not select: identifiers
when full transactions are asked for, records when they are not. -/
def WrongShape (fullTransactions : Bool) (j : JSON) : Prop :=
  (fullTransactions = true ∧ IsIdentifierList j) ∨
    (fullTransactions = false ∧ IsRecordList j)

/-- The commands `PeerState` forwards. -/
def IsPeerCommand (u : String) : Prop :=
  u = "ban" ∨ u = "unban" ∨ u = "connect" ∨ u = "disconnect"

/-! ## Specification-side vocabulary -/

/-- A string of decimal digits. -/
def IsDigits (s : List Char) : Prop := ∀ c ∈ s, c.isDigit = true

/-- The numeric value of a string of decimal digits. -/
def decimalValue (s : List Char) : Nat :=
  s.foldl (fun n c => n * 10 + (c.toNat - 48)) 0

/-- The last `k` decimal digits of `r`, most significant first: `r` written
with exactly `k` digits. -/
def fixedDigits : Nat → Nat → List Char
  | 0, _ => []
  | k + 1, r => fixedDigits k (r / 10) ++ [Nat.digitChar (r % 10)]

instance : DecidablePred IsDigits :=
  fun s => inferInstanceAs (Decidable (∀ c ∈ s, c.isDigit = true))

/-- The fractional digits of a display string: what follows its first `.`
(nothing when there is no separator). -/
def fractionalDigits (s : List Char) : List Char :=
  (s.dropWhile fun c => c != '.').drop 1

/-- A string left-padded with `0` to 5 characters. -/
def leftPad5 (s : List Char) : List Char :=
  List.replicate (5 - s.length) '0' ++ s

/-! ## Decimal numerals -/

theorem toDigitsCore_append (fuel : Nat) : ∀ (n : Nat) (acc : List Char),
    Nat.toDigitsCore 10 fuel n acc = Nat.toDigitsCore 10 fuel n [] ++ acc := by
  induction fuel with
  | zero => intro n acc; simp [Nat.toDigitsCore]
  | succ fuel ih =>
    intro n acc
    simp only [Nat.toDigitsCore]
    by_cases h : n / 10 = 0
    · simp [h]
    · simp only [h, if_false]
      rw [ih (n / 10) (Nat.digitChar (n % 10) :: acc), ih (n / 10) [Nat.digitChar (n % 10)]]
      simp

theorem toDigitsCore_fuel (fuel1 : Nat) : ∀ (fuel2 n : Nat), n < fuel1 → n < fuel2 →
    Nat.toDigitsCore 10 fuel1 n [] = Nat.toDigitsCore 10 fuel2 n [] := by
  induction fuel1 with
  | zero => intro fuel2 n h; omega
  | succ fuel1 ih =>
    intro fuel2 n h1 h2
    cases fuel2 with
    | zero => omega
    | succ fuel2 =>
      simp only [Nat.toDigitsCore]
      by_cases h : n / 10 = 0
      · simp [h]
      · simp only [h, if_false]
        rw [toDigitsCore_append fuel1, toDigitsCore_append fuel2,
          ih fuel2 (n / 10) (by omega) (by omega)]

theorem toDigits_lt_ten (n : Nat) (h : n < 10) : Nat.toDigits 10 n = [Nat.digitChar n] := by
  have h0 : n / 10 = 0 := by omega
  simp [Nat.toDigits, Nat.toDigitsCore, h0, Nat.mod_eq_of_lt h]

theorem toDigits_ge_ten (n : Nat) (h : 10 ≤ n) :
    Nat.toDigits 10 n = Nat.toDigits 10 (n / 10) ++ [Nat.digitChar (n % 10)] := by
  have h0 : ¬ n / 10 = 0 := by omega
  unfold Nat.toDigits
  rw [Nat.toDigitsCore.eq_2]
  simp only [h0, if_false]
  rw [toDigitsCore_append, toDigitsCore_fuel n (n / 10 + 1) (n / 10) (by omega) (by omega)]

theorem digitChar_isDigit (d : Nat) (h : d < 10) : (Nat.digitChar d).isDigit = true := by
  interval_cases d <;> rfl

theorem digitChar_toNat (d : Nat) (h : d < 10) : (Nat.digitChar d).toNat - 48 = d := by
  interval_cases d <;> rfl

theorem isDigit_sub_lt (c : Char) (h : c.isDigit = true) : c.toNat - 48 < 10 := by
  simp only [Char.isDigit, Bool.and_eq_true, decide_eq_true_eq] at h
  have h2 : c.val.toNat ≤ 57 := h.2
  show c.val.toNat - 48 < 10
  omega

theorem isDigit_ne_dot (c : Char) (h : c.isDigit = true) : c ≠ '.' := by
  rintro rfl
  exact absurd h (by decide)

theorem isDigit_not_sign (c : Char) (h : c.isDigit = true) : c ≠ '+' ∧ c ≠ '-' := by
  constructor
  · rintro rfl
    exact absurd h (by decide)
  · rintro rfl
    exact absurd h (by decide)

theorem IsDigits.append {a b : List Char} (ha : IsDigits a) (hb : IsDigits b) :
    IsDigits (a ++ b) := by
  intro c hc
  rcases List.mem_append.mp hc with h | h
  · exact ha c h
  · exact hb c h

theorem IsDigits.not_dot {s : List Char} (hs : IsDigits s) : '.' ∉ s := by
  intro h
  exact isDigit_ne_dot _ (hs _ h) rfl

theorem toDigits_isDigits (n : Nat) : IsDigits (Nat.toDigits 10 n) := by
  induction n using Nat.strong_induction_on with
  | _ n ih =>
    by_cases h : n < 10
    · rw [toDigits_lt_ten n h]
      intro c hc
      rw [List.mem_singleton] at hc
      rw [hc]
      exact digitChar_isDigit n h
    · rw [toDigits_ge_ten n (by omega)]
      refine IsDigits.append (ih (n / 10) (by omega)) ?_
      intro c hc
      rw [List.mem_singleton] at hc
      rw [hc]
      exact digitChar_isDigit _ (Nat.mod_lt _ (by omega))

theorem toDigits_length_pos (n : Nat) : 1 ≤ (Nat.toDigits 10 n).length := by
  by_cases h : n < 10
  · rw [toDigits_lt_ten n h]
    simp
  · rw [toDigits_ge_ten n (by omega)]
    simp

theorem foldl_value (s : List Char) : ∀ n : Nat,
    s.foldl (fun n c => n * 10 + (c.toNat - 48)) n = n * 10 ^ s.length + decimalValue s := by
  induction s with
  | nil => intro n; simp [decimalValue]
  | cons c cs ih =>
    intro n
    simp only [decimalValue, List.foldl_cons, List.length_cons]
    rw [ih (n * 10 + (c.toNat - 48)), ih (0 * 10 + (c.toNat - 48))]
    ring

theorem decimalValue_append (a b : List Char) :
    decimalValue (a ++ b) = decimalValue a * 10 ^ b.length + decimalValue b := by
  unfold decimalValue
  rw [List.foldl_append, foldl_value b]
  rfl

theorem decimalValue_toDigits (n : Nat) : decimalValue (Nat.toDigits 10 n) = n := by
  induction n using Nat.strong_induction_on with
  | _ n ih =>
    by_cases h : n < 10
    · rw [toDigits_lt_ten n h]
      simp [decimalValue, digitChar_toNat n h]
    · rw [toDigits_ge_ten n (by omega), decimalValue_append, ih (n / 10) (by omega)]
      have hd := digitChar_toNat (n % 10) (Nat.mod_lt _ (by omega))
      simp only [decimalValue, List.foldl_cons, List.foldl_nil, List.length_singleton]
      rw [hd]
      omega

theorem fixedDigits_length (k : Nat) : ∀ r, (fixedDigits k r).length = k := by
  induction k with
  | zero => intro r; rfl
  | succ k ih => intro r; simp [fixedDigits, ih]

theorem fixedDigits_isDigits (k : Nat) : ∀ r, IsDigits (fixedDigits k r) := by
  induction k with
  | zero => intro r c hc; simp [fixedDigits] at hc
  | succ k ih =>
    intro r
    refine IsDigits.append (ih _) ?_
    intro c hc
    rw [List.mem_singleton] at hc
    rw [hc]
    exact digitChar_isDigit _ (Nat.mod_lt _ (by omega))

theorem decimalValue_fixedDigits (k : Nat) : ∀ r, decimalValue (fixedDigits k r) = r % 10 ^ k := by
  induction k with
  | zero => intro r; simp [fixedDigits, decimalValue, Nat.mod_one]
  | succ k ih =>
    intro r
    simp only [fixedDigits]
    rw [decimalValue_append, ih (r / 10)]
    have hd := digitChar_toNat (r % 10) (Nat.mod_lt _ (by omega))
    simp only [decimalValue, List.foldl_cons, List.foldl_nil, List.length_singleton]
    rw [hd]
    have e : r % 10 ^ (k + 1) = r % 10 + 10 * (r / 10 % 10 ^ k) := by
      rw [pow_succ, Nat.mul_comm (10 ^ k) 10, Nat.mod_mul]
    rw [e]
    ring

theorem fixedDigits_mod (k : Nat) : ∀ r, fixedDigits k (r % 10 ^ k) = fixedDigits k r := by
  induction k with
  | zero => intro r; rfl
  | succ k ih =>
    intro r
    simp only [fixedDigits]
    rw [pow_succ, Nat.mul_comm (10 ^ k) 10, Nat.mod_mul_right_div_self, Nat.mod_mul_right_mod,
      ih (r / 10)]

theorem toDigits_split (k : Nat) : ∀ n, 10 ^ k ≤ n →
    Nat.toDigits 10 n = Nat.toDigits 10 (n / 10 ^ k) ++ fixedDigits k n := by
  induction k with
  | zero => intro n _; simp [fixedDigits]
  | succ k ih =>
    intro n hn
    have h10 : 10 ≤ n := by
      have : 10 ^ 1 ≤ 10 ^ (k + 1) := Nat.pow_le_pow_right (by omega) (by omega)
      omega
    have hk : 10 ^ k ≤ n / 10 := by
      rw [Nat.le_div_iff_mul_le (by omega)]
      rw [pow_succ] at hn
      exact hn
    rw [toDigits_ge_ten n h10, ih (n / 10) hk, Nat.div_div_eq_div_mul, pow_succ,
      Nat.mul_comm (10 ^ k) 10]
    simp [fixedDigits]

theorem fixedDigits_zero (k : Nat) : fixedDigits k 0 = List.replicate k '0' := by
  induction k with
  | zero => rfl
  | succ k ih =>
    simp only [fixedDigits, Nat.zero_div, Nat.zero_mod, ih, List.replicate_succ']
    rfl

theorem leftPad_toDigits (k : Nat) : ∀ r, r < 10 ^ k → 1 ≤ k →
    (Nat.toDigits 10 r).length ≤ k ∧
      List.replicate (k - (Nat.toDigits 10 r).length) '0' ++ Nat.toDigits 10 r =
        fixedDigits k r := by
  induction k with
  | zero => intro r _ h; omega
  | succ k ih =>
    intro r hr _
    by_cases h : r < 10
    · have h0 : r / 10 = 0 := by omega
      rw [toDigits_lt_ten r h]
      refine ⟨by simp, ?_⟩
      simp only [fixedDigits, h0, fixedDigits_zero, List.length_singleton, Nat.add_sub_cancel,
        Nat.mod_eq_of_lt h]
    · have hk : 1 ≤ k := by
        rcases Nat.eq_zero_or_pos k with h0 | h0
        · subst h0
          simp at hr
          omega
        · exact h0
      have hlt : r / 10 < 10 ^ k := by
        rw [Nat.div_lt_iff_lt_mul (by omega)]
        rw [pow_succ] at hr
        exact hr
      obtain ⟨hl, he⟩ := ih (r / 10) hlt hk
      rw [toDigits_ge_ten r (by omega)]
      refine ⟨by simp; omega, ?_⟩
      simp only [fixedDigits, List.length_append, List.length_singleton, Nat.add_sub_add_right]
      rw [← he, List.append_assoc]

theorem padLoop_eq (k : Nat) : ∀ s, padLoop k s = List.replicate k '0' ++ s := by
  induction k with
  | zero => intro s; rfl
  | succ k ih =>
    intro s
    simp only [padLoop]
    rw [ih, List.replicate_succ', List.append_assoc]
    rfl

/-! ## Slices -/

theorem slice_left (a b : List Char) (hi : Int) (h : hi = (a.length : Int)) :
    slice (a ++ b) 0 hi = some a := by
  subst h
  simp [slice]

theorem slice_right (a b : List Char) (lo hi : Int) (hlo : lo = (a.length : Int))
    (hhi : hi = ((a ++ b).length : Int)) : slice (a ++ b) lo hi = some b := by
  subst hlo hhi
  have e : (((a ++ b).length : Nat) : Int).toNat = (a ++ b).length := Int.toNat_natCast _
  simp only [slice, e, Int.toNat_natCast, List.take_length]
  simp

/-! ## `FormatNIM` on non-negative amounts -/

theorem Itoa_natCast (n : Nat) : Itoa (n : Int) = Nat.toDigits 10 n := by
  have h : ¬ ((n : Int) < 0) := by omega
  simp [Itoa, h]

theorem fixedDigits_five_eq_zeros (n : Nat) :
    fixedDigits 5 n = ['0', '0', '0', '0', '0'] ↔ n % 100000 = 0 := by
  constructor
  · intro h
    have hv := decimalValue_fixedDigits 5 n
    rw [h] at hv
    have e : (10 : Nat) ^ 5 = 100000 := by norm_num
    rw [e] at hv
    rw [← hv]
    rfl
  · intro h
    have e : (10 : Nat) ^ 5 = 100000 := by norm_num
    rw [← fixedDigits_mod 5 n, e, h]
    rfl

/-- The last step of `FormatNIM`, on a string with a separator in front of 5
characters. -/
theorem formatNIM_tail (hi lo : List Char) (hlo : lo.length = 5) :
    ((slice (hi ++ '.' :: lo) (((hi ++ '.' :: lo).length : Int) - 5)
        (hi ++ '.' :: lo).length).bind fun t =>
      if t = ['0', '0', '0', '0', '0'] then
        slice (hi ++ '.' :: lo) 0 (((hi ++ '.' :: lo).length : Int) - 6)
      else some (hi ++ '.' :: lo)) =
    some (if lo = ['0', '0', '0', '0', '0'] then hi else hi ++ '.' :: lo) := by
  have e1 : slice (hi ++ '.' :: lo) (((hi ++ '.' :: lo).length : Int) - 5)
      (hi ++ '.' :: lo).length = some lo := by
    have : hi ++ '.' :: lo = (hi ++ ['.']) ++ lo := by simp
    rw [this]
    apply slice_right
    · simp [hlo]
      omega
    · rfl
  have e2 : slice (hi ++ '.' :: lo) 0 (((hi ++ '.' :: lo).length : Int) - 6) = some hi := by
    apply slice_left
    simp [hlo]
  rw [e1, e2]
  by_cases h : lo = ['0', '0', '0', '0', '0'] <;> simp [h]

/-- What `FormatNIM` returns on a non-negative amount: the numeral of the
whole units, followed, unless the remainder is zero, by the separator and the
remainder in 5 digits. -/
theorem FormatNIM_natCast (n : Nat) :
    FormatNIM (n : Int) =
      some (if n % 100000 = 0 then Nat.toDigits 10 (n / 100000)
        else Nat.toDigits 10 (n / 100000) ++ '.' :: fixedDigits 5 (n % 100000)) := by
  have e5 : (10 : Nat) ^ 5 = 100000 := by norm_num
  have hmod : fixedDigits 5 (n % 100000) = fixedDigits 5 n := by
    rw [← e5]
    exact fixedDigits_mod 5 n
  have htail := formatNIM_tail (Nat.toDigits 10 (n / 100000)) (fixedDigits 5 n)
    (fixedDigits_length 5 n)
  simp only [fixedDigits_five_eq_zeros] at htail
  rw [hmod]
  unfold FormatNIM
  simp only [Itoa_natCast, padLoop_eq]
  by_cases h : n < 100000
  · obtain ⟨hl, he⟩ := leftPad_toDigits 5 n (by omega) (by omega)
    have hq : n / 100000 = 0 := by omega
    have hlen : (fixedDigits 5 n).length = 5 := fixedDigits_length 5 n
    rw [hq, toDigits_lt_ten 0 (by omega)] at htail
    rw [he, hq, toDigits_lt_ten 0 (by omega)]
    simp only [hlen, if_true, Option.some_bind]
    exact htail
  · have hsplit := toDigits_split 5 n (by omega)
    rw [e5] at hsplit
    have hq := toDigits_length_pos (n / 100000)
    have hlen : (fixedDigits 5 n).length = 5 := fixedDigits_length 5 n
    have hl : (Nat.toDigits 10 n).length = (Nat.toDigits 10 (n / 100000)).length + 5 := by
      rw [hsplit, List.length_append, hlen]
    have hpad : 5 - (Nat.toDigits 10 n).length = 0 := by omega
    rw [hpad]
    simp only [List.replicate_zero, List.nil_append]
    have hne : ¬ (Nat.toDigits 10 n).length = 5 := by omega
    have hgt : (Nat.toDigits 10 n).length > 5 := by omega
    simp only [hne, hgt, if_true, if_false]
    have s1 : slice (Nat.toDigits 10 n) 0 (((Nat.toDigits 10 n).length : Int) - 5) =
        some (Nat.toDigits 10 (n / 100000)) := by
      rw [hl, hsplit]
      apply slice_left
      simp
    have s2 : slice (Nat.toDigits 10 n) (((Nat.toDigits 10 n).length : Int) - 5)
        (Nat.toDigits 10 n).length = some (fixedDigits 5 n) := by
      rw [hl, hsplit]
      apply slice_right
      · simp
      · simp [hlen]
    rw [s1, s2]
    simp only [Option.some_bind]
    exact htail

/-! ## `Atoi` -/

theorem maxUint64_eq : maxUint64 = 18446744073709551615 := by
  norm_num [maxUint64]

theorem decimalValue_cons (c : Char) (cs : List Char) :
    decimalValue (c :: cs) = (c.toNat - 48) * 10 ^ cs.length + decimalValue cs := by
  have h := decimalValue_append [c] cs
  simpa [decimalValue] using h

theorem parseUintLoop_digits (s : List Char) : ∀ n : Nat, IsDigits s →
    n * 10 ^ s.length + decimalValue s ≤ maxUint64 →
    parseUintLoop s n = (n * 10 ^ s.length + decimalValue s, none) := by
  induction s with
  | nil => intro n _ _; simp [parseUintLoop, decimalValue]
  | cons c cs ih =>
    intro n hd hv
    have hc : c.isDigit = true := hd c (List.mem_cons_self _ _)
    have hcs : IsDigits cs := fun x hx => hd x (List.mem_cons_of_mem _ hx)
    have hval : n * 10 ^ (c :: cs).length + decimalValue (c :: cs) =
        (n * 10 + (c.toNat - 48)) * 10 ^ cs.length + decimalValue cs := by
      rw [decimalValue_cons, List.length_cons, pow_succ]
      ring
    rw [hval] at hv ⊢
    have hpos : 1 ≤ 10 ^ cs.length := Nat.one_le_pow _ _ (by omega)
    have hle : n * 10 + (c.toNat - 48) ≤ (n * 10 + (c.toNat - 48)) * 10 ^ cs.length :=
      Nat.le_mul_of_pos_right _ hpos
    have hm := maxUint64_eq
    have h1 : ¬ (n ≥ maxUint64 / 10 + 1) := by
      rw [hm]
      rw [hm] at hv
      omega
    have h2 : ¬ (n * 10 + (c.toNat - 48) > maxUint64) := by omega
    simp only [parseUintLoop, hc, if_true, h1, h2, if_false]
    exact ih _ hcs hv

theorem parseUintLoop_range (s : List Char) : ∀ n : Nat,
    (parseUintLoop s n).2 = some NumError.ErrRange → (parseUintLoop s n).1 = maxUint64 := by
  induction s with
  | nil => intro n h; simp [parseUintLoop] at h
  | cons c cs ih =>
    intro n h
    simp only [parseUintLoop] at h ⊢
    split_ifs at h ⊢ with h1 h2 h3
    · rfl
    · rfl
    · exact ih _ h
    · simp at h

theorem parseUintLoop_bad_char (s : List Char) : ∀ n : Nat,
    (∃ c ∈ s, c.isDigit = false) → (parseUintLoop s n).2 ≠ none := by
  induction s with
  | nil => intro n h; obtain ⟨c, hc, _⟩ := h; simp at hc
  | cons c cs ih =>
    intro n h
    simp only [parseUintLoop]
    split_ifs with h1 h2 h3
    · simp
    · simp
    · apply ih
      obtain ⟨x, hx, hbad⟩ := h
      rcases List.mem_cons.mp hx with rfl | hx
      · rw [h1] at hbad
        exact absurd hbad (by simp)
      · exact ⟨x, hx, hbad⟩
    · simp

/-- If `ParseUint` fails on the unsigned part, `ParseInt` fails. -/
theorem ParseInt_error_of_ParseUint (c : Char) (cs : List Char)
    (h : (ParseUint (if c == '+' || c == '-' then cs else c :: cs)).2 ≠ none) :
    (ParseInt (c :: cs)).2 ≠ none := by
  have hr : ∀ t : List Char, (ParseUint t).2 = some NumError.ErrRange →
      (ParseUint t).1 = maxUint64 := by
    intro t ht
    cases t with
    | nil => simp [ParseUint] at ht
    | cons x xs => exact parseUintLoop_range _ _ ht
  generalize hs1 : (if c == '+' || c == '-' then cs else c :: cs) = s1 at h
  have hr1 := hr s1
  simp only [ParseInt, hs1]
  rcases hp : ParseUint s1 with ⟨un, err⟩
  rw [hp] at h hr1
  cases err with
  | none => exact absurd rfl h
  | some e =>
    cases e with
    | ErrSyntax => simp
    | ErrRange =>
      have hun : un = maxUint64 := hr1 rfl
      rw [hun, maxUint64_eq]
      by_cases hneg : (c == '-') = true <;> simp [hneg]

theorem Atoi_digits (s : List Char) (hne : s ≠ []) (hd : IsDigits s)
    (hv : decimalValue s ≤ 2 ^ 63 - 1) : Atoi s = ((decimalValue s : Int), none) := by
  cases s with
  | nil => exact absurd rfl hne
  | cons c cs =>
    have hc : c.isDigit = true := hd c (List.mem_cons_self _ _)
    obtain ⟨hs1, hs2⟩ := isDigit_not_sign c hc
    have hu : ParseUint (c :: cs) = (decimalValue (c :: cs), none) := by
      have h := parseUintLoop_digits (c :: cs) 0 hd (by rw [maxUint64_eq]; omega)
      simpa [ParseUint] using h
    have hlt : ¬ (decimalValue (c :: cs) ≥ 2 ^ 63) := by omega
    have hlt2 : ¬ (9223372036854775808 ≤ decimalValue (c :: cs)) := by omega
    simp [Atoi, ParseInt, hs1, hs2, hu, hlt2]

theorem Atoi_bad_char (s : List Char) (x : Char) (hx : x ∈ s) (hbad : x.isDigit = false)
    (hplus : x ≠ '+') (hminus : x ≠ '-') : (Atoi s).2 ≠ none := by
  cases s with
  | nil => simp at hx
  | cons c cs =>
    apply ParseInt_error_of_ParseUint
    by_cases hsign : (c == '+' || c == '-') = true
    · have hxc : x ≠ c := by
        intro h
        subst h
        simp [hplus, hminus] at hsign
      have hxcs : x ∈ cs := by
        rcases List.mem_cons.mp hx with h | h
        · exact absurd h hxc
        · exact h
      simp only [hsign, if_true]
      cases cs with
      | nil => simp at hxcs
      | cons y ys => exact parseUintLoop_bad_char _ _ ⟨x, hxcs, hbad⟩
    · simp only [hsign]
      exact parseUintLoop_bad_char _ _ ⟨x, hx, hbad⟩

/-! ## `FormatLuna` -/

theorem Index_of_not_mem (s : List Char) (c : Char) (h : c ∉ s) : Index s c = -1 := by
  simp [Index, h]

theorem Index_first (a b : List Char) (c : Char) (h : c ∉ a) :
    Index (a ++ c :: b) c = (a.length : Int) := by
  have hm : c ∈ a ++ c :: b := by simp
  simp [Index, List.indexOf_append_of_not_mem h]

theorem exists_first_occurrence (c : Char) (s : List Char) (h : c ∈ s) :
    ∃ a b, s = a ++ c :: b ∧ c ∉ a := by
  induction s with
  | nil => simp at h
  | cons x xs ih =>
    by_cases hx : x = c
    · exact ⟨[], xs, by simp [hx], by simp⟩
    · have hxs : c ∈ xs := by
        rcases List.mem_cons.mp h with h1 | h1
        · exact absurd h1.symm hx
        · exact h1
      obtain ⟨a, b, hab, hna⟩ := ih hxs
      refine ⟨x :: a, b, by simp [hab], ?_⟩
      intro hmem
      rcases List.mem_cons.mp hmem with h1 | h1
      · exact hx h1.symm
      · exact hna h1

theorem FormatLuna_no_dot_ok (s : List Char) (v : Int) (h : '.' ∉ s)
    (ha : Atoi (s ++ ['0', '0', '0', '0', '0']) = (v, none)) :
    FormatLuna s = some (v, none) := by
  simp [FormatLuna, Index_of_not_mem s '.' h, ha]

theorem FormatLuna_no_dot_err (s : List Char) (h : '.' ∉ s)
    (ha : (Atoi (s ++ ['0', '0', '0', '0', '0'])).2 ≠ none) :
    ∃ e, FormatLuna s = some (0, some e) := by
  rcases hp : Atoi (s ++ ['0', '0', '0', '0', '0']) with ⟨v, err⟩
  rw [hp] at ha
  cases err with
  | none => exact absurd rfl ha
  | some e => exact ⟨e, by simp [FormatLuna, Index_of_not_mem s '.' h, hp]⟩

theorem luna_slices (a b : List Char) :
    ((slice (a ++ '.' :: b) 0 (a.length : Int)).bind fun x =>
      (slice (a ++ '.' :: b) ((a.length : Int) + 1) (a ++ '.' :: b).length).bind fun y =>
        some (x ++ y)) = some (a ++ b) := by
  have e1 : slice (a ++ '.' :: b) 0 (a.length : Int) = some a := slice_left _ _ _ rfl
  have e2 : slice (a ++ '.' :: b) ((a.length : Int) + 1) (a ++ '.' :: b).length = some b := by
    have : a ++ '.' :: b = (a ++ ['.']) ++ b := by simp
    rw [this]
    apply slice_right
    · simp
    · rfl
  rw [e1, e2]
  rfl

theorem FormatLuna_dot_ok (a b : List Char) (v : Int) (h : '.' ∉ a)
    (ha : Atoi (a ++ b) = (v, none)) : FormatLuna (a ++ '.' :: b) = some (v, none) := by
  have hi : ¬ ((a.length : Int) = -1) := by omega
  unfold FormatLuna
  simp only [Index_first a b '.' h, hi, if_false, luna_slices, Option.some_bind, ha]

theorem FormatLuna_dot_err (a b : List Char) (h : '.' ∉ a) (ha : (Atoi (a ++ b)).2 ≠ none) :
    ∃ e, FormatLuna (a ++ '.' :: b) = some (0, some e) := by
  have hi : ¬ ((a.length : Int) = -1) := by omega
  rcases hp : Atoi (a ++ b) with ⟨v, err⟩
  rw [hp] at ha
  cases err with
  | none => exact absurd rfl ha
  | some e =>
    refine ⟨e, ?_⟩
    unfold FormatLuna
    simp only [Index_first a b '.' h, hi, if_false, luna_slices, Option.some_bind, hp]

theorem isDigits_zeros : IsDigits ['0', '0', '0', '0', '0'] := by decide

/-- Function `FormatLuna` on whole units: a digit string without separator. -/
theorem FormatLuna_digits (s : List Char) (hd : IsDigits s)
    (hv : decimalValue s * 100000 ≤ 2 ^ 63 - 1) :
    FormatLuna s = some ((decimalValue s : Int) * 100000, none) := by
  have hval : decimalValue (s ++ ['0', '0', '0', '0', '0']) = decimalValue s * 100000 := by
    have e : decimalValue ['0', '0', '0', '0', '0'] = 0 := by decide
    rw [decimalValue_append, e]
    norm_num
  have ha := Atoi_digits (s ++ ['0', '0', '0', '0', '0']) (by simp)
    (IsDigits.append hd isDigits_zeros) (by rw [hval]; exact hv)
  rw [hval] at ha
  have := FormatLuna_no_dot_ok s _ hd.not_dot ha
  rw [this]
  push_cast
  rfl

/-- Function `FormatLuna` on a digit string, a separator and a digit string: the
separator is removed and the digits are read as one number. -/
theorem FormatLuna_digits_dot (a b : List Char) (hne : a ≠ []) (ha : IsDigits a)
    (hb : IsDigits b) (hv : decimalValue (a ++ b) ≤ 2 ^ 63 - 1) :
    FormatLuna (a ++ '.' :: b) = some ((decimalValue (a ++ b) : Int), none) :=
  FormatLuna_dot_ok a b _ ha.not_dot
    (Atoi_digits (a ++ b) (by simp [hne]) (IsDigits.append ha hb) hv)

/-- Round trip on every non-negative `int64`. -/
theorem roundtrip_natCast (n : Nat) (h : n ≤ 2 ^ 63 - 1) :
    ∃ s, FormatNIM (n : Int) = some s ∧ FormatLuna s = some ((n : Int), none) := by
  refine ⟨_, FormatNIM_natCast n, ?_⟩
  have hdiv := Nat.div_add_mod n 100000
  by_cases hr : n % 100000 = 0
  · simp only [hr, if_true]
    have hv : decimalValue (Nat.toDigits 10 (n / 100000)) * 100000 = n := by
      rw [decimalValue_toDigits]
      omega
    have := FormatLuna_digits (Nat.toDigits 10 (n / 100000)) (toDigits_isDigits _)
      (by rw [hv]; exact h)
    rw [this]
    have hc : ((decimalValue (Nat.toDigits 10 (n / 100000)) : Int)) * 100000 = (n : Int) := by
      exact_mod_cast hv
    rw [hc]
  · simp only [hr, if_false]
    have hv : decimalValue (Nat.toDigits 10 (n / 100000) ++ fixedDigits 5 (n % 100000)) = n := by
      rw [decimalValue_append, decimalValue_toDigits, decimalValue_fixedDigits,
        fixedDigits_length]
      have e5 : (10 : Nat) ^ 5 = 100000 := by norm_num
      rw [e5, Nat.mod_mod]
      omega
    have := FormatLuna_digits_dot (Nat.toDigits 10 (n / 100000)) (fixedDigits 5 (n % 100000))
      (List.ne_nil_of_length_pos (toDigits_length_pos _)) (toDigits_isDigits _)
      (fixedDigits_isDigits _ _) (by rw [hv]; exact h)
    rw [this, hv]

theorem fractionalDigits_no_dot (s : List Char) (h : '.' ∉ s) : fractionalDigits s = [] := by
  have hall : ∀ c ∈ s, (c != '.') = true := by
    intro c hc
    have : c ≠ '.' := fun e => h (e ▸ hc)
    simp [this]
  have : s.dropWhile (fun c => c != '.') = [] := List.dropWhile_eq_nil_iff.mpr hall
  simp [fractionalDigits, this]

theorem fractionalDigits_dot (a b : List Char) (h : '.' ∉ a) :
    fractionalDigits (a ++ '.' :: b) = b := by
  have hall : ∀ c ∈ a, (c != '.') = true := by
    intro c hc
    have : c ≠ '.' := fun e => h (e ▸ hc)
    simp [this]
  simp [fractionalDigits, List.dropWhile_append_of_pos hall]

/-! ## The claims about the currency converter -/

/-- C1. Round trip: for every Luna amount `a` with
`0 ≤ a ≤ 2,100,000,000,000,000` (the maximum supply), `FormatNIM a` returns a
string and `FormatLuna` of that string returns the amount `a` and no error. -/
theorem FormatLuna_FormatNIM_roundtrip (a : Int) (h0 : 0 ≤ a) (h1 : a ≤ 2100000000000000) :
    ∃ s, FormatNIM a = some s ∧ FormatLuna s = some (a, none) := by
  obtain ⟨n, rfl⟩ := Int.eq_ofNat_of_zero_le h0
  exact roundtrip_natCast n (by omega)

theorem FormatLuna_FormatNIM_roundtrip_witness :
    (0 : Int) ≤ 2100000000000000 ∧ (2100000000000000 : Int) ≤ 2100000000000000 ∧
      ∃ s, FormatNIM 2100000000000000 = some s ∧
        FormatLuna s = some (2100000000000000, none) :=
  ⟨by decide, by decide,
    FormatLuna_FormatNIM_roundtrip 2100000000000000 (by decide) (by decide)⟩

/-- C2. For every amount `a ≥ 0`, with `q = a / 100000` and `r = a mod 100000`:
if `r = 0` then `FormatNIM a` is the decimal numeral of `q` with no separator
and no fractional part; if `r` is not a multiple of 10 then `FormatNIM a` is
the numeral of `q`, followed by `.`, followed by `r` written with exactly 5
digits (left-padded with `0`). -/
theorem FormatNIM_whole_or_fraction (a : Int) (h0 : 0 ≤ a) :
    (a % 100000 = 0 → FormatNIM a = some (Itoa (a / 100000))) ∧
    (a % 100000 % 10 ≠ 0 →
      FormatNIM a = some (Itoa (a / 100000) ++ '.' :: leftPad5 (Itoa (a % 100000))) ∧
        (leftPad5 (Itoa (a % 100000))).length = 5) := by
  obtain ⟨n, rfl⟩ := Int.eq_ofNat_of_zero_le h0
  have hq : ((n : Int) / 100000) = ((n / 100000 : Nat) : Int) := by norm_cast
  have hr : ((n : Int) % 100000) = ((n % 100000 : Nat) : Int) := by norm_cast
  rw [hq, hr, Itoa_natCast, Itoa_natCast, FormatNIM_natCast]
  have hlt : n % 100000 < 10 ^ 5 := by
    have := Nat.mod_lt n (show 100000 > 0 by omega)
    norm_num
    exact this
  have hpad : leftPad5 (Nat.toDigits 10 (n % 100000)) = fixedDigits 5 (n % 100000) :=
    (leftPad_toDigits 5 (n % 100000) hlt (by omega)).2
  constructor
  · intro h
    have h2 : n % 100000 = 0 := by exact_mod_cast h
    simp [h2]
  · intro h
    have h2 : n % 100000 ≠ 0 := by
      intro h3
      rw [h3] at h
      exact h (by decide)
    rw [hpad]
    simp [h2, fixedDigits_length]

theorem FormatNIM_whole_or_fraction_witness :
    FormatNIM 0 = some "0".toList ∧ FormatNIM 1 = some "0.00001".toList ∧
      FormatNIM 100000 = some "1".toList ∧ FormatNIM 1234567 = some "12.34567".toList ∧
      FormatNIM 1200000 = some "12".toList ∧ FormatNIM 123456789 = some "1234.56789".toList :=
  ⟨(FormatNIM_whole_or_fraction 0 (by decide)).1 (by decide),
    ((FormatNIM_whole_or_fraction 1 (by decide)).2 (by decide)).1,
    (FormatNIM_whole_or_fraction 100000 (by decide)).1 (by decide),
    ((FormatNIM_whole_or_fraction 1234567 (by decide)).2 (by decide)).1,
    (FormatNIM_whole_or_fraction 1200000 (by decide)).1 (by decide),
    ((FormatNIM_whole_or_fraction 123456789 (by decide)).2 (by decide)).1⟩

/-- C3, as stated, fails: `FormatNIM` does not strip a run of trailing
fractional zeros. At `a = 150000` the result is `1.50000`, which contains a `.`
and ends in `0`. -/
theorem FormatNIM_strips_trailing_zeros_fails :
    ¬ ∀ a : Int, 0 ≤ a → ∃ s, FormatNIM a = some s ∧ (fractionalDigits s).length ≤ 5 ∧
      ('.' ∈ s → s.getLast? ≠ some '0') := by
  intro h
  obtain ⟨s, hs, _, hlast⟩ := h 150000 (by decide)
  have e : FormatNIM 150000 = some "1.50000".toList := by decide
  rw [e] at hs
  have hs2 : s = "1.50000".toList := (Option.some.inj hs).symm
  subst hs2
  exact hlast (by decide) (by decide)

theorem digitChar_eq_zero_iff (d : Nat) (hd : d < 10) : Nat.digitChar d = '0' ↔ d = 0 := by
  interval_cases d <;> decide

/-- C3, amended. `FormatNIM` drops the fractional part exactly when all 5
fractional digits are zero, and strips no shorter run of trailing zeros: for
every amount `a ≥ 0` the string `FormatNIM a` has at most 5 fractional digits;
it contains a `.` if and only if `a` is not a multiple of `100000`; and if it
contains a `.`, its fractional digits are the decimal numeral of
`a mod 100000` left-padded with `0` to 5 characters, they are not all `0`, and
its last character is `0` if and only if `a` is a multiple of `10` (so the
last character is not `0` whenever `a` is not a multiple of `10`). -/
theorem FormatNIM_drops_fraction_iff_all_zero (a : Int) (h0 : 0 ≤ a) :
    ∃ s, FormatNIM a = some s ∧ (fractionalDigits s).length ≤ 5 ∧
      ('.' ∈ s ↔ a % 100000 ≠ 0) ∧
      ('.' ∈ s → fractionalDigits s = leftPad5 (Itoa (a % 100000)) ∧
        (∃ c ∈ fractionalDigits s, c ≠ '0') ∧
        (s.getLast? = some '0' ↔ a % 10 = 0)) := by
  obtain ⟨n, rfl⟩ := Int.eq_ofNat_of_zero_le h0
  refine ⟨_, FormatNIM_natCast n, ?_⟩
  have hnd : '.' ∉ Nat.toDigits 10 (n / 100000) := (toDigits_isDigits _).not_dot
  have hr5 : ((n : Int) % 100000) = ((n % 100000 : Nat) : Int) := by norm_cast
  have hr1 : ((n : Int) % 10 = 0) ↔ n % 10 = 0 := by omega
  have hlt : n % 100000 < 10 ^ 5 := by
    have := Nat.mod_lt n (show 100000 > 0 by omega)
    norm_num
    exact this
  have hpad : leftPad5 (Nat.toDigits 10 (n % 100000)) = fixedDigits 5 (n % 100000) :=
    (leftPad_toDigits 5 (n % 100000) hlt (by omega)).2
  by_cases hr : n % 100000 = 0
  · have hz : ¬ ((n : Int) % 100000 ≠ 0) := by
      rw [hr5, hr]
      simp
    simp only [hr, if_true]
    rw [fractionalDigits_no_dot _ hnd]
    exact ⟨by simp, ⟨fun h => absurd h hnd, fun h => absurd h hz⟩, fun h => absurd h hnd⟩
  · have hnz : (n : Int) % 100000 ≠ 0 := by
      rw [hr5]
      exact_mod_cast hr
    simp only [hr, if_false]
    rw [fractionalDigits_dot _ _ hnd]
    refine ⟨by rw [fixedDigits_length], ⟨fun _ => hnz, fun _ => by simp⟩, fun _ => ⟨?_, ?_, ?_⟩⟩
    · rw [hr5, Itoa_natCast, hpad]
    · by_contra hall
      push_neg at hall
      have hrep : fixedDigits 5 (n % 100000) = List.replicate 5 '0' :=
        List.eq_replicate_iff.mpr ⟨fixedDigits_length _ _, hall⟩
      have hz : (n % 100000) % 100000 = 0 := (fixedDigits_five_eq_zeros _).mp hrep
      rw [Nat.mod_mod] at hz
      exact hr hz
    · have hlast : (Nat.toDigits 10 (n / 100000) ++ '.' :: fixedDigits 5 (n % 100000)).getLast? =
          some (Nat.digitChar (n % 100000 % 10)) := by
        have e : Nat.toDigits 10 (n / 100000) ++ '.' :: fixedDigits 5 (n % 100000) =
            (Nat.toDigits 10 (n / 100000) ++ '.' :: fixedDigits 4 (n % 100000 / 10)) ++
              [Nat.digitChar (n % 100000 % 10)] := by
          simp [fixedDigits]
        rw [e]
        exact List.getLast?_concat _
      have hmod : n % 100000 % 10 = n % 10 := by omega
      rw [hlast, hmod, hr1]
      constructor
      · intro h
        exact (digitChar_eq_zero_iff _ (Nat.mod_lt _ (by omega))).mp (Option.some.inj h)
      · intro h
        rw [h]
        rfl

theorem FormatNIM_drops_fraction_iff_all_zero_witness :
    (0 : Int) ≤ 150000 ∧ ∃ s, FormatNIM 150000 = some s ∧ (fractionalDigits s).length ≤ 5 ∧
      ('.' ∈ s ↔ (150000 : Int) % 100000 ≠ 0) ∧
      ('.' ∈ s → fractionalDigits s = leftPad5 (Itoa (150000 % 100000)) ∧
        (∃ c ∈ fractionalDigits s, c ≠ '0') ∧
        (s.getLast? = some '0' ↔ (150000 : Int) % 10 = 0)) :=
  ⟨by decide, FormatNIM_drops_fraction_iff_all_zero 150000 (by decide)⟩

/-- C4. For every string `s` of decimal digits (it then contains no `.`) with
numeric value `v` such that `v * 100000 ≤ 2^63 - 1`, `FormatLuna s` returns the
amount `v * 100000` and no error. The non-empty strings of the claim are
covered; the statement does not need the string to be non-empty. -/
theorem FormatLuna_whole_units (s : List Char) (hd : IsDigits s)
    (hv : decimalValue s * 100000 ≤ 2 ^ 63 - 1) :
    '.' ∉ s ∧ FormatLuna s = some ((decimalValue s : Int) * 100000, none) :=
  ⟨hd.not_dot, FormatLuna_digits s hd hv⟩

theorem FormatLuna_whole_units_witness :
    FormatLuna "0".toList = some (0, none) ∧ FormatLuna "1".toList = some (100000, none) ∧
      FormatLuna "12".toList = some (1200000, none) ∧
      FormatLuna "21000000000".toList = some (2100000000000000, none) :=
  ⟨(FormatLuna_whole_units "0".toList (by decide) (by decide)).2,
    (FormatLuna_whole_units "1".toList (by decide) (by decide)).2,
    (FormatLuna_whole_units "12".toList (by decide) (by decide)).2,
    (FormatLuna_whole_units "21000000000".toList (by decide) (by decide)).2⟩

/-- C5. For every non-empty decimal-digit string `I` and every decimal-digit
string `F` of exactly 5 digits, with the result within the `int64` range,
`FormatLuna (I ++ "." ++ F)` returns the amount
`value I * 100000 + value F` and no error. -/
theorem FormatLuna_five_fraction_digits (I F : List Char) (hne : I ≠ []) (hI : IsDigits I)
    (hF : IsDigits F) (hlen : F.length = 5)
    (hv : decimalValue I * 100000 + decimalValue F ≤ 2 ^ 63 - 1) :
    FormatLuna (I ++ '.' :: F) =
      some ((decimalValue I : Int) * 100000 + (decimalValue F : Int), none) := by
  have hval : decimalValue (I ++ F) = decimalValue I * 100000 + decimalValue F := by
    rw [decimalValue_append, hlen]
    norm_num
  rw [FormatLuna_digits_dot I F hne hI hF (by rw [hval]; exact hv), hval]
  push_cast
  rfl

theorem FormatLuna_five_fraction_digits_witness :
    FormatLuna "0.00001".toList = some (1, none) ∧
      FormatLuna "12.34567".toList = some (1234567, none) ∧
      FormatLuna "1234.56789".toList = some (123456789, none) :=
  ⟨FormatLuna_five_fraction_digits "0".toList "00001".toList (by decide) (by decide)
      (by decide) (by decide) (by decide),
    FormatLuna_five_fraction_digits "12".toList "34567".toList (by decide) (by decide)
      (by decide) (by decide) (by decide),
    FormatLuna_five_fraction_digits "1234".toList "56789".toList (by decide) (by decide)
      (by decide) (by decide) (by decide)⟩

/-- C6, the code at the failing input `1.5`: one fractional digit is within
the 1 to 5 digits of the claim, the amount of the correct magnitude is
`1 * 100000 + 5 * 10^4 = 150000`, and `FormatLuna` returns `15` with no
error. -/
theorem FormatLuna_short_fraction_wrong_magnitude :
    FormatLuna ("1".toList ++ '.' :: "5".toList) = some (15, none) ∧
      (15 : Int) ≠ (decimalValue "1".toList : Int) * 100000 +
        (decimalValue "5".toList : Int) * 10 ^ (5 - "5".toList.length) := by
  decide

/-- C7. A non-numeric display string yields a parse error: for every input
that contains a character other than `0`-`9`, `+`, `-` and `.`, and for every
input that contains two or more `.` characters, `FormatLuna` returns the
amount 0 together with a non-nil error. -/
theorem FormatLuna_non_numeric (s : List Char)
    (h : (∃ c ∈ s, c.isDigit = false ∧ c ≠ '+' ∧ c ≠ '-' ∧ c ≠ '.') ∨ 2 ≤ s.count '.') :
    ∃ e, FormatLuna s = some (0, some e) := by
  by_cases hdot : '.' ∈ s
  · obtain ⟨a, b, rfl, hna⟩ := exists_first_occurrence '.' s hdot
    apply FormatLuna_dot_err a b hna
    rcases h with ⟨c, hc, hbad, hp, hm, hd⟩ | h
    · have hc2 : c ∈ a ++ b := by
        rcases List.mem_append.mp hc with h1 | h1
        · exact List.mem_append_left _ h1
        · rcases List.mem_cons.mp h1 with h2 | h2
          · exact absurd h2 hd
          · exact List.mem_append_right _ h2
      exact Atoi_bad_char _ c hc2 hbad hp hm
    · have hb : '.' ∈ b := by
        rw [List.count_append, List.count_cons_self, List.count_eq_zero_of_not_mem hna] at h
        exact List.count_pos_iff.mp (by omega)
      exact Atoi_bad_char _ '.' (List.mem_append_right _ hb) (by decide) (by decide)
        (by decide)
  · apply FormatLuna_no_dot_err s hdot
    rcases h with ⟨c, hc, hbad, hp, hm, _⟩ | h
    · exact Atoi_bad_char _ c (List.mem_append_left _ hc) hbad hp hm
    · rw [List.count_eq_zero_of_not_mem hdot] at h
      omega

theorem FormatLuna_non_numeric_witness :
    (∃ e, FormatLuna "12x".toList = some (0, some e)) ∧
      (∃ e, FormatLuna "1.2.3".toList = some (0, some e)) :=
  ⟨FormatLuna_non_numeric "12x".toList (Or.inl ⟨'x', by decide, by decide⟩),
    FormatLuna_non_numeric "1.2.3".toList (Or.inr (by decide))⟩

/-- C8. Display input with more than 5 fractional digits is not rejected: for
every non-empty decimal-digit string `I` and decimal-digit string `F` with
`len F > 5` (concatenation within the `int64` range),
`FormatLuna (I ++ "." ++ F)` returns no error and the amount `value (I ++ F)`.
That amount is the amount of the input cut to 5 fractional digits multiplied by
`10^(len F - 5)`, plus the value of the digits beyond the fifth. -/
theorem FormatLuna_long_fraction (I F : List Char) (hne : I ≠ []) (hI : IsDigits I)
    (hF : IsDigits F) (hlen : 5 < F.length) (hv : decimalValue (I ++ F) ≤ 2 ^ 63 - 1) :
    FormatLuna (I ++ '.' :: F) = some ((decimalValue (I ++ F) : Int), none) ∧
      decimalValue (I ++ F) =
        (decimalValue I * 100000 + decimalValue (F.take 5)) * 10 ^ (F.length - 5) +
          decimalValue (F.drop 5) := by
  refine ⟨FormatLuna_digits_dot I F hne hI hF hv, ?_⟩
  have hF2 : F = F.take 5 ++ F.drop 5 := (List.take_append_drop 5 F).symm
  have ht : (F.take 5).length = 5 := by
    rw [List.length_take]
    omega
  have hd : (F.drop 5).length = F.length - 5 := List.length_drop 5 F
  conv_lhs => rw [hF2, ← List.append_assoc]
  rw [decimalValue_append, decimalValue_append, ht, hd]
  norm_num

theorem FormatLuna_long_fraction_witness :
    FormatLuna "1.234567".toList = some (1234567, none) ∧
      decimalValue "1234567".toList = (1 * 100000 + 23456) * 10 ^ (6 - 5) + 7 :=
  FormatLuna_long_fraction "1".toList "234567".toList (by decide) (by decide) (by decide)
    (by decide) (by decide)

/-! ## The claims about the not-found sentinel -/

/-- C9. Not-found sentinel for transactions, receipts and work: for
`GetTransactionByHash`, `GetTransactionByBlockHashAndIndex`,
`GetTransactionByBlockNumberAndIndex`, `GetTransactionReceipt` and `GetWork`,
whenever the call succeeds and the raw result decodes into the record type,
the method returns `(nil, nil)` if the identity field of the record
(`Transaction.Hash`, `TransactionReceipt.TransactionHash`, `Work.Data`) is the
empty string, and otherwise exactly the decoded record with a nil error. -/
theorem not_found_sentinel_lookups {Resp σ : Type} (nc : Client Resp σ)
    (decT : Resp → Except Error Transaction) (decR : Resp → Except Error TransactionReceipt)
    (decW : Resp → Except Error Work) :
    (∀ h s rpcResp s1 t,
      nc.Call "getTransactionByHash" (Param.str h) s = (Except.ok rpcResp, s1) →
      decT rpcResp = Except.ok t →
      nc.GetTransactionByHash decT h s =
        (if t.Hash = "" then (none, none) else (some t, none), s1)) ∧
    (∀ h i s rpcResp s1 t, nc.Call "getTransactionByBlockHashAndIndex"
        (Param.list [Param.str h, Param.int i]) s = (Except.ok rpcResp, s1) →
      decT rpcResp = Except.ok t →
      nc.GetTransactionByBlockHashAndIndex decT h i s =
        (if t.Hash = "" then (none, none) else (some t, none), s1)) ∧
    (∀ n i s rpcResp s1 t, nc.Call "getTransactionByBlockNumberAndIndex"
        (Param.list [Param.int n, Param.int i]) s = (Except.ok rpcResp, s1) →
      decT rpcResp = Except.ok t →
      nc.GetTransactionByBlockNumberAndIndex decT n i s =
        (if t.Hash = "" then (none, none) else (some t, none), s1)) ∧
    (∀ h s rpcResp s1 r,
      nc.Call "getTransactionReceipt" (Param.str h) s = (Except.ok rpcResp, s1) →
      decR rpcResp = Except.ok r →
      nc.GetTransactionReceipt decR h s =
        (if r.TransactionHash = "" then (none, none) else (some r, none), s1)) ∧
    (∀ ps s rpcResp s1 w, nc.Call "getWork" (Param.list ps) s = (Except.ok rpcResp, s1) →
      decW rpcResp = Except.ok w →
      nc.GetWork decW ps s = (if w.Data = "" then (none, none) else (some w, none), s1)) := by
  refine ⟨?_, ?_, ?_, ?_, ?_⟩
  · intro h s rpcResp s1 t hcall hdec
    simp only [Client.GetTransactionByHash, hcall, hdec]
    split <;> rfl
  · intro h i s rpcResp s1 t hcall hdec
    simp only [Client.GetTransactionByBlockHashAndIndex, hcall, hdec]
    split <;> rfl
  · intro n i s rpcResp s1 t hcall hdec
    simp only [Client.GetTransactionByBlockNumberAndIndex, hcall, hdec]
    split <;> rfl
  · intro h s rpcResp s1 r hcall hdec
    simp only [Client.GetTransactionReceipt, hcall, hdec]
    split <;> rfl
  · intro ps s rpcResp s1 w hcall hdec
    simp only [Client.GetWork, hcall, hdec]
    split <;> rfl

theorem not_found_sentinel_lookups_witness :
    (constantClient ()).GetTransactionByHash (fun _ => Except.ok {}) "ab" 0 =
        ((none, none), 1) ∧
      (constantClient ()).GetTransactionByHash (fun _ => Except.ok { Hash := "ab" }) "ab" 0 =
        ((some { Hash := "ab" }, none), 1) ∧
      (constantClient ()).GetTransactionReceipt (fun _ => Except.ok {}) "ab" 0 =
        ((none, none), 1) ∧
      (constantClient ()).GetWork (fun _ => Except.ok { Data := "00" }) [] 0 =
        ((some { Data := "00" }, none), 1) :=
  ⟨(not_found_sentinel_lookups (constantClient ()) (fun _ => Except.ok {})
      (fun _ => Except.ok {}) (fun _ => Except.ok {})).1 "ab" 0 () 1 {} rfl rfl,
    (not_found_sentinel_lookups (constantClient ()) (fun _ => Except.ok { Hash := "ab" })
      (fun _ => Except.ok {}) (fun _ => Except.ok {})).1 "ab" 0 () 1 { Hash := "ab" } rfl rfl,
    (not_found_sentinel_lookups (constantClient ()) (fun _ => Except.ok {})
      (fun _ => Except.ok {}) (fun _ => Except.ok {})).2.2.2.1 "ab" 0 () 1 {} rfl rfl,
    (not_found_sentinel_lookups (constantClient ()) (fun _ => Except.ok {})
      (fun _ => Except.ok {}) (fun _ => Except.ok { Data := "00" })).2.2.2.2 [] 0 () 1
      { Data := "00" } rfl rfl⟩

/-- C10, as stated, fails: a block whose `Hash` decodes empty is not reported
as `(nil, nil)`. On a transport whose call succeeds and a decoder that yields
the zero `Block`, `GetBlockByHash` returns the error `ErrResultUnexpected`. -/
theorem block_not_found_is_not_nil_nil :
    ¬ ∀ (nc : Client Unit Nat) (GetObject : Unit → Except Error (Block Unit))
        (UnmarshalObjects : Unit → List Transaction → Except Error (List Transaction))
        (UnmarshalHashes : Unit → List String → Except Error (List String))
        (blockHash : String) (fullTransactions : Bool) (s : Nat) (rpcResp : Unit) (s1 : Nat)
        (b : Block Unit),
        nc.Call "getBlockByHash"
            (Param.list [Param.str blockHash, Param.bool fullTransactions]) s =
          (Except.ok rpcResp, s1) →
        GetObject rpcResp = Except.ok b → b.Hash = "" →
        nc.GetBlockByHash GetObject UnmarshalObjects UnmarshalHashes blockHash
          fullTransactions s = ((none, none), s1) := by
  intro h
  have h1 := h (constantClient ()) (fun _ => Except.ok { Transactions := () })
    (fun _ l => Except.ok l) (fun _ l => Except.ok l) "00" true 0 () 1 { Transactions := () }
    rfl rfl rfl
  simp [Client.GetBlockByHash, Client.Call, constantClient] at h1

/-- C10, amended. For `GetBlockByHash` and `GetBlockByNumber`, whenever the
call succeeds and the raw result decodes into a `Block` whose identity field
`Hash` is the empty string, the caller receives an absent value together with
the error `ErrResultUnexpected`, i.e. `(nil, ErrResultUnexpected)`. -/
theorem block_not_found_is_unexpected_result {Resp Raw σ : Type} (nc : Client Resp σ)
    (GetObject : Resp → Except Error (Block Raw))
    (UnmarshalObjects : Raw → List Transaction → Except Error (List Transaction))
    (UnmarshalHashes : Raw → List String → Except Error (List String))
    (fullTransactions : Bool) :
    (∀ blockHash s rpcResp s1 b,
      nc.Call "getBlockByHash"
          (Param.list [Param.str blockHash, Param.bool fullTransactions]) s =
        (Except.ok rpcResp, s1) →
      GetObject rpcResp = Except.ok b → b.Hash = "" →
      nc.GetBlockByHash GetObject UnmarshalObjects UnmarshalHashes blockHash
        fullTransactions s = ((none, some Error.ErrResultUnexpected), s1)) ∧
    (∀ blockNumber s rpcResp s1 b,
      nc.Call "getBlockByNumber"
          (Param.list [Param.int blockNumber, Param.bool fullTransactions]) s =
        (Except.ok rpcResp, s1) →
      GetObject rpcResp = Except.ok b → b.Hash = "" →
      nc.GetBlockByNumber GetObject UnmarshalObjects UnmarshalHashes blockNumber
        fullTransactions s = ((none, some Error.ErrResultUnexpected), s1)) := by
  constructor
  · intro blockHash s rpcResp s1 b hcall hdec hhash
    simp only [Client.GetBlockByHash, hcall, hdec, hhash, if_true]
  · intro blockNumber s rpcResp s1 b hcall hdec hhash
    simp only [Client.GetBlockByNumber, hcall, hdec, hhash, if_true]

theorem block_not_found_is_unexpected_result_witness :
    (constantClient ()).GetBlockByHash (fun _ => Except.ok { Transactions := () })
        (fun _ l => Except.ok l) (fun _ l => Except.ok l) "00" false 0 =
      ((none, some Error.ErrResultUnexpected), 1) ∧
    (constantClient ()).GetBlockByNumber (fun _ => Except.ok { Transactions := () })
        (fun _ l => Except.ok l) (fun _ l => Except.ok l) 7 true 0 =
      ((none, some Error.ErrResultUnexpected), 1) :=
  ⟨(block_not_found_is_unexpected_result (constantClient ())
      (fun _ => Except.ok { Transactions := () }) (fun _ l => Except.ok l)
      (fun _ l => Except.ok l) false).1 "00" 0 () 1 { Transactions := () } rfl rfl rfl,
    (block_not_found_is_unexpected_result (constantClient ())
      (fun _ => Except.ok { Transactions := () }) (fun _ l => Except.ok l)
      (fun _ l => Except.ok l) true).2 7 0 () 1 { Transactions := () } rfl rfl rfl⟩

/-! ## Errors and shapes -/

theorem wrapped_message (err : Error) :
    (Errorf_v_v Error.ErrResultUnexpected err).message = "unexpected result: " ++ err.message := by
  simp only [Errorf_v_v, Error.message, String.append_assoc]
  rfl

theorem wrapped_ne_sentinel (err : Error) :
    Errorf_v_v Error.ErrResultUnexpected err ≠ Error.ErrResultUnexpected := by
  intro h
  cases h

theorem beginsWith_wrapped (err : Error) :
    BeginsWithUnexpectedResult (Errorf_v_v Error.ErrResultUnexpected err) := by
  show "unexpected result".data <+: ("unexpected result" ++ ": " ++ err.message).data
  rw [String.data_append, String.data_append, List.append_assoc]
  exact List.prefix_append _ _

theorem beginsWith_sentinel : BeginsWithUnexpectedResult Error.ErrResultUnexpected :=
  List.prefix_refl _

theorem unmarshalTransactions_identifiers
    (members : List (String × JSON) → Transaction → Except Error Transaction) (j : JSON)
    (dst : List Transaction) (h : IsIdentifierList j) :
    ∃ err, unmarshalTransactions members j dst = Except.error err := by
  obtain ⟨xs, rfl, hne, hall⟩ := h
  cases xs with
  | nil => exact absurd rfl hne
  | cons x xs =>
    obtain ⟨str, rfl⟩ := hall x (List.mem_cons_self _ _)
    exact ⟨_, rfl⟩

theorem unmarshalStrings_records (j : JSON) (dst : List String) (h : IsRecordList j) :
    ∃ err, unmarshalStrings j dst = Except.error err := by
  obtain ⟨xs, rfl, hne, hall⟩ := h
  cases xs with
  | nil => exact absurd rfl hne
  | cons x xs =>
    obtain ⟨ms, rfl⟩ := hall x (List.mem_cons_self _ _)
    exact ⟨_, rfl⟩

/-! ## The claims about the polymorphic results -/

/-- What the block lookups return on success: the decoded block with the
projection the flag selects replaced by the decoded listing; the other
projection is the one the decoding of the block produced. -/
theorem block_projection_selected_by_flag {Resp Raw σ : Type} (nc : Client Resp σ)
    (GetObject : Resp → Except Error (Block Raw))
    (UnmarshalObjects : Raw → List Transaction → Except Error (List Transaction))
    (UnmarshalHashes : Raw → List String → Except Error (List String))
    (blockHash : String) (s : σ) (rpcResp : Resp) (s1 : σ) (b : Block Raw)
    (hdec : GetObject rpcResp = Except.ok b) (hhash : b.Hash ≠ "") :
    (∀ objects,
      nc.Call "getBlockByHash" (Param.list [Param.str blockHash, Param.bool true]) s =
        (Except.ok rpcResp, s1) →
      UnmarshalObjects b.Transactions b.TransactionObjects = Except.ok objects →
      nc.GetBlockByHash GetObject UnmarshalObjects UnmarshalHashes blockHash true s =
        ((some { b with TransactionObjects := objects }, none), s1)) ∧
    (∀ hashes,
      nc.Call "getBlockByHash" (Param.list [Param.str blockHash, Param.bool false]) s =
        (Except.ok rpcResp, s1) →
      UnmarshalHashes b.Transactions b.TransactionHashes = Except.ok hashes →
      nc.GetBlockByHash GetObject UnmarshalObjects UnmarshalHashes blockHash false s =
        ((some { b with TransactionHashes := hashes }, none), s1)) := by
  constructor
  · intro objects hcall hobj
    simp [Client.GetBlockByHash, hcall, hdec, hhash, hobj]
  · intro hashes hcall hh
    simp [Client.GetBlockByHash, hcall, hdec, hhash, hh]

/-- C11, the code at a failing input. The fields `TransactionHashes` and
`TransactionObjects` of `Block` are exported and carry no `json` tag, so the
decoding of the block fills them from members of the payload with these names.
On the payload `{"hash":"00","transactions":[],"TransactionHashes":["ab"]}` the
block decodes with `TransactionHashes = ["ab"]`; `GetBlockByHash` with
`fullTransactions = true` succeeds and returns a block whose
`TransactionHashes` is `["ab"]`, not empty. -/
theorem GetBlockByHash_keeps_decoded_hashes :
    (constantClient ()).GetBlockByHash
        (fun _ => Except.ok
          { Hash := "00", Transactions := JSON.array [], TransactionHashes := ["ab"] })
        (unmarshalTransactions fun _ t => Except.ok t) unmarshalStrings "00" true 0 =
      ((some { Hash := "00", Transactions := JSON.array [], TransactionHashes := ["ab"],
               TransactionObjects := [] }, none), 1) ∧
      (["ab"] : List String) ≠ [] := by
  constructor
  · rfl
  · decide

/-- C12. Decoding into the wrong shape fails as a whole: when
`fullTransactions` is true and the transaction listing in the payload is a
non-empty list of identifier strings, or `fullTransactions` is false and it is
a non-empty list of transaction records, `GetBlockByHash`, `GetBlockByNumber`
and `MempoolContent` return no value (nil) and an error whose message begins
with `unexpected result`. -/
theorem wrong_shape_is_unexpected_result {Resp σ : Type} (fullTransactions : Bool)
    (members : List (String × JSON) → Transaction → Except Error Transaction) :
    (∀ (nc : Client Resp σ) (GetObject : Resp → Except Error (Block JSON)) blockHash s
        rpcResp s1 b,
      nc.Call "getBlockByHash"
          (Param.list [Param.str blockHash, Param.bool fullTransactions]) s =
        (Except.ok rpcResp, s1) →
      GetObject rpcResp = Except.ok b → WrongShape fullTransactions b.Transactions →
      ∃ err, nc.GetBlockByHash GetObject (unmarshalTransactions members) unmarshalStrings
          blockHash fullTransactions s = ((none, some err), s1) ∧
        BeginsWithUnexpectedResult err) ∧
    (∀ (nc : Client Resp σ) (GetObject : Resp → Except Error (Block JSON)) blockNumber s
        rpcResp s1 b,
      nc.Call "getBlockByNumber"
          (Param.list [Param.int blockNumber, Param.bool fullTransactions]) s =
        (Except.ok rpcResp, s1) →
      GetObject rpcResp = Except.ok b → WrongShape fullTransactions b.Transactions →
      ∃ err, nc.GetBlockByNumber GetObject (unmarshalTransactions members) unmarshalStrings
          blockNumber fullTransactions s = ((none, some err), s1) ∧
        BeginsWithUnexpectedResult err) ∧
    (∀ (nc : Client JSON σ) s rpcResp s1,
      nc.Call "mempoolContent" (Param.bool fullTransactions) s = (Except.ok rpcResp, s1) →
      WrongShape fullTransactions rpcResp →
      ∃ err, nc.MempoolContent (fun j => unmarshalTransactions members j [])
          (fun j => unmarshalStrings j []) fullTransactions s = ((none, some err), s1) ∧
        BeginsWithUnexpectedResult err) := by
  refine ⟨?_, ?_, ?_⟩
  · intro nc GetObject blockHash s rpcResp s1 b hcall hdec hshape
    by_cases hhash : b.Hash = ""
    · exact ⟨_, by simp only [Client.GetBlockByHash, hcall, hdec, hhash, if_true],
        beginsWith_sentinel⟩
    · rcases hshape with ⟨hfull, hl⟩ | ⟨hfull, hl⟩
      · subst hfull
        obtain ⟨err, herr⟩ :=
          unmarshalTransactions_identifiers members b.Transactions b.TransactionObjects hl
        exact ⟨_, by simp [Client.GetBlockByHash, hcall, hdec, hhash, herr],
          beginsWith_wrapped err⟩
      · subst hfull
        obtain ⟨err, herr⟩ := unmarshalStrings_records b.Transactions b.TransactionHashes hl
        exact ⟨_, by simp [Client.GetBlockByHash, hcall, hdec, hhash, herr],
          beginsWith_wrapped err⟩
  · intro nc GetObject blockNumber s rpcResp s1 b hcall hdec hshape
    by_cases hhash : b.Hash = ""
    · exact ⟨_, by simp only [Client.GetBlockByNumber, hcall, hdec, hhash, if_true],
        beginsWith_sentinel⟩
    · rcases hshape with ⟨hfull, hl⟩ | ⟨hfull, hl⟩
      · subst hfull
        obtain ⟨err, herr⟩ :=
          unmarshalTransactions_identifiers members b.Transactions b.TransactionObjects hl
        exact ⟨_, by simp [Client.GetBlockByNumber, hcall, hdec, hhash, herr],
          beginsWith_wrapped err⟩
      · subst hfull
        obtain ⟨err, herr⟩ := unmarshalStrings_records b.Transactions b.TransactionHashes hl
        exact ⟨_, by simp [Client.GetBlockByNumber, hcall, hdec, hhash, herr],
          beginsWith_wrapped err⟩
  · intro nc s rpcResp s1 hcall hshape
    rcases hshape with ⟨hfull, hl⟩ | ⟨hfull, hl⟩
    · subst hfull
      obtain ⟨err, herr⟩ := unmarshalTransactions_identifiers members rpcResp [] hl
      exact ⟨_, by simp [Client.MempoolContent, hcall, herr], beginsWith_wrapped err⟩
    · subst hfull
      obtain ⟨err, herr⟩ := unmarshalStrings_records rpcResp [] hl
      exact ⟨_, by simp [Client.MempoolContent, hcall, herr], beginsWith_wrapped err⟩

theorem wrong_shape_is_unexpected_result_witness :
    (∃ err, (constantClient ()).GetBlockByHash
        (fun _ => Except.ok
          { Hash := "00", Transactions := JSON.array [JSON.string "ab"] })
        (unmarshalTransactions fun _ t => Except.ok t) unmarshalStrings "00" true 0 =
          ((none, some err), 1) ∧ BeginsWithUnexpectedResult err) ∧
    (∃ err, (constantClient (JSON.array [JSON.object []])).MempoolContent
        (fun j => unmarshalTransactions (fun _ t => Except.ok t) j [])
        (fun j => unmarshalStrings j []) false 0 = ((none, some err), 1) ∧
          BeginsWithUnexpectedResult err) :=
  ⟨(wrong_shape_is_unexpected_result true (fun _ t => Except.ok t)).1 (constantClient ())
      (fun _ => Except.ok { Hash := "00", Transactions := JSON.array [JSON.string "ab"] })
      "00" 0 () 1 { Hash := "00", Transactions := JSON.array [JSON.string "ab"] } rfl rfl
      (Or.inl ⟨rfl, [JSON.string "ab"], rfl, by simp, by simp⟩),
    (@wrong_shape_is_unexpected_result JSON Nat false (fun _ t => Except.ok t)).2.2
      (constantClient (JSON.array [JSON.object []])) 0 (JSON.array [JSON.object []]) 1 rfl
      (Or.inr ⟨rfl, [JSON.object []], rfl, by simp, by simp⟩)⟩

/-- C13. Sync status classification: when the call succeeds, `Syncing` returns
`(false, nil, nil)` if the raw result is a boolean (whichever boolean it is),
and returns `(true, the decoded record, nil)` if the raw result is a
structurally valid `SyncStatus` record, including the record whose three
fields are all 0; the record shape is attempted first and the boolean shape
only after the record attempt has failed (what the boolean decoder would
answer plays no part when the record decodes). -/
theorem Syncing_classification {σ : Type} (nc : Client JSON σ)
    (members : List (String × JSON) → SyncStatus → Except Error SyncStatus) (s s1 : σ) :
    (∀ b, nc.Call "syncing" Param.null s = (Except.ok (JSON.bool b), s1) →
      nc.Syncing (fun j => unmarshalStruct "nimiqrpc.SyncStatus" members j {})
        (fun j => unmarshalBool j false) s = ((false, none, none), s1)) ∧
    (∀ (GetStatus : JSON → Except Error SyncStatus) (GetBool : JSON → Except Error Bool) j r,
      nc.Call "syncing" Param.null s = (Except.ok j, s1) → GetStatus j = Except.ok r →
      nc.Syncing GetStatus GetBool s = ((true, some r, none), s1)) ∧
    (∀ (GetStatus : JSON → Except Error SyncStatus) (GetBool : JSON → Except Error Bool) j
        err b,
      nc.Call "syncing" Param.null s = (Except.ok j, s1) → GetStatus j = Except.error err →
      GetBool j = Except.ok b →
      nc.Syncing GetStatus GetBool s = ((false, none, none), s1)) := by
  refine ⟨?_, ?_, ?_⟩
  · intro b hcall
    simp [Client.Syncing, hcall, unmarshalStruct, unmarshalBool]
  · intro GetStatus GetBool j r hcall hdec
    simp [Client.Syncing, hcall, hdec]
  · intro GetStatus GetBool j err b hcall hdec hbool
    simp [Client.Syncing, hcall, hdec, hbool]

theorem Syncing_classification_witness :
    (constantClient (JSON.bool true)).Syncing
        (fun j => unmarshalStruct "nimiqrpc.SyncStatus" (fun _ t => Except.ok t) j {})
        (fun j => unmarshalBool j false) 0 = ((false, none, none), 1) ∧
    (constantClient (JSON.object [])).Syncing
        (fun j => unmarshalStruct "nimiqrpc.SyncStatus" (fun _ t => Except.ok t) j {})
        (fun j => unmarshalBool j false) 0 =
      ((true, some { StartingBlock := 0, CurrentBlock := 0, HighestBlock := 0 }, none), 1) :=
  ⟨(Syncing_classification (constantClient (JSON.bool true)) (fun _ t => Except.ok t) 0 1).1
      true rfl,
    (Syncing_classification (constantClient (JSON.object [])) (fun _ t => Except.ok t) 0
      1).2.1 _ _ (JSON.object []) {} rfl rfl⟩

/-- C14. When the call succeeds but the raw result decodes neither as a
`SyncStatus` record nor as a boolean (for example a string or a list),
`Syncing` returns `(false, nil, err)` where `err` is non-nil and its message
begins with `unexpected result`; `err` is built from the error of the boolean
attempt. -/
theorem Syncing_unexpected_result {Resp σ : Type} (nc : Client Resp σ)
    (GetStatus : Resp → Except Error SyncStatus) (GetBool : Resp → Except Error Bool)
    (s : σ) (rpcResp : Resp) (s1 : σ) (e1 e2 : Error)
    (hcall : nc.Call "syncing" Param.null s = (Except.ok rpcResp, s1))
    (hstatus : GetStatus rpcResp = Except.error e1)
    (hbool : GetBool rpcResp = Except.error e2) :
    nc.Syncing GetStatus GetBool s =
        ((false, none, some (Errorf_v_v Error.ErrResultUnexpected e2)), s1) ∧
      BeginsWithUnexpectedResult (Errorf_v_v Error.ErrResultUnexpected e2) := by
  refine ⟨?_, beginsWith_wrapped e2⟩
  simp [Client.Syncing, hcall, hstatus, hbool]

theorem Syncing_unexpected_result_witness :
    ((constantClient (JSON.string "yes")).Syncing
        (fun j => unmarshalStruct "nimiqrpc.SyncStatus" (fun _ t => Except.ok t) j {})
        (fun j => unmarshalBool j false) 0 =
      ((false, none, some (Errorf_v_v Error.ErrResultUnexpected
        (UnmarshalTypeError (JSON.string "yes") "bool"))), 1) ∧
      BeginsWithUnexpectedResult (Errorf_v_v Error.ErrResultUnexpected
        (UnmarshalTypeError (JSON.string "yes") "bool"))) ∧
    ((constantClient (JSON.array [])).Syncing
        (fun j => unmarshalStruct "nimiqrpc.SyncStatus" (fun _ t => Except.ok t) j {})
        (fun j => unmarshalBool j false) 0 =
      ((false, none, some (Errorf_v_v Error.ErrResultUnexpected
        (UnmarshalTypeError (JSON.array []) "bool"))), 1) ∧
      BeginsWithUnexpectedResult (Errorf_v_v Error.ErrResultUnexpected
        (UnmarshalTypeError (JSON.array []) "bool"))) :=
  ⟨Syncing_unexpected_result (constantClient (JSON.string "yes")) _ _ 0 (JSON.string "yes") 1
      (UnmarshalTypeError (JSON.string "yes") "nimiqrpc.SyncStatus")
      (UnmarshalTypeError (JSON.string "yes") "bool") rfl rfl rfl,
    Syncing_unexpected_result (constantClient (JSON.array [])) _ _ 0 (JSON.array []) 1
      (UnmarshalTypeError (JSON.array []) "nimiqrpc.SyncStatus")
      (UnmarshalTypeError (JSON.array []) "bool") rfl rfl rfl⟩

/-! ## The claims about errors -/

/-- C15, the code at a failing input. The call of `CreateRawTransaction`
succeeds with the JSON number `1` as raw result, which does not decode into
the declared `string`: the method returns the error of the decoder itself,
whose message does not begin with `unexpected result`. `SendTransaction`, on
the same response, returns the error built by `fmt.Errorf`. -/
theorem CreateRawTransaction_returns_decoder_error :
    (constantClient (JSON.number "1")).CreateRawTransaction (fun j => unmarshalString j "")
        {} 0 = (("", some (UnmarshalTypeError (JSON.number "1") "string")), 1) ∧
      ¬ BeginsWithUnexpectedResult (UnmarshalTypeError (JSON.number "1") "string") ∧
      (constantClient (JSON.number "1")).SendTransaction (fun j => unmarshalString j "")
        {} 0 = (("", some (Errorf_v_v Error.ErrResultUnexpected
          (UnmarshalTypeError (JSON.number "1") "string"))), 1) := by
  refine ⟨rfl, ?_, rfl⟩
  unfold BeginsWithUnexpectedResult
  decide

theorem errorOf_eq_some {T : Type} (r : Except Error T) (err : Error) :
    errorOf r = some err ↔ r = Except.error err := by
  cases r <;> simp [errorOf]

/-- C16, the code at a failing input. The call of `GetBalance` succeeds with
the JSON string `x` as raw result, which does not decode into the declared
`Luna`: the method returns the value built by
`fmt.Errorf("%v: %v", ErrResultUnexpected, err)`. That value is not the package
value `ErrResultUnexpected`, which the comment on its declaration says is
returned when the expected result could not be read: only its message begins
with `unexpected result`, so a caller comparing the returned error with
`ErrResultUnexpected` does not recognise the failure. -/
theorem GetBalance_decode_failure_is_not_ErrResultUnexpected :
    (constantClient (JSON.string "x")).GetBalance (fun j => unmarshalInt "nimiqrpc.Luna" j 0)
        "NQ07" 0 =
      ((0, some (Error.Errorf
        "unexpected result: json: cannot unmarshal string into Go value of type nimiqrpc.Luna")),
        1) ∧
      Error.Errorf
          "unexpected result: json: cannot unmarshal string into Go value of type nimiqrpc.Luna" ≠
        Error.ErrResultUnexpected ∧
      BeginsWithUnexpectedResult (Error.Errorf
        "unexpected result: json: cannot unmarshal string into Go value of type nimiqrpc.Luna") := by
  refine ⟨rfl, by simp, ?_⟩
  unfold BeginsWithUnexpectedResult
  decide

/-- What the decoding methods return after a failed decoding. For every
catalog method other than `CreateRawTransaction`, when the call succeeds and
decoding the raw result fails with error `e`, the error value returned to the
caller is the value built by `fmt.Errorf("%v: %v", ErrResultUnexpected, e)`:
its message is the message of `ErrResultUnexpected`, then `: `, then the
message of `e`, and it is not equal to the package value
`ErrResultUnexpected`. -/
theorem decode_failure_is_formatted_error {Resp Raw σ : Type} (nc : Client Resp σ)
    (d : Decoders Resp Raw) (inv : Invocation) (s : σ) (rpcResp : Resp) (s1 : σ)
    (err : Error) (hinv : inv.isCreateRawTransaction = false)
    (hcall : nc.Call inv.request.1 inv.request.2 s = (Except.ok rpcResp, s1))
    (hdec : inv.decodeError d rpcResp = some err) :
    inv.run nc d s = ⟨true, some (Errorf_v_v Error.ErrResultUnexpected err), s1⟩ ∧
      (Errorf_v_v Error.ErrResultUnexpected err).message =
        "unexpected result: " ++ err.message ∧
      Errorf_v_v Error.ErrResultUnexpected err ≠ Error.ErrResultUnexpected := by
  refine ⟨?_, wrapped_message err, wrapped_ne_sentinel err⟩
  cases inv with
  | CreateRawTransaction trn => simp [Invocation.isCreateRawTransaction] at hinv
  | SubmitBlock b => simp [Invocation.decodeError] at hdec
  | MinFeePerByte l =>
    simp only [Invocation.decodeError, errorOf_eq_some] at hdec
    cases l <;> simp only [Invocation.request, optionalParam] at hcall <;>
      simp [Invocation.run, Client.MinFeePerByte, hcall, hdec]
  | Mining l =>
    simp only [Invocation.decodeError, errorOf_eq_some] at hdec
    cases l <;> simp only [Invocation.request, optionalParam] at hcall <;>
      simp [Invocation.run, Client.Mining, hcall, hdec]
  | MinerThreads l =>
    simp only [Invocation.decodeError, errorOf_eq_some] at hdec
    cases l <;> simp only [Invocation.request, optionalParam] at hcall <;>
      simp [Invocation.run, Client.MinerThreads, hcall, hdec]
  | Pool l =>
    simp only [Invocation.decodeError, errorOf_eq_some] at hdec
    cases l <;> simp only [Invocation.request, optionalParam] at hcall <;>
      simp [Invocation.run, Client.Pool, hcall, hdec]
  | PeerState a l =>
    simp only [Invocation.decodeError, errorOf_eq_some] at hdec
    cases l with
    | nil =>
      simp only [Invocation.request] at hcall
      simp [Invocation.run, Client.PeerState, hcall, hdec]
    | cons u us =>
      simp only [Invocation.request] at hcall
      simp only [Invocation.run, Client.PeerState]
      split_ifs at hcall ⊢ <;> simp [hcall, hdec]
  | GetBlockByHash h full =>
    simp only [Invocation.request] at hcall
    simp only [Invocation.decodeError] at hdec
    simp only [Invocation.run, Client.GetBlockByHash, hcall]
    cases hb : d.block rpcResp with
    | error e0 =>
      rw [hb] at hdec
      simp at hdec
      simp [hdec]
    | ok b =>
      rw [hb] at hdec
      simp only [] at hdec
      by_cases hh : b.Hash = ""
      · simp [hh] at hdec
      · cases full <;> simp [hh, errorOf_eq_some] at hdec <;> simp [hh, hdec]
  | GetBlockByNumber n full =>
    simp only [Invocation.request] at hcall
    simp only [Invocation.decodeError] at hdec
    simp only [Invocation.run, Client.GetBlockByNumber, hcall]
    cases hb : d.block rpcResp with
    | error e0 =>
      rw [hb] at hdec
      simp at hdec
      simp [hdec]
    | ok b =>
      rw [hb] at hdec
      simp only [] at hdec
      by_cases hh : b.Hash = ""
      · simp [hh] at hdec
      · cases full <;> simp [hh, errorOf_eq_some] at hdec <;> simp [hh, hdec]
  | MempoolContent full =>
    simp only [Invocation.request] at hcall
    cases full <;> simp [Invocation.decodeError, errorOf_eq_some] at hdec <;>
      simp [Invocation.run, Client.MempoolContent, hcall, hdec]
  | Syncing =>
    simp only [Invocation.request] at hcall
    simp only [Invocation.decodeError] at hdec
    simp only [Invocation.run, Client.Syncing, hcall]
    cases hs : d.syncStatus rpcResp with
    | ok r =>
      rw [hs] at hdec
      simp at hdec
    | error e0 =>
      rw [hs] at hdec
      simp only [errorOf_eq_some] at hdec
      simp [hdec]
  | _ =>
    simp only [Invocation.request] at hcall
    simp only [Invocation.decodeError, errorOf_eq_some] at hdec
    simp [Invocation.run,
      Client.Accounts, Client.BlockNumber, Client.Consensus, Client.CreateAccount,
      Client.CreateRawTransaction, Client.GetAccount, Client.GetBalance, Client.GetBlockByHash,
      Client.GetBlockByNumber, Client.GetBlockTemplate, Client.GetBlockTransactionCountByHash,
      Client.GetBlockTransactionCountByNumber, Client.GetTransactionByBlockHashAndIndex,
      Client.GetTransactionByBlockNumberAndIndex, Client.GetTransactionByHash,
      Client.GetTransactionReceipt, Client.GetTransactionsByAddress, Client.GetWork,
      Client.Hashrate, Client.Log, Client.Mempool, Client.MempoolContent, Client.MinFeePerByte,
      Client.MinerAddress, Client.MinerThreads, Client.Mining, Client.PeerCount,
      Client.PeerList, Client.PeerState, Client.Pool, Client.PoolConfirmedBalance,
      Client.PoolConnectionState, Client.SendRawTransaction, Client.SendTransaction,
      Client.SubmitBlock, Client.Syncing,
      hcall, hdec]

theorem decode_failure_is_formatted_error_witness :
    (Invocation.GetBalance "NQ07").run (constantClient (JSON.string "x")) jsonDecoders 0 =
        ⟨true, some (Errorf_v_v Error.ErrResultUnexpected
          (UnmarshalTypeError (JSON.string "x") "nimiqrpc.Luna")), 1⟩ ∧
      (Errorf_v_v Error.ErrResultUnexpected
          (UnmarshalTypeError (JSON.string "x") "nimiqrpc.Luna")).message =
        "unexpected result: " ++
          (UnmarshalTypeError (JSON.string "x") "nimiqrpc.Luna").message ∧
      Errorf_v_v Error.ErrResultUnexpected
          (UnmarshalTypeError (JSON.string "x") "nimiqrpc.Luna") ≠
        Error.ErrResultUnexpected :=
  decode_failure_is_formatted_error (constantClient (JSON.string "x")) jsonDecoders
    (Invocation.GetBalance "NQ07") 0 (JSON.string "x") 1
    (UnmarshalTypeError (JSON.string "x") "nimiqrpc.Luna") rfl rfl rfl

/-- C17. Transport errors are surfaced verbatim and never retried: for every
catalog method, if the single dispatcher call (`Client.Call`) fails with error
`e`, the method returns exactly `e` as its error, with the empty value; the
state of the world after the method is the state right after that one call
(no further call is made), and the decoders play no part in the result
(nothing is decoded). -/
theorem transport_error_verbatim {Resp Raw σ : Type} (nc : Client Resp σ)
    (d : Decoders Resp Raw) (inv : Invocation) (s s1 : σ) (err : Error)
    (hcall : nc.Call inv.request.1 inv.request.2 s = (Except.error err, s1)) :
    inv.run nc d s = ⟨true, some err, s1⟩ ∧
      ∀ d2 : Decoders Resp Raw, inv.run nc d2 s = inv.run nc d s := by
  have key : ∀ d0 : Decoders Resp Raw, inv.run nc d0 s = ⟨true, some err, s1⟩ := by
    intro d0
    cases inv with
    | MinFeePerByte l =>
      cases l <;> simp only [Invocation.request, optionalParam] at hcall <;>
        simp [Invocation.run, Client.MinFeePerByte, hcall]
    | Mining l =>
      cases l <;> simp only [Invocation.request, optionalParam] at hcall <;>
        simp [Invocation.run, Client.Mining, hcall]
    | MinerThreads l =>
      cases l <;> simp only [Invocation.request, optionalParam] at hcall <;>
        simp [Invocation.run, Client.MinerThreads, hcall]
    | Pool l =>
      cases l <;> simp only [Invocation.request, optionalParam] at hcall <;>
        simp [Invocation.run, Client.Pool, hcall]
    | PeerState a l =>
      cases l with
      | nil =>
        simp only [Invocation.request] at hcall
        simp [Invocation.run, Client.PeerState, hcall]
      | cons u us =>
        simp only [Invocation.request] at hcall
        simp only [Invocation.run, Client.PeerState]
        split_ifs at hcall ⊢ <;> simp [hcall]
    | _ =>
      simp only [Invocation.request] at hcall
      simp [Invocation.run,
        Client.Accounts, Client.BlockNumber, Client.Consensus, Client.CreateAccount,
        Client.CreateRawTransaction, Client.GetAccount, Client.GetBalance,
        Client.GetBlockByHash, Client.GetBlockByNumber, Client.GetBlockTemplate,
        Client.GetBlockTransactionCountByHash, Client.GetBlockTransactionCountByNumber,
        Client.GetTransactionByBlockHashAndIndex, Client.GetTransactionByBlockNumberAndIndex,
        Client.GetTransactionByHash, Client.GetTransactionReceipt,
        Client.GetTransactionsByAddress, Client.GetWork, Client.Hashrate, Client.Log,
        Client.Mempool, Client.MempoolContent, Client.MinFeePerByte, Client.MinerAddress,
        Client.MinerThreads, Client.Mining, Client.PeerCount, Client.PeerList, Client.PeerState,
        Client.Pool, Client.PoolConfirmedBalance, Client.PoolConnectionState,
        Client.SendRawTransaction, Client.SendTransaction, Client.SubmitBlock, Client.Syncing,
        hcall]
  exact ⟨key d, fun d2 => (key d2).trans (key d).symm⟩

theorem transport_error_verbatim_witness :
    (Invocation.GetBalance "NQ07").run (failingClient JSON (Error.foreign "timeout"))
        jsonDecoders 0 = ⟨true, some (Error.foreign "timeout"), 1⟩ ∧
      ∀ d2 : Decoders JSON JSON,
        (Invocation.GetBalance "NQ07").run (failingClient JSON (Error.foreign "timeout")) d2
            0 =
          (Invocation.GetBalance "NQ07").run (failingClient JSON (Error.foreign "timeout"))
            jsonDecoders 0 :=
  transport_error_verbatim (failingClient JSON (Error.foreign "timeout")) jsonDecoders
    (Invocation.GetBalance "NQ07") 0 1 (Error.foreign "timeout") rfl

/-- C18. Decode is all-or-nothing: for every catalog method, whenever the
returned error is non-nil the returned value is the empty value of its type
(nil pointer, 0, the empty string, false, nil or empty list); in particular
`GetBlockByHash` and `GetBlockByNumber` return nil, not the already decoded
block, when the block decodes but the transactions projection fails to
decode. -/
theorem decode_all_or_nothing {Resp Raw σ : Type} (nc : Client Resp σ)
    (d : Decoders Resp Raw) (s : σ) :
    (∀ inv : Invocation, (inv.run nc d s).err ≠ none →
      (inv.run nc d s).valueIsEmpty = true) ∧
    (∀ blockHash full rpcResp s1 b err,
      nc.Call "getBlockByHash" (Param.list [Param.str blockHash, Param.bool full]) s =
        (Except.ok rpcResp, s1) →
      d.block rpcResp = Except.ok b → b.Hash ≠ "" →
      (if full then errorOf (d.unmarshalObjects b.Transactions b.TransactionObjects)
        else errorOf (d.unmarshalHashes b.Transactions b.TransactionHashes)) = some err →
      nc.GetBlockByHash d.block d.unmarshalObjects d.unmarshalHashes blockHash full s =
        ((none, some (Errorf_v_v Error.ErrResultUnexpected err)), s1)) ∧
    (∀ blockNumber full rpcResp s1 b err,
      nc.Call "getBlockByNumber" (Param.list [Param.int blockNumber, Param.bool full]) s =
        (Except.ok rpcResp, s1) →
      d.block rpcResp = Except.ok b → b.Hash ≠ "" →
      (if full then errorOf (d.unmarshalObjects b.Transactions b.TransactionObjects)
        else errorOf (d.unmarshalHashes b.Transactions b.TransactionHashes)) = some err →
      nc.GetBlockByNumber d.block d.unmarshalObjects d.unmarshalHashes blockNumber full s =
        ((none, some (Errorf_v_v Error.ErrResultUnexpected err)), s1)) := by
  refine ⟨?_, ?_, ?_⟩
  · intro inv
    cases inv <;>
      simp only [Invocation.run,
        Client.Accounts, Client.BlockNumber, Client.Consensus, Client.CreateAccount,
        Client.CreateRawTransaction, Client.GetAccount, Client.GetBalance,
        Client.GetBlockByHash, Client.GetBlockByNumber, Client.GetBlockTemplate,
        Client.GetBlockTransactionCountByHash, Client.GetBlockTransactionCountByNumber,
        Client.GetTransactionByBlockHashAndIndex, Client.GetTransactionByBlockNumberAndIndex,
        Client.GetTransactionByHash, Client.GetTransactionReceipt,
        Client.GetTransactionsByAddress, Client.GetWork, Client.Hashrate, Client.Log,
        Client.Mempool, Client.MempoolContent, Client.MinFeePerByte, Client.MinerAddress,
        Client.MinerThreads, Client.Mining, Client.PeerCount, Client.PeerList, Client.PeerState,
        Client.Pool, Client.PoolConfirmedBalance, Client.PoolConnectionState,
        Client.SendRawTransaction, Client.SendTransaction, Client.SubmitBlock, Client.Syncing,
        decide_eq_true_eq, Bool.not_eq_true', Bool.and_eq_true] <;>
      (repeat' split) <;> simp_all
  · intro blockHash full rpcResp s1 b err hcall hdec hhash hproj
    cases full <;> simp [errorOf_eq_some] at hproj <;>
      simp [Client.GetBlockByHash, hcall, hdec, hhash, hproj]
  · intro blockNumber full rpcResp s1 b err hcall hdec hhash hproj
    cases full <;> simp [errorOf_eq_some] at hproj <;>
      simp [Client.GetBlockByNumber, hcall, hdec, hhash, hproj]

theorem decode_all_or_nothing_witness :
    ((Invocation.PeerList).run (constantClient (JSON.string "x")) jsonDecoders 0).err ≠ none ∧
      ((Invocation.PeerList).run (constantClient (JSON.string "x")) jsonDecoders
        0).valueIsEmpty = true ∧
      (constantClient (JSON.object [])).GetBlockByHash
          (fun _ => Except.ok { Hash := "00", Transactions := JSON.string "x" })
          jsonDecoders.unmarshalObjects jsonDecoders.unmarshalHashes "00" true 0 =
        ((none, some (Errorf_v_v Error.ErrResultUnexpected
          (UnmarshalTypeError (JSON.string "x") "[]nimiqrpc.Transaction"))), 1) :=
  ⟨by decide,
    (decode_all_or_nothing (constantClient (JSON.string "x")) jsonDecoders 0).1
      Invocation.PeerList (by decide),
    (decode_all_or_nothing (constantClient (JSON.object []))
      { jsonDecoders with
        block := fun _ => Except.ok { Hash := "00", Transactions := JSON.string "x" } }
      0).2.1 "00" true (JSON.object []) 1
      { Hash := "00", Transactions := JSON.string "x" }
      (UnmarshalTypeError (JSON.string "x") "[]nimiqrpc.Transaction") rfl rfl (by decide) rfl⟩

/-! ## The claims about the parameters sent -/

/-- C19. Peer state command validation: for every `peerAddress` and every list
of update arguments, the parameter list `PeerState` sends is
`[peerAddress, update[0]]` if and only if at least one update argument is given
and `update[0]` is exactly one of `ban`, `unban`, `connect`, `disconnect`; in
every other case it is `[peerAddress]` alone, and no error is raised because
of the unrecognised command: the result is the decoded answer of the node.
The requests are read off a transport that records them. -/
theorem PeerState_command_validation {Resp : Type} (resp : Resp)
    (GetObject : Resp → Except Error Peer) (peerAddress : String) (update : List String) :
    (((recordingClient resp).PeerState GetObject peerAddress update []).2 =
        [("peerState", Param.list [Param.str peerAddress, Param.str (update.headD "")])] ↔
      ∃ first rest, update = first :: rest ∧ IsPeerCommand first) ∧
    ((¬ ∃ first rest, update = first :: rest ∧ IsPeerCommand first) →
      ((recordingClient resp).PeerState GetObject peerAddress update []).2 =
        [("peerState", Param.list [Param.str peerAddress])]) ∧
    (∀ peer, GetObject resp = Except.ok peer →
      ((recordingClient resp).PeerState GetObject peerAddress update []).1 =
        (some peer, none)) := by
  have hlog : ((recordingClient resp).PeerState GetObject peerAddress update []).2 =
      [("peerState", Param.list (match update with
        | [] => [Param.str peerAddress]
        | first :: _ =>
          if first = "ban" ∨ first = "unban" ∨ first = "connect" ∨ first = "disconnect" then
            [Param.str peerAddress, Param.str first]
          else [Param.str peerAddress]))] := by
    simp only [Client.PeerState, Client.Call, recordingClient]
    cases GetObject resp <;> rfl
  have hres : ∀ peer, GetObject resp = Except.ok peer →
      ((recordingClient resp).PeerState GetObject peerAddress update []).1 =
        (some peer, none) := by
    intro peer hdec
    simp only [Client.PeerState, Client.Call, recordingClient, hdec]
  refine ⟨?_, ?_, hres⟩
  · rw [hlog]
    cases update with
    | nil => simp
    | cons u us =>
      by_cases hu : u = "ban" ∨ u = "unban" ∨ u = "connect" ∨ u = "disconnect"
      · simp [hu, IsPeerCommand]
      · simp [hu, IsPeerCommand]
  · intro hnot
    rw [hlog]
    cases update with
    | nil => rfl
    | cons u us =>
      have hu : ¬ (u = "ban" ∨ u = "unban" ∨ u = "connect" ∨ u = "disconnect") :=
        fun h => hnot ⟨u, us, rfl, h⟩
      simp only [hu, if_false]

theorem PeerState_command_validation_witness :
    ((recordingClient ()).PeerState (fun _ => Except.ok {}) "peer" ["Ban"] []).2 =
        [("peerState", Param.list [Param.str "peer"])] ∧
      ((recordingClient ()).PeerState (fun _ => Except.ok {}) "peer" ["Ban"] []).1 =
        (some {}, none) :=
  ⟨(PeerState_command_validation () (fun _ => Except.ok {}) "peer" ["Ban"]).2.1
      (by unfold IsPeerCommand; simp),
    (PeerState_command_validation () (fun _ => Except.ok {}) "peer" ["Ban"]).2.2 {} rfl⟩

/-- C20. Optional trailing parameter rule: for `Mining`, `MinerThreads`,
`MinFeePerByte` and `Pool`, the parameter list sent is empty when the optional
argument is omitted, and is the one-element list holding the first supplied
value when one or more values are supplied (any further values are ignored).
The requests are read off a transport that records them. -/
theorem optional_trailing_parameter {Resp : Type} (resp : Resp)
    (GetBool : Resp → Except Error Bool) (GetInt : Resp → Except Error Int)
    (GetString : Resp → Except Error String) :
    (((recordingClient resp).Mining GetBool [] []).2 = [("mining", Param.list [])] ∧
      ∀ first rest, ((recordingClient resp).Mining GetBool (first :: rest) []).2 =
        [("mining", Param.list [Param.bool first])]) ∧
    (((recordingClient resp).MinerThreads GetInt [] []).2 =
        [("minerThreads", Param.list [])] ∧
      ∀ first rest, ((recordingClient resp).MinerThreads GetInt (first :: rest) []).2 =
        [("minerThreads", Param.list [Param.int first])]) ∧
    (((recordingClient resp).MinFeePerByte GetInt [] []).2 =
        [("minFeePerByte", Param.list [])] ∧
      ∀ first rest, ((recordingClient resp).MinFeePerByte GetInt (first :: rest) []).2 =
        [("minFeePerByte", Param.list [Param.int first])]) ∧
    (((recordingClient resp).Pool GetString [] []).2 = [("pool", Param.list [])] ∧
      ∀ first rest, ((recordingClient resp).Pool GetString (first :: rest) []).2 =
        [("pool", Param.list [Param.str first])]) := by
  refine ⟨⟨?_, ?_⟩, ⟨?_, ?_⟩, ⟨?_, ?_⟩, ⟨?_, ?_⟩⟩
  · simp only [Client.Mining, Client.Call, recordingClient]
    cases GetBool resp <;> rfl
  · intro first rest
    simp only [Client.Mining, Client.Call, recordingClient]
    cases GetBool resp <;> rfl
  · simp only [Client.MinerThreads, Client.Call, recordingClient]
    cases GetInt resp <;> rfl
  · intro first rest
    simp only [Client.MinerThreads, Client.Call, recordingClient]
    cases GetInt resp <;> rfl
  · simp only [Client.MinFeePerByte, Client.Call, recordingClient]
    cases GetInt resp <;> rfl
  · intro first rest
    simp only [Client.MinFeePerByte, Client.Call, recordingClient]
    cases GetInt resp <;> rfl
  · simp only [Client.Pool, Client.Call, recordingClient]
    cases GetString resp <;> rfl
  · intro first rest
    simp only [Client.Pool, Client.Call, recordingClient]
    cases GetString resp <;> rfl

/-! ## The claim about batch calls -/

theorem assignIDsFrom_length (reqs : List RPCRequest) : ∀ i,
    (assignIDsFrom i reqs).length = reqs.length := by
  induction reqs with
  | nil => intro i; rfl
  | cons r rs ih => intro i; simp [assignIDsFrom, ih]

theorem assignIDsFrom_getElem? (reqs : List RPCRequest) : ∀ (i k : Nat) (q : RPCRequest),
    (assignIDsFrom i reqs)[k]? = some q → q.ID = ((i + k : Nat) : Int) := by
  induction reqs with
  | nil => intro i k q h; simp [assignIDsFrom] at h
  | cons r rs ih =>
    intro i k q h
    cases k with
    | zero =>
      simp [assignIDsFrom] at h
      rw [← h]
      simp
    | succ k =>
      simp [assignIDsFrom] at h
      have := ih (i + 1) k q h
      rw [this]
      congr 1
      omega

theorem HasError_iff (responses : List RPCResponse) :
    HasError responses = true ↔ ∃ r ∈ responses, r.Error ≠ none := by
  simp [HasError, Option.isSome_iff_ne_none]

theorem assignIDsFrom_fields (reqs : List RPCRequest) : ∀ (i k : Nat) (q : RPCRequest),
    (assignIDsFrom i reqs)[k]? = some q →
      ∃ r0, reqs[k]? = some r0 ∧ q.Method = r0.Method ∧ q.Params = r0.Params := by
  induction reqs with
  | nil => intro i k q h; simp [assignIDsFrom] at h
  | cons r rs ih =>
    intro i k q h
    cases k with
    | zero =>
      simp [assignIDsFrom] at h
      exact ⟨r, by simp, by rw [← h], by rw [← h]⟩
    | succ k =>
      simp [assignIDsFrom] at h
      obtain ⟨r0, h0, h1, h2⟩ := ih (i + 1) k q h
      exact ⟨r0, by simpa using h0, h1, h2⟩

/-- C21, as stated, fails: an exchange that succeeds need not deliver one
response per request, and `CallBatch` does not check what it is given. The
transport answers the batch of the three requests of `TestBatch` with the
single response to the first one; `CallBatch` returns that one response with a
nil error, not three responses. -/
theorem CallBatch_successful_exchange_fewer_responses :
    ¬ ∀ (nc : Client Unit Nat) (reqs : List RPCRequest) (s s1 : Nat)
        (delivered : List RPCResponse),
        nc.batchExchange (assignIDsFrom 0 reqs) s = (Except.ok delivered, s1) →
        ∃ responses, nc.CallBatch reqs s = ((responses, none), s1) ∧
          responses.length = reqs.length ∧
          (∀ i : Nat, i < reqs.length →
            ∃ r, GetByID responses (i : Int) = some r ∧ r.ID = (i : Int)) ∧
          (HasError responses = true ↔ ∃ r ∈ responses, r.Error ≠ none) := by
  intro h
  obtain ⟨responses, hcall, hlen, _⟩ :=
    h (batchClient [{ ID := 0, Result := JSON.array [] }]) sampleRequests 0 1
      [{ ID := 0, Result := JSON.array [] }] rfl
  have e : (batchClient [{ ID := 0, Result := JSON.array [] }]).CallBatch sampleRequests 0 =
      (([{ ID := 0, Result := JSON.array [] }], none), 1) := rfl
  rw [e] at hcall
  have hr : responses = [{ ID := 0, Result := JSON.array [] }] := by
    have := congrArg (fun x => x.1.1) hcall
    exact this.symm
  rw [hr] at hlen
  simp [sampleRequests] at hlen

/-- C21, amended. Batch calls: `CallBatch` over `n` requests sends them
numbered by position (request `i` carries the identifier `i`, with its method
and parameters unchanged) and returns, on a successful exchange, the responses
the transport delivers, unchanged and in the order delivered, without checking
their number or their identifiers; the call itself reports success (nil error)
even when some response carries an error, and `HasError` on the returned
collection is true if and only if at least one response carries an error. A
response found under an identifier is a returned response that carries it.
When the node answers every request once, each answer carrying the identifier
of its request, and the transport delivers the answers in any order, there are
`n` responses and the response found under the identifier of a request is the
answer to that request. -/
theorem CallBatch_returns_delivered_responses {Resp σ : Type} (nc : Client Resp σ)
    (reqs : List RPCRequest) (s s1 : σ) (delivered : List RPCResponse)
    (hex : nc.batchExchange (assignIDsFrom 0 reqs) s = (Except.ok delivered, s1)) :
    ((assignIDsFrom 0 reqs).length = reqs.length ∧
      ∀ (i : Nat) (q : RPCRequest), (assignIDsFrom 0 reqs)[i]? = some q →
        q.ID = (i : Int) ∧
          ∃ r0, reqs[i]? = some r0 ∧ q.Method = r0.Method ∧ q.Params = r0.Params) ∧
      nc.CallBatch reqs s = ((delivered, none), s1) ∧
      (HasError delivered = true ↔ ∃ r ∈ delivered, r.Error ≠ none) ∧
      (∀ (id : Int) (r : RPCResponse), GetByID delivered id = some r →
        r ∈ delivered ∧ r.ID = id) ∧
      (∀ answers : List RPCResponse, answers.length = reqs.length →
        (∀ (i : Nat) (q : RPCRequest) (r : RPCResponse),
          (assignIDsFrom 0 reqs)[i]? = some q → answers[i]? = some r → r.ID = q.ID) →
        delivered.Perm answers →
        delivered.length = reqs.length ∧
          ∀ (i : Nat) (r : RPCResponse), answers[i]? = some r →
            GetByID delivered (i : Int) = some r) := by
  refine ⟨⟨assignIDsFrom_length reqs 0, ?_⟩, ?_, HasError_iff delivered, ?_, ?_⟩
  · intro i q hq
    refine ⟨?_, assignIDsFrom_fields reqs 0 i q hq⟩
    rw [assignIDsFrom_getElem? reqs 0 i q hq]
    simp
  · simp [Client.CallBatch, rpcClientCallBatch, hex]
  · intro id r hf
    unfold GetByID at hf
    refine ⟨List.mem_of_find?_eq_some hf, ?_⟩
    have := List.find?_some hf
    simpa using this
  · intro answers hlen hid hperm
    have hidx : ∀ (i : Nat) (r : RPCResponse), answers[i]? = some r → r.ID = (i : Int) := by
      intro i r hr
      have hi : i < (assignIDsFrom 0 reqs).length := by
        rw [assignIDsFrom_length, ← hlen]
        exact (List.getElem?_eq_some_iff.mp hr).1
      have hq : (assignIDsFrom 0 reqs)[i]? = some ((assignIDsFrom 0 reqs)[i]) :=
        List.getElem?_eq_getElem hi
      rw [hid i _ r hq hr, assignIDsFrom_getElem? reqs 0 i _ hq]
      simp
    refine ⟨by rw [hperm.length_eq, hlen], ?_⟩
    intro i r hr
    have hmem : r ∈ delivered := hperm.mem_iff.mpr (List.getElem?_mem hr)
    have hri := hidx i r hr
    unfold GetByID
    cases hf : delivered.find? (fun x => decide (x.ID = (i : Int))) with
    | none =>
      have := List.find?_eq_none.mp hf r hmem
      simp [hri] at this
    | some r2 =>
      have hp : r2.ID = (i : Int) := by
        have := List.find?_some hf
        simpa using this
      have hmem2 : r2 ∈ answers := hperm.mem_iff.mp (List.mem_of_find?_eq_some hf)
      obtain ⟨j, hj⟩ := List.mem_iff_getElem?.mp hmem2
      have hrj := hidx j r2 hj
      have hji : j = i := by
        rw [hp] at hrj
        exact_mod_cast hrj.symm
      subst hji
      rw [hr] at hj
      exact hj.symm ▸ rfl

theorem CallBatch_returns_delivered_responses_witness :
    (batchClient sampleDelivered).CallBatch sampleRequests 0 = ((sampleDelivered, none), 1) ∧
      HasError sampleDelivered = true ∧
      sampleDelivered.length = sampleRequests.length ∧
      (∀ (i : Nat) (r : RPCResponse), sampleAnswers[i]? = some r →
        GetByID sampleDelivered (i : Int) = some r) ∧
      (batchClient (sampleAnswers.take 1)).CallBatch sampleRequests 0 =
        ((sampleAnswers.take 1, none), 1) :=
  have h := CallBatch_returns_delivered_responses (batchClient sampleDelivered) sampleRequests
    0 1 sampleDelivered rfl
  have h2 := h.2.2.2.2 sampleAnswers rfl
    (fun i q r hq hr => by
      have hqi := assignIDsFrom_getElem? sampleRequests 0 i q hq
      rcases i with _ | _ | _ | i <;> simp [sampleAnswers] at hr <;> simp [← hr, hqi])
    ((List.Perm.swap _ _ _).trans (List.Perm.cons _ (List.Perm.swap _ _ _)))
  ⟨h.2.1, h.2.2.1.mpr ⟨_, List.mem_cons_of_mem _ (List.mem_cons_of_mem _
      (List.mem_singleton.mpr rfl)), by simp⟩, h2.1, h2.2,
    (CallBatch_returns_delivered_responses (batchClient (sampleAnswers.take 1)) sampleRequests
      0 1 (sampleAnswers.take 1) rfl).2.1⟩

/-! ## `FormatNIM` on every amount -/

theorem FormatNIM_steps (l : Int) :
    FormatNIM l =
      (insertSeparator (padLoop (5 - (Itoa l).length) (Itoa l))).bind dropZeroFraction :=
  rfl

theorem padded_length (s : List Char) : 5 ≤ (padLoop (5 - s.length) s).length := by
  rw [padLoop_eq]
  simp
  omega

theorem insertSeparator_of_split (H lo : List Char) (hlo : lo.length = 5) :
    insertSeparator (H ++ lo) = some ((if H = [] then ['0'] else H) ++ '.' :: lo) := by
  unfold insertSeparator
  by_cases hH : H = []
  · subst hH
    simp [hlo]
  · have hpos : 0 < H.length := List.length_pos.mpr hH
    have hne : ¬ (H ++ lo).length = 5 := by
      rw [List.length_append, hlo]
      omega
    have hgt : (H ++ lo).length > 5 := by
      rw [List.length_append, hlo]
      omega
    have e1 : slice (H ++ lo) 0 (((H ++ lo).length : Int) - 5) = some H := by
      apply slice_left
      simp [hlo]
    have e2 : slice (H ++ lo) (((H ++ lo).length : Int) - 5) (H ++ lo).length = some lo := by
      apply slice_right
      · simp [hlo]
      · rfl
    simp only [hne, hgt, if_true, if_false, e1, e2, Option.some_bind, hH]

theorem dropZeroFraction_of_split (hi lo : List Char) (hlo : lo.length = 5) :
    dropZeroFraction (hi ++ '.' :: lo) =
      some (if lo = ['0', '0', '0', '0', '0'] then hi else hi ++ '.' :: lo) :=
  formatNIM_tail hi lo hlo

/-- What `FormatNIM` returns, from the padded numeral split before its last 5
characters. -/
theorem FormatNIM_of_split (l : Int) (H lo : List Char) (hlo : lo.length = 5)
    (hs : padLoop (5 - (Itoa l).length) (Itoa l) = H ++ lo) :
    FormatNIM l =
      some (if lo = ['0', '0', '0', '0', '0'] then (if H = [] then ['0'] else H)
        else (if H = [] then ['0'] else H) ++ '.' :: lo) := by
  rw [FormatNIM_steps, hs, insertSeparator_of_split H lo hlo, Option.some_bind,
    dropZeroFraction_of_split _ lo hlo]

theorem padded_split (s : List Char) :
    ∃ H lo, lo.length = 5 ∧ padLoop (5 - s.length) s = H ++ lo := by
  have h5 := padded_length s
  refine ⟨(padLoop (5 - s.length) s).take ((padLoop (5 - s.length) s).length - 5),
    (padLoop (5 - s.length) s).drop ((padLoop (5 - s.length) s).length - 5), ?_, ?_⟩
  · rw [List.length_drop]
    omega
  · exact (List.take_append_drop _ _).symm

theorem padIter_exits : ∀ (k i : Nat) (s : List Char), i + k = 5 →
    padStep (padIter k (i, s)) = none ∧ (padIter k (i, s)).2 = padLoop k s := by
  intro k
  induction k with
  | zero =>
    intro i s h
    have hi : ¬ i < 5 := by omega
    simp [padIter, padStep, padLoop, hi]
  | succ k ih =>
    intro i s h
    have hi : i < 5 := by omega
    simp only [padIter, padStep, hi, if_true, padLoop]
    exact ih (i + 1) ('0' :: s) (by omega)

theorem padIter_exits_at_once (i : Nat) (s : List Char) (h : 5 ≤ i) :
    padStep (i, s) = none := by
  have hi : ¬ i < 5 := by omega
  simp [padStep, hi]

theorem padIter_terminates (i : Nat) (s : List Char) :
    padStep (padIter (5 - i) (i, s)) = none ∧ (padIter (5 - i) (i, s)).2 = padLoop (5 - i) s := by
  by_cases h : 5 ≤ i
  · have hk : 5 - i = 0 := by omega
    rw [hk]
    exact ⟨padIter_exits_at_once i s h, rfl⟩
  · exact padIter_exits (5 - i) i s (by omega)

/-! ## Negative amounts and overflow -/

theorem Itoa_neg (m : Nat) (hm : 1 ≤ m) : Itoa (-(m : Int)) = '-' :: Nat.toDigits 10 m := by
  have h : (-(m : Int)) < 0 := by omega
  simp [Itoa, h]

theorem Atoi_bad_tail (c : Char) (cs : List Char) (x : Char) (hx : x ∈ cs)
    (hbad : x.isDigit = false) : (Atoi (c :: cs)).2 ≠ none := by
  apply ParseInt_error_of_ParseUint
  by_cases hsign : (c == '+' || c == '-') = true
  · simp only [hsign, if_true]
    cases cs with
    | nil => simp at hx
    | cons y ys => exact parseUintLoop_bad_char _ _ ⟨x, hx, hbad⟩
  · simp only [hsign]
    exact parseUintLoop_bad_char _ _ ⟨x, List.mem_cons_of_mem _ hx, hbad⟩

theorem Atoi_neg_digits (D : List Char) (hne : D ≠ []) (hd : IsDigits D)
    (hv : decimalValue D ≤ 2 ^ 63) : Atoi ('-' :: D) = (-(decimalValue D : Int), none) := by
  have hu : ParseUint D = (decimalValue D, none) := by
    cases D with
    | nil => exact absurd rfl hne
    | cons c cs =>
      have h := parseUintLoop_digits (c :: cs) 0 hd (by rw [maxUint64_eq]; omega)
      simpa [ParseUint] using h
  have hgt : ¬ (9223372036854775808 < decimalValue D) := by omega
  simp [Atoi, ParseInt, hu, hgt]

/-- The digit loop on a digit string: the value, or a range error. -/
theorem parseUintLoop_digits_cases (s : List Char) : ∀ n : Nat, IsDigits s →
    parseUintLoop s n = (n * 10 ^ s.length + decimalValue s, none) ∨
      parseUintLoop s n = (maxUint64, some NumError.ErrRange) := by
  induction s with
  | nil => intro n _; left; simp [parseUintLoop, decimalValue]
  | cons c cs ih =>
    intro n hd
    have hc : c.isDigit = true := hd c (List.mem_cons_self _ _)
    have hcs : IsDigits cs := fun x hx => hd x (List.mem_cons_of_mem _ hx)
    have hval : n * 10 ^ (c :: cs).length + decimalValue (c :: cs) =
        (n * 10 + (c.toNat - 48)) * 10 ^ cs.length + decimalValue cs := by
      rw [decimalValue_cons, List.length_cons, pow_succ]
      ring
    simp only [parseUintLoop, hc, if_true]
    split_ifs with h1 h2
    · right; rfl
    · right; rfl
    · rw [hval]
      exact ih _ hcs

theorem Atoi_overflow (t : List Char) (hd : IsDigits t) (hv : 2 ^ 63 - 1 < decimalValue t) :
    (Atoi t).2 ≠ none := by
  cases t with
  | nil => simp [decimalValue] at hv
  | cons c cs =>
    have hc : c.isDigit = true := hd c (List.mem_cons_self _ _)
    obtain ⟨hs1, hs2⟩ := isDigit_not_sign c hc
    rcases parseUintLoop_digits_cases (c :: cs) 0 hd with h | h
    · have hu : ParseUint (c :: cs) = (decimalValue (c :: cs), none) := by
        simpa [ParseUint] using h
      have hge : 9223372036854775808 ≤ decimalValue (c :: cs) := by omega
      simp [Atoi, ParseInt, hs1, hs2, hu, hge]
    · have hu : ParseUint (c :: cs) = (maxUint64, some NumError.ErrRange) := by
        simpa [ParseUint] using h
      simp [Atoi, ParseInt, hs1, hs2, hu, maxUint64_eq]

theorem toDigits_length_le (k m : Nat) (hk : 1 ≤ k) (hm : m < 10 ^ k) :
    (Nat.toDigits 10 m).length ≤ k :=
  (leftPad_toDigits k m hm hk).1

theorem toDigits_split_five (m : Nat) (hm : 10000 ≤ m) :
    ∃ D1, Nat.toDigits 10 m = D1 ++ fixedDigits 5 m := by
  by_cases h : 100000 ≤ m
  · exact ⟨_, toDigits_split 5 m (by norm_num; exact h)⟩
  · have hlen4 : 5 ≤ (Nat.toDigits 10 m).length := by
      have h4 := toDigits_split 4 m (by norm_num; exact hm)
      have hq := toDigits_length_pos (m / 10 ^ 4)
      rw [h4, List.length_append, fixedDigits_length]
      omega
    obtain ⟨hle, hpad⟩ := leftPad_toDigits 5 m (by norm_num; omega) (by omega)
    have h0 : 5 - (Nat.toDigits 10 m).length = 0 := by omega
    rw [h0] at hpad
    exact ⟨[], by simpa using hpad⟩

/-- The round trip on the amounts `-m` with `m ≥ 10000`: the minus sign stays
in front of the separator and `FormatLuna` reads the amount back. -/
theorem roundtrip_large_negative (m : Nat) (hm : 10000 ≤ m) (hmax : m ≤ 2 ^ 63) :
    ∃ s, FormatNIM (-(m : Int)) = some s ∧ FormatLuna s = some (-(m : Int), none) := by
  obtain ⟨D1, hD⟩ := toDigits_split_five m hm
  have hdig : IsDigits (D1 ++ fixedDigits 5 m) := hD ▸ toDigits_isDigits m
  have hD1 : IsDigits D1 := fun c hc => hdig c (List.mem_append_left _ hc)
  have hlo : (fixedDigits 5 m).length = 5 := fixedDigits_length 5 m
  have hItoa := Itoa_neg m (by omega)
  have hpad : padLoop (5 - (Itoa (-(m : Int))).length) (Itoa (-(m : Int))) =
      ('-' :: D1) ++ fixedDigits 5 m := by
    have hl : 5 - (Itoa (-(m : Int))).length = 0 := by
      rw [hItoa, hD]
      simp [hlo]
    rw [hl, hItoa, hD]
    rfl
  have hF := FormatNIM_of_split (-(m : Int)) ('-' :: D1) (fixedDigits 5 m) hlo hpad
  simp only [List.cons_ne_nil, if_false] at hF
  have hnodot : '.' ∉ '-' :: D1 := by
    intro h
    rcases List.mem_cons.mp h with h1 | h1
    · exact absurd h1 (by decide)
    · exact hD1.not_dot h1
  have hatoi : Atoi ('-' :: Nat.toDigits 10 m) = (-(m : Int), none) := by
    have := Atoi_neg_digits (Nat.toDigits 10 m)
      (List.ne_nil_of_length_pos (toDigits_length_pos m)) (toDigits_isDigits m)
      (by rw [decimalValue_toDigits]; exact hmax)
    rw [decimalValue_toDigits] at this
    exact this
  refine ⟨_, hF, ?_⟩
  by_cases hz : fixedDigits 5 m = ['0', '0', '0', '0', '0']
  · simp only [hz, if_true]
    apply FormatLuna_no_dot_ok _ _ hnodot
    rw [← hz, List.cons_append, ← hD]
    exact hatoi
  · simp only [hz, if_false]
    apply FormatLuna_dot_ok _ _ _ hnodot
    rw [List.cons_append, ← hD]
    exact hatoi

/-- The amounts `-m` with `1 ≤ m ≤ 9999`: the minus sign ends up among the
fractional digits and `FormatLuna` rejects the string. -/
theorem small_negative_malformed (m : Nat) (h1 : 1 ≤ m) (h2 : m ≤ 9999) :
    ∃ s, FormatNIM (-(m : Int)) = some s ∧ '-' ∈ fractionalDigits s ∧
      ∃ e, FormatLuna s = some (0, some e) := by
  have hItoa := Itoa_neg m h1
  have hlen := toDigits_length_le 4 m (by omega) (by norm_num; omega)
  have hlo : (padLoop (5 - (Itoa (-(m : Int))).length) (Itoa (-(m : Int)))).length = 5 := by
    rw [padLoop_eq, hItoa]
    simp
    omega
  have hmem : '-' ∈ padLoop (5 - (Itoa (-(m : Int))).length) (Itoa (-(m : Int))) := by
    rw [padLoop_eq, hItoa]
    simp
  have hF := FormatNIM_of_split (-(m : Int)) []
    (padLoop (5 - (Itoa (-(m : Int))).length) (Itoa (-(m : Int)))) hlo rfl
  have hz : padLoop (5 - (Itoa (-(m : Int))).length) (Itoa (-(m : Int))) ≠
      ['0', '0', '0', '0', '0'] := by
    intro h
    rw [h] at hmem
    exact absurd hmem (by decide)
  simp only [hz, if_false, if_true] at hF
  refine ⟨_, hF, ?_, ?_⟩
  · rw [fractionalDigits_dot _ _ (by decide)]
    exact hmem
  · exact FormatLuna_dot_err ['0'] _ (by decide) (Atoi_bad_tail '0' _ '-' hmem (by decide))

/-! ## The remaining claims about the currency converter -/

/-- C24. The function `FormatNIM` is total: for every amount (the `int64`
amounts, negative ones included) the padding loop terminates, after
`5 - len` iterations with the padded string, and every slice expression is
within bounds: after padding the string has at least 5 characters, the
separator is inserted without failure and gives a string of at least 7
characters, both slices of the last statement are within bounds, and
`FormatNIM` returns a string. -/
theorem FormatNIM_total (a : Int) :
    (padStep (padIter (5 - (Itoa a).length) ((Itoa a).length, Itoa a)) = none ∧
      (padIter (5 - (Itoa a).length) ((Itoa a).length, Itoa a)).2 =
        padLoop (5 - (Itoa a).length) (Itoa a)) ∧
    5 ≤ (padLoop (5 - (Itoa a).length) (Itoa a)).length ∧
    (∃ nimString, insertSeparator (padLoop (5 - (Itoa a).length) (Itoa a)) = some nimString ∧
      7 ≤ nimString.length ∧
      (slice nimString ((nimString.length : Int) - 5) nimString.length).isSome = true ∧
      (slice nimString 0 ((nimString.length : Int) - 6)).isSome = true) ∧
    ∃ r, FormatNIM a = some r := by
  obtain ⟨H, lo, hlo, hs⟩ := padded_split (Itoa a)
  refine ⟨padIter_terminates _ _, padded_length _, ?_, ⟨_, FormatNIM_of_split a H lo hlo hs⟩⟩
  rw [hs]
  refine ⟨_, insertSeparator_of_split H lo hlo, ?_, ?_, ?_⟩
  · have : 1 ≤ (if H = [] then ['0'] else H).length := by
      by_cases hH : H = []
      · simp [hH]
      · simp only [hH, if_false]
        exact List.length_pos.mpr hH
    simp only [List.length_append, List.length_cons, hlo]
    omega
  · have e1 : slice ((if H = [] then ['0'] else H) ++ '.' :: lo)
        ((((if H = [] then ['0'] else H) ++ '.' :: lo).length : Int) - 5)
        ((if H = [] then ['0'] else H) ++ '.' :: lo).length = some lo := by
      have : (if H = [] then ['0'] else H) ++ '.' :: lo =
          ((if H = [] then ['0'] else H) ++ ['.']) ++ lo := by simp
      rw [this]
      apply slice_right
      · simp [hlo]
        omega
      · rfl
    rw [e1]
    rfl
  · have e2 : slice ((if H = [] then ['0'] else H) ++ '.' :: lo) 0
        ((((if H = [] then ['0'] else H) ++ '.' :: lo).length : Int) - 6) =
        some (if H = [] then ['0'] else H) := by
      apply slice_left
      simp [hlo]
    rw [e2]
    rfl

/-- C22. Exact domain of the round trip over all 64-bit amounts: for every
`int64` amount `a`, `FormatLuna (FormatNIM a)` returns `(a, nil)` if and only
if `a ≥ 0` or `a ≤ -10000`; for `-9999 ≤ a ≤ -1` `FormatNIM` produces a
malformed string with the minus sign inside the fractional digits and
`FormatLuna` of it returns an error. -/
theorem roundtrip_exact_domain (a : Int) (hmin : -(2 ^ 63) ≤ a) (hmax : a ≤ 2 ^ 63 - 1) :
    ((∃ s, FormatNIM a = some s ∧ FormatLuna s = some (a, none)) ↔
      (0 ≤ a ∨ a ≤ -10000)) ∧
    (-9999 ≤ a → a ≤ -1 →
      ∃ s, FormatNIM a = some s ∧ '-' ∈ fractionalDigits s ∧
        ∃ e, FormatLuna s = some (0, some e)) := by
  have hsmall : -9999 ≤ a → a ≤ -1 →
      ∃ s, FormatNIM a = some s ∧ '-' ∈ fractionalDigits s ∧
        ∃ e, FormatLuna s = some (0, some e) := by
    intro h1 h2
    obtain ⟨m, hm⟩ : ∃ m : Nat, a = -(m : Int) := ⟨(-a).toNat, by omega⟩
    subst hm
    exact small_negative_malformed m (by omega) (by omega)
  refine ⟨⟨?_, ?_⟩, hsmall⟩
  · rintro ⟨s, hs, hl⟩
    by_contra hcon
    push_neg at hcon
    obtain ⟨s2, hs2, _, e, he⟩ := hsmall (by omega) (by omega)
    rw [hs] at hs2
    have hss : s = s2 := Option.some.inj hs2
    subst hss
    rw [hl] at he
    simp at he
  · rintro (h | h)
    · obtain ⟨n, rfl⟩ := Int.eq_ofNat_of_zero_le h
      exact roundtrip_natCast n (by omega)
    · obtain ⟨m, hm⟩ : ∃ m : Nat, a = -(m : Int) := ⟨(-a).toNat, by omega⟩
      subst hm
      exact roundtrip_large_negative m (by omega) (by omega)

theorem roundtrip_exact_domain_witness :
    ((∃ s, FormatNIM (-1) = some s ∧ FormatLuna s = some (-1, none)) ↔
      ((0 : Int) ≤ -1 ∨ (-1 : Int) ≤ -10000)) ∧
    ((-9999 : Int) ≤ -1 → (-1 : Int) ≤ -1 →
      ∃ s, FormatNIM (-1) = some s ∧ '-' ∈ fractionalDigits s ∧
        ∃ e, FormatLuna s = some (0, some e)) ∧
    FormatNIM (-1) = some "0.000-1".toList :=
  ⟨(roundtrip_exact_domain (-1) (by decide) (by decide)).1,
    (roundtrip_exact_domain (-1) (by decide) (by decide)).2, by decide⟩

/-- C23. For every amount `a ≥ 0` that is not a multiple of 100000,
`FormatNIM a` is the decimal numeral of `a / 100000`, then `.`, then exactly 5
fractional digits equal to `a mod 100000` left-padded with `0`; trailing zeros
of a partial fraction are kept (`150000` gives `1.50000`, `10` gives
`0.00010`). Hence every output of `FormatNIM` on a non-negative amount has
either no `.` or exactly 5 fractional digits. -/
theorem FormatNIM_five_fractional_digits (a : Int) (h0 : 0 ≤ a) :
    (a % 100000 ≠ 0 →
      FormatNIM a = some (Itoa (a / 100000) ++ '.' :: leftPad5 (Itoa (a % 100000))) ∧
        (leftPad5 (Itoa (a % 100000))).length = 5) ∧
    (∃ s, FormatNIM a = some s ∧ ('.' ∉ s ∨ (fractionalDigits s).length = 5)) := by
  obtain ⟨n, rfl⟩ := Int.eq_ofNat_of_zero_le h0
  have hq : ((n : Int) / 100000) = ((n / 100000 : Nat) : Int) := by norm_cast
  have hr : ((n : Int) % 100000) = ((n % 100000 : Nat) : Int) := by norm_cast
  rw [hq, hr, Itoa_natCast, Itoa_natCast, FormatNIM_natCast]
  have hlt : n % 100000 < 10 ^ 5 := by
    have := Nat.mod_lt n (show 100000 > 0 by omega)
    norm_num
    exact this
  have hpad : leftPad5 (Nat.toDigits 10 (n % 100000)) = fixedDigits 5 (n % 100000) :=
    (leftPad_toDigits 5 (n % 100000) hlt (by omega)).2
  have hnd : '.' ∉ Nat.toDigits 10 (n / 100000) := (toDigits_isDigits _).not_dot
  constructor
  · intro h
    have h2 : n % 100000 ≠ 0 := by exact_mod_cast h
    rw [hpad]
    simp [h2, fixedDigits_length]
  · by_cases h2 : n % 100000 = 0
    · exact ⟨Nat.toDigits 10 (n / 100000), by simp only [h2, if_true], Or.inl hnd⟩
    · refine ⟨Nat.toDigits 10 (n / 100000) ++ '.' :: fixedDigits 5 (n % 100000),
        by simp only [h2, if_false], Or.inr ?_⟩
      rw [fractionalDigits_dot _ _ hnd, fixedDigits_length]

theorem FormatNIM_five_fractional_digits_witness :
    FormatNIM 150000 = some "1.50000".toList ∧ FormatNIM 10 = some "0.00010".toList ∧
      ∃ s, FormatNIM 150000 = some s ∧ ('.' ∉ s ∨ (fractionalDigits s).length = 5) :=
  ⟨((FormatNIM_five_fractional_digits 150000 (by decide)).1 (by decide)).1,
    ((FormatNIM_five_fractional_digits 10 (by decide)).1 (by decide)).1,
    (FormatNIM_five_fractional_digits 150000 (by decide)).2⟩

/-- C25. The function `FormatLuna` accepts the empty display string:
`FormatLuna ""` returns the amount 0 and no error (the empty string is
right-padded to `00000`), whereas `FormatLuna "."` returns an error. -/
theorem FormatLuna_empty_and_dot :
    FormatLuna [] = some (0, none) ∧
      ([] : List Char) ++ ['0', '0', '0', '0', '0'] = "00000".toList ∧
      ∃ e, FormatLuna ['.'] = some (0, some e) := by
  refine ⟨by decide, by decide, NumError.ErrSyntax, by decide⟩

/-- C26. The function `FormatLuna` never wraps around on overflow: for every
decimal-digit input, with or without one `.`, whose digit string, after
padding or separator removal, denotes an integer greater than `2^63 - 1`,
`FormatLuna` returns the amount 0 and a non-nil error. -/
theorem FormatLuna_overflow_rejected :
    (∀ s, IsDigits s → 2 ^ 63 - 1 < decimalValue (s ++ ['0', '0', '0', '0', '0']) →
      ∃ e, FormatLuna s = some (0, some e)) ∧
    (∀ I F, IsDigits I → IsDigits F → 2 ^ 63 - 1 < decimalValue (I ++ F) →
      ∃ e, FormatLuna (I ++ '.' :: F) = some (0, some e)) := by
  constructor
  · intro s hd hv
    exact FormatLuna_no_dot_err s hd.not_dot
      (Atoi_overflow _ (IsDigits.append hd isDigits_zeros) hv)
  · intro I F hI hF hv
    exact FormatLuna_dot_err I F hI.not_dot (Atoi_overflow _ (IsDigits.append hI hF) hv)

theorem FormatLuna_overflow_rejected_witness :
    (∃ e, FormatLuna "92233720368548".toList = some (0, some e)) ∧
      (∃ e, FormatLuna "92233720368547.75808".toList = some (0, some e)) ∧
      FormatLuna "92233720368547.75807".toList = some (9223372036854775807, none) :=
  ⟨FormatLuna_overflow_rejected.1 "92233720368548".toList (by decide) (by decide),
    FormatLuna_overflow_rejected.2 "92233720368547".toList "75808".toList (by decide)
      (by decide) (by decide),
    by decide⟩

/-! ## The claim about the mempool -/

/-- C27. The method `Mempool` uses a field-value rule for absence: whenever the
call succeeds and the raw result decodes into a `Mempool` record, `Mempool`
returns `(nil, nil)` if and only if `Total` is 0 and `Buckets` is empty, and
otherwise returns the decoded record with a nil error; a structurally valid
mempool record reporting zero pending transactions gives the same result as
the zero record. -/
theorem Mempool_absence_rule {Resp σ : Type} (nc : Client Resp σ)
    (GetObject : Resp → Except Error Mempool) (s : σ) (rpcResp : Resp) (s1 : σ) (m : Mempool)
    (hcall : nc.Call "mempool" Param.null s = (Except.ok rpcResp, s1))
    (hdec : GetObject rpcResp = Except.ok m) :
    (nc.Mempool GetObject s = ((none, none), s1) ↔ (m.Total = 0 ∧ m.Buckets = [])) ∧
    (¬ (m.Total = 0 ∧ m.Buckets = []) → nc.Mempool GetObject s = ((some m, none), s1)) ∧
    (m.Total = 0 → m.Buckets = [] →
      nc.Mempool GetObject s = nc.Mempool (fun _ => Except.ok {}) s) := by
  have hlen : m.Buckets.length = 0 ↔ m.Buckets = [] := List.length_eq_zero
  by_cases h : m.Total = 0 ∧ m.Buckets = []
  · have h2 : m.Total = 0 ∧ m.Buckets.length = 0 := ⟨h.1, hlen.mpr h.2⟩
    have hres : nc.Mempool GetObject s = ((none, none), s1) := by
      simp only [Client.Mempool, hcall, hdec, h2, and_self, if_true]
    refine ⟨⟨fun _ => h, fun _ => hres⟩, fun hn => absurd h hn, fun _ _ => ?_⟩
    rw [hres]
    simp [Client.Mempool, hcall]
  · have h2 : ¬ (m.Total = 0 ∧ m.Buckets.length = 0) := fun hh => h ⟨hh.1, hlen.mp hh.2⟩
    have hres : nc.Mempool GetObject s = ((some m, none), s1) := by
      simp only [Client.Mempool, hcall, hdec, h2, if_false]
    refine ⟨⟨fun hh => ?_, fun hh => absurd hh h⟩, fun _ => hres, fun ht hb => absurd ⟨ht, hb⟩ h⟩
    rw [hres] at hh
    simp at hh

theorem Mempool_absence_rule_witness :
    ((constantClient ()).Mempool (fun _ => Except.ok { Bucket0 := 0 }) 0 = ((none, none), 1) ↔
      ((0 : Int) = 0 ∧ ([] : List Int) = [])) ∧
    (¬ ((0 : Int) = 0 ∧ ([] : List Int) = []) →
      (constantClient ()).Mempool (fun _ => Except.ok { Bucket0 := 0 }) 0 =
        ((some { Bucket0 := 0 }, none), 1)) ∧
    ((0 : Int) = 0 → ([] : List Int) = [] →
      (constantClient ()).Mempool (fun _ => Except.ok { Bucket0 := 0 }) 0 =
        (constantClient ()).Mempool (fun _ => Except.ok {}) 0) :=
  Mempool_absence_rule (constantClient ()) (fun _ => Except.ok { Bucket0 := 0 }) 0 () 1
    { Bucket0 := 0 } rfl rfl

end Nimiqrpc
